import Mathlib

/-!
Cluster allocation bitmap, free-space search and cluster relocation.

A shallow embedding of the volume tools of this repository
(`defragment.cpp`, `fragment.cpp`, `free_cluster_finder.cpp`).

Conventions of the embedding.

* A `std::vector<BYTE>` is a `List Nat`; cluster `c` is stored in bit `c % 8` of
  byte `c / 8`.  A read `v[i]` is `v.getD i 0`: inside the vector this is the
  C++ read, outside of it the C++ program has no defined behaviour, so every
  statement that depends on such a read carries an in-bounds hypothesis.
* `LONGLONG`, `ULONGLONG`, `DWORD`, `int` values are `Int` or `Nat`; the values
  handled are cluster numbers of one volume, far from the 64-bit limits, so
  wrap-around is not modelled except where a cast changes the value
  (`size_t` of a negative number, a `BYTE` store).
* The operating system calls (`DeviceIoControl`, `std::rand`) are oracles:
  functions of the call number (and of the request) that give the response.
* Loops that wait for the oracle to finish take a fuel argument and return
  `none` when it runs out.
-/

namespace Defrag

/-! ## Bitmap access -/

/-- Value `(bitmap[c / 8] >> (c % 8)) & 1` of cluster `c`: 1 = allocated, 0 = free. -/
def bitVal (bitmap : List Nat) (c : Nat) : Nat :=
  let byteIndex := c / 8
  let bitOffset := c % 8
  (bitmap.getD byteIndex 0 >>> bitOffset) &&& 1

/-- Function `IsClusterFree` of `defragment.cpp`. -/
def IsClusterFree (bitmap : List Nat) (clusterIndex : Nat) : Bool :=
  bitVal bitmap clusterIndex == 0

/-- Statement `bitmap[c / 8] |= (BYTE)(1 << (c % 8))`. -/
def setBit (bitmap : List Nat) (c : Nat) : List Nat :=
  let byteIndex := c / 8
  let bitOffset := c % 8
  bitmap.set byteIndex ((bitmap.getD byteIndex 0 ||| (1 <<< bitOffset)) % 256)

/-- Statement `bitmap[c / 8] &= ~(1 << (c % 8))`: the byte is promoted to `int`,
and-ed with the complement of the mask and stored back as a `BYTE`, so of the
complement only its low eight bits `255 ^ (1 << off)` matter. -/
def clearBit (bitmap : List Nat) (c : Nat) : List Nat :=
  let byteIndex := c / 8
  let bitOffset := c % 8
  bitmap.set byteIndex ((bitmap.getD byteIndex 0 &&& (255 ^^^ (1 <<< bitOffset))) % 256)

/-! ## Contiguous free block search (`defragment.cpp`) -/

/-- The `for (c = 0; c < totalClusters; c++)` loop of `FindContiguousFreeBlock`:
`n` iterations remain, `c` is the loop variable, `runStart` and `runLen` the
two locals.  `some s` is `return true` with `outBlockStart = s`. -/
def findBlockLoop (volumeBitmap : List Nat) (clustersNeeded : Nat) :
    Nat → Nat → Nat → Nat → Option Nat
  | 0, _, _, _ => none
  | n + 1, c, runStart, runLen =>
    if IsClusterFree volumeBitmap c then
      let runStart := if runLen = 0 then c else runStart
      let runLen := runLen + 1
      if runLen = clustersNeeded then some runStart
      else findBlockLoop volumeBitmap clustersNeeded n (c + 1) runStart runLen
    else findBlockLoop volumeBitmap clustersNeeded n (c + 1) runStart 0

/-- Function `FindContiguousFreeBlock`: `some s` for `true` with `outBlockStart = s`,
`none` for `false`. -/
def FindContiguousFreeBlock (volumeBitmap : List Nat) (totalClusters clustersNeeded : Nat) :
    Option Nat :=
  findBlockLoop volumeBitmap clustersNeeded totalClusters 0 0 0

/-! ## Volume bitmap assembly (`GetVolumeBitmapChunked`) -/

/-- What one `DeviceIoControl(FSCTL_GET_VOLUME_BITMAP)` call leaves behind:
the `BOOL` result, whether `GetLastError()` is `ERROR_MORE_DATA`,
`bytesReturned`, the two header fields of the `VOLUME_BITMAP_BUFFER` and the
bytes of its `Buffer`.  The temporary buffer is zeroed before every call, so a
byte the call did not write reads as 0, which is what `getD _ 0` gives. -/
structure BitmapResponse where
  success : Bool
  moreData : Bool
  bytesReturned : Nat
  StartingLcn : Int
  BitmapSize : Int
  Buffer : List Nat

/-- The clamped `chunkBits` of a response, lines 117-131 of `defragment.cpp`.
`headerSize` is `sizeof(VOLUME_BITMAP_BUFFER)`, a constant of the Windows
headers.  The C++ division truncates towards zero and the cast to `size_t`
wraps a negative quotient modulo `2 ^ 64`. -/
def clampChunkBits (headerSize : Nat) (r : BitmapResponse) : Int :=
  let chunkBits := r.BitmapSize
  let chunkBytes : Nat := (((chunkBits + 7).tdiv 8) % (2 : Int) ^ 64).toNat
  let bytesReturnedBody := if r.bytesReturned > headerSize then r.bytesReturned - headerSize else 0
  let chunkBytes := if chunkBytes > bytesReturnedBody then bytesReturnedBody else chunkBytes
  let chunkBitsAvailable : Int := (chunkBytes : Int) * 8
  if chunkBits > chunkBitsAvailable then chunkBitsAvailable else chunkBits

/-- The copy loop `for (i = 0; i < chunkBits; i++)`, lines 134-147: `n`
iterations remain, `i` is the loop variable. -/
def copyBitsLoop (srcBits : List Nat) (startLCN : Int) (totalClusters : Nat) :
    Nat → Nat → List Nat → List Nat
  | 0, _, outBitmap => outBitmap
  | n + 1, i, outBitmap =>
    let clusterIndex : Int := startLCN + (i : Int)
    if clusterIndex ≥ (totalClusters : Int) then outBitmap
    else
      let outBitmap :=
        if bitVal srcBits i = 1 then setBit outBitmap clusterIndex.toNat else outBitmap
      copyBitsLoop srcBits startLCN totalClusters n (i + 1) outBitmap

/-- Result of `GetVolumeBitmapChunked`: the returned `bool`, the output vector
and, for the statements about the paging protocol, the starting LCN of every
query that was issued, in order. -/
structure BitmapResult where
  ret : Bool
  outBitmap : List Nat
  requests : List Int
deriving DecidableEq

/-- The `while (true)` loop of `GetVolumeBitmapChunked`.  `query k lcn` is the
response to the `k`-th call (counted from 0) when it asks for `lcn`.  The
result is the output vector and the requests at the `break`. -/
def bitmapLoop (query : Nat → Int → BitmapResponse) (headerSize totalClusters : Nat) :
    Nat → Nat → Int → List Nat → List Int → Option (List Nat × List Int)
  | 0, _, _, _, _ => none
  | fuel + 1, k, inStartingLcn, outBitmap, requests =>
    let r := query k inStartingLcn
    let requests := requests ++ [inStartingLcn]
    if r.bytesReturned < headerSize then some (outBitmap, requests)
    else
      let startLCN := r.StartingLcn
      let chunkBits := clampChunkBits headerSize r
      let outBitmap := copyBitsLoop r.Buffer startLCN totalClusters chunkBits.toNat 0 outBitmap
      let nextLCN := startLCN + chunkBits
      let maxLCN : Int := (totalClusters : Int) - 1
      if !r.success then
        if r.moreData then
          if nextLCN > maxLCN then some (outBitmap, requests)
          else bitmapLoop query headerSize totalClusters fuel (k + 1) nextLCN outBitmap requests
        else some (outBitmap, requests)
      else
        if chunkBits = 0 ∨ nextLCN > maxLCN then some (outBitmap, requests)
        else bitmapLoop query headerSize totalClusters fuel (k + 1) nextLCN outBitmap requests

/-- Function `GetVolumeBitmapChunked` (the three copies in `defragment.cpp`,
`fragment.cpp` and `free_cluster_finder.cpp` are the same code). -/
def GetVolumeBitmapChunked (query : Nat → Int → BitmapResponse) (headerSize totalClusters : Nat)
    (fuel : Nat) : Option BitmapResult :=
  let outBitmap := List.replicate ((totalClusters + 7) / 8) 0
  match bitmapLoop query headerSize totalClusters fuel 0 0 outBitmap [] with
  | none => none
  | some (outBitmap, requests) =>
    some { ret := !outBitmap.isEmpty, outBitmap := outBitmap, requests := requests }

/-! ## File extent mapping (`GetAllFileRetrievalPointers`) -/

/-- One entry of `RETRIEVAL_POINTERS_BUFFER::Extents`. -/
structure Extent where
  NextVcn : Int
  Lcn : Int
deriving DecidableEq

/-- What one `DeviceIoControl(FSCTL_GET_RETRIEVAL_POINTERS)` call leaves
behind: the `BOOL` result, whether `GetLastError()` is `ERROR_HANDLE_EOF`,
`bytesReturned`, and the `RETRIEVAL_POINTERS_BUFFER` (`ExtentCount` is the
length of `Extents`). -/
structure RetrievalResponse where
  ok : Bool
  eof : Bool
  bytesReturned : Nat
  StartingVcn : Int
  Extents : List Extent

/-- The `struct FileClusters`. -/
structure FileClusters where
  vcns : List Int
  lcns : List Int
deriving DecidableEq

/-- The loop `for (c = 0; c < count; c++)` with its two `push_back`s, lines 229-232. -/
def pushRunLoop (currentVcn lcn : Int) : Nat → Nat → FileClusters → FileClusters
  | 0, _, outClusters => outClusters
  | n + 1, c, outClusters =>
    pushRunLoop currentVcn lcn n (c + 1)
      { vcns := outClusters.vcns ++ [currentVcn + (c : Int)],
        lcns := outClusters.lcns ++ [lcn + (c : Int)] }

/-- The loop over the extents of one response, lines 219-234. -/
def extentLoop : List Extent → Int → FileClusters → FileClusters
  | [], _, outClusters => outClusters
  | e :: rest, currentVcn, outClusters =>
    let nextVcn := e.NextVcn
    let lcn := e.Lcn
    if lcn = -1 then extentLoop rest nextVcn outClusters
    else
      let count := nextVcn - currentVcn
      extentLoop rest nextVcn (pushRunLoop currentVcn lcn count.toNat 0 outClusters)

/-- Result of `GetAllFileRetrievalPointers`: the returned `bool`, the output
map (as it stands at the return, also on failure) and the starting VCN of
every query issued. -/
structure RetrievalResult where
  ret : Bool
  outClusters : FileClusters
  requests : List Int
deriving DecidableEq

/-- The `while (true)` loop of `GetAllFileRetrievalPointers`; `query k vcn` is
the response to the `k`-th call when it asks for `vcn`; `headerSize` is
`sizeof(RETRIEVAL_POINTERS_BUFFER)`. -/
def retrievalLoop (query : Nat → Int → RetrievalResponse) (headerSize : Nat) :
    Nat → Nat → Int → FileClusters → List Int → Option RetrievalResult
  | 0, _, _, _, _ => none
  | fuel + 1, k, inStartingVcn, outClusters, requests =>
    let r := query k inStartingVcn
    let requests := requests ++ [inStartingVcn]
    if !r.ok then
      if r.eof then some { ret := true, outClusters := outClusters, requests := requests }
      else some { ret := false, outClusters := outClusters, requests := requests }
    else if r.bytesReturned < headerSize then
      some { ret := false, outClusters := outClusters, requests := requests }
    else if r.Extents.length = 0 then
      some { ret := true, outClusters := outClusters, requests := requests }
    else
      let outClusters := extentLoop r.Extents r.StartingVcn outClusters
      let lastNextVcn := (r.Extents.getD (r.Extents.length - 1) ⟨0, 0⟩).NextVcn
      if lastNextVcn ≤ inStartingVcn then
        some { ret := true, outClusters := outClusters, requests := requests }
      else retrievalLoop query headerSize fuel (k + 1) lastNextVcn outClusters requests

/-- Function `GetAllFileRetrievalPointers` (same code in `defragment.cpp` and `fragment.cpp`). -/
def GetAllFileRetrievalPointers (query : Nat → Int → RetrievalResponse) (headerSize : Nat)
    (fuel : Nat) : Option RetrievalResult :=
  retrievalLoop query headerSize fuel 0 0 { vcns := [], lcns := [] } []

/-! ## Cluster relocation and the two policies -/

/-- The in-memory model a per-file operation works on: the shared volume
bitmap, the local `FileClusters fc`, and the `(srcVcn, dstLcn)` arguments of
every `MoveSingleCluster` call made so far, in order. -/
structure MoveState where
  volumeBitmap : List Nat
  fc : FileClusters
  moves : List (Int × Int)
deriving DecidableEq

/-- One iteration of the move loop of `DefragmentFile`, lines 382-410, for loop
index `i`.  `move k srcVcn dstLcn` is what the `k`-th `MoveSingleCluster` call
of this file returns.  For a source LCN inside the volume `(size_t)(srcLcn / 8)`
and `(int)(srcLcn % 8)` are the quotient and remainder of `srcLcn.toNat`. -/
def defragMoveStep (move : Nat → Int → Int → Bool) (blockStart : Nat) (i : Nat)
    (st : MoveState) : MoveState :=
  let srcVcn := st.fc.vcns.getD i 0
  let srcLcn := st.fc.lcns.getD i 0
  let dstLcn : Int := (blockStart : Int) + (i : Int)
  if srcLcn = dstLcn then st
  else
    let moves := st.moves ++ [(srcVcn, dstLcn)]
    if !move st.moves.length srcVcn dstLcn then { st with moves := moves }
    else
      let volumeBitmap := clearBit st.volumeBitmap srcLcn.toNat
      let volumeBitmap := setBit volumeBitmap dstLcn.toNat
      { volumeBitmap := volumeBitmap,
        fc := { st.fc with lcns := st.fc.lcns.set i dstLcn },
        moves := moves }

/-- The loop `for (i = 0; i < fileClusterCount; i++)` of `DefragmentFile`. -/
def defragMoveLoop (move : Nat → Int → Int → Bool) (blockStart : Nat) :
    Nat → Nat → MoveState → MoveState
  | 0, _, st => st
  | n + 1, i, st => defragMoveLoop move blockStart n (i + 1) (defragMoveStep move blockStart i st)

/-- The contiguity check `for (i = 1; i < fc.lcns.size(); i++)`, lines 346-352. -/
def isContiguousLoop (lcns : List Int) : Nat → Nat → Bool
  | 0, _ => true
  | n + 1, i =>
    if lcns.getD i 0 ≠ lcns.getD (i - 1) 0 + 1 then false
    else isContiguousLoop lcns n (i + 1)

/-- Result of a per-file operation: the returned `bool` and the model at exit. -/
structure FileResult where
  ret : Bool
  st : MoveState
deriving DecidableEq

/-- Function `DefragmentFile`.  `openOk` tells whether `CreateFileW` gave a valid handle;
`query` and `headerSize` serve `GetAllFileRetrievalPointers`, `move` serves
`MoveSingleCluster`; `fuel` bounds the extent queries. -/
def DefragmentFile (openOk : Bool) (query : Nat → Int → RetrievalResponse) (headerSize : Nat)
    (move : Nat → Int → Int → Bool) (volumeBitmap : List Nat) (totalClusters : Nat)
    (fuel : Nat) : Option FileResult :=
  if !openOk then
    some { ret := false, st := ⟨volumeBitmap, ⟨[], []⟩, []⟩ }
  else
    match GetAllFileRetrievalPointers query headerSize fuel with
    | none => none
    | some r =>
      let fc := r.outClusters
      if !r.ret then some { ret := false, st := ⟨volumeBitmap, fc, []⟩ }
      else if fc.lcns.isEmpty then some { ret := true, st := ⟨volumeBitmap, fc, []⟩ }
      else if isContiguousLoop fc.lcns (fc.lcns.length - 1) 1 then
        some { ret := true, st := ⟨volumeBitmap, fc, []⟩ }
      else
        let fileClusterCount := fc.lcns.length
        match FindContiguousFreeBlock volumeBitmap totalClusters fileClusterCount with
        | none => some { ret := true, st := ⟨volumeBitmap, fc, []⟩ }
        | some blockStart =>
          some { ret := true,
                 st := defragMoveLoop move blockStart fileClusterCount 0 ⟨volumeBitmap, fc, []⟩ }

/-- The random probes `for (attempt = 0; attempt < RANDOM_ATTEMPTS; attempt++)` of
`FragmentFileRandomly`, lines 311-321: `n` attempts remain, `k` calls of
`std::rand` were made before; `rand k` is the value of the `k`-th call.  Gives
the cluster found, if any, and the number of `std::rand` calls made. -/
def randomProbeLoop (rand : Nat → Nat) (volumeBitmap : List Nat) (totalClusters : Nat) :
    Nat → Nat → Option Nat × Nat
  | 0, k => (none, k)
  | n + 1, k =>
    let candidate := rand k % totalClusters
    if bitVal volumeBitmap candidate = 0 then (some candidate, k + 1)
    else randomProbeLoop rand volumeBitmap totalClusters n (k + 1)

/-- The fallback `for (c = 0; c < totalClusters; c++)` of `FragmentFileRandomly`,
lines 325-334. -/
def linearProbeLoop (volumeBitmap : List Nat) : Nat → Nat → Option Nat
  | 0, _ => none
  | n + 1, c =>
    if bitVal volumeBitmap c = 0 then some c else linearProbeLoop volumeBitmap n (c + 1)

/-- Destination search of one iteration of `FragmentFileRandomly`, lines 308-335:
2000 random probes, then the linear fallback; `k` calls of `std::rand` were
made before. -/
def findFreeDestination (rand : Nat → Nat) (volumeBitmap : List Nat) (totalClusters : Nat)
    (k : Nat) : Option Nat × Nat :=
  match randomProbeLoop rand volumeBitmap totalClusters 2000 k with
  | (some candidate, k) => (some candidate, k)
  | (none, k) => (linearProbeLoop volumeBitmap totalClusters 0, k)

/-- One iteration of the loop of `FragmentFileRandomly`, lines 304-361, with
`randCalls` calls of `std::rand` made before.  The `Bool` is `false` when the
iteration executes `return false`. -/
def fragMoveStep (rand : Nat → Nat) (move : Nat → Int → Int → Bool) (totalClusters : Nat)
    (randCalls : Nat) (st : MoveState) : Bool × MoveState × Nat :=
  let randomIndex := rand randCalls % st.fc.vcns.length
  let srcVcn := st.fc.vcns.getD randomIndex 0
  let srcLcn := st.fc.lcns.getD randomIndex 0
  match findFreeDestination rand st.volumeBitmap totalClusters (randCalls + 1) with
  | (none, k) => (false, st, k)
  | (some newLcn, k) =>
    let moves := st.moves ++ [(srcVcn, (newLcn : Int))]
    if !move st.moves.length srcVcn (newLcn : Int) then (true, { st with moves := moves }, k)
    else
      let volumeBitmap := clearBit st.volumeBitmap srcLcn.toNat
      let volumeBitmap := setBit volumeBitmap newLcn
      (true,
       { volumeBitmap := volumeBitmap,
         fc := { st.fc with lcns := st.fc.lcns.set randomIndex (newLcn : Int) },
         moves := moves },
       k)

/-- The loop `for (i = 0; i < movesToPerform; i++)` of `FragmentFileRandomly`. -/
def fragMoveLoop (rand : Nat → Nat) (move : Nat → Int → Int → Bool) (totalClusters : Nat) :
    Nat → Nat → MoveState → FileResult
  | 0, _, st => { ret := true, st := st }
  | n + 1, randCalls, st =>
    match fragMoveStep rand move totalClusters randCalls st with
    | (false, st, _) => { ret := false, st := st }
    | (true, st, k) => fragMoveLoop rand move totalClusters n k st

/-- Function `FragmentFileRandomly`; `movesToPerform` is an `int`. -/
def FragmentFileRandomly (openOk : Bool) (query : Nat → Int → RetrievalResponse)
    (headerSize : Nat) (rand : Nat → Nat) (move : Nat → Int → Int → Bool)
    (volumeBitmap : List Nat) (totalClusters : Nat) (movesToPerform : Int) (fuel : Nat) :
    Option FileResult :=
  if !openOk then
    some { ret := false, st := ⟨volumeBitmap, ⟨[], []⟩, []⟩ }
  else
    match GetAllFileRetrievalPointers query headerSize fuel with
    | none => none
    | some r =>
      let fc := r.outClusters
      if !r.ret then some { ret := false, st := ⟨volumeBitmap, fc, []⟩ }
      else if fc.vcns.isEmpty then some { ret := false, st := ⟨volumeBitmap, fc, []⟩ }
      else some (fragMoveLoop rand move totalClusters movesToPerform.toNat 0 ⟨volumeBitmap, fc, []⟩)

/-! ## Scattered free-cluster search (`free_cluster_finder.cpp`) -/

/-- The loop of `LinearFindFreeClusters`: `n` clusters remain, `c` is the loop
variable; the second half of the loop condition is tested in every round. -/
def linearFindLoop (bitmap : List Nat) (howMany : Int) : Nat → Nat → List Nat → List Nat
  | 0, _, out => out
  | n + 1, c, out =>
    if (out.length : Int) < howMany then
      linearFindLoop bitmap howMany n (c + 1) (if bitVal bitmap c = 0 then out ++ [c] else out)
    else out

/-- The list `LinearFindFreeClusters` returns when its `out.reserve(howMany)`
does not throw; `howMany` is an `int`.  The `reserve` call is `reserveThrows`
below, and the call as a whole is `LinearFindFreeClustersCall`. -/
def LinearFindFreeClusters (bitmap : List Nat) (totalClusters : Nat) (howMany : Int) : List Nat :=
  linearFindLoop bitmap howMany totalClusters 0 []

/-- The `while` loop of `FindRandomFreeClusters`: `n` is `maxAttempts - attempts`;
the `attempts`-th call of `std::rand` gives `rand attempts`. -/
def randomFindLoop (rand : Nat → Nat) (bitmap : List Nat) (totalClusters : Nat) (howMany : Int) :
    Nat → Nat → List Nat → List Nat
  | 0, _, found => found
  | n + 1, attempts, found =>
    if (found.length : Int) < howMany then
      let candidate := rand attempts % totalClusters
      randomFindLoop rand bitmap totalClusters howMany n (attempts + 1)
        (if bitVal bitmap candidate = 0 then found ++ [candidate] else found)
    else found

/-- The list `FindRandomFreeClusters` returns when its `found.reserve(howMany)`
does not throw, with `maxAttempts = totalClusters * 10`.  The `reserve` call is
`reserveThrows` below, and the call as a whole is `FindRandomFreeClustersCall`. -/
def FindRandomFreeClusters (rand : Nat → Nat) (bitmap : List Nat) (totalClusters : Nat)
    (howMany : Int) : List Nat :=
  randomFindLoop rand bitmap totalClusters howMany (totalClusters * 10) 0 []

/-- The statements `out.reserve(howMany)` and `found.reserve(howMany)` on a
fresh vector: the `int` argument is converted to `size_type`, so a negative
`howMany` becomes a value above `max_size()` and `reserve` throws
`std::length_error`.  A non-negative `int` is below `max_size()` of a vector of
`ULONGLONG` in a 64-bit build; the allocation itself is taken to succeed. -/
def reserveThrows (howMany : Int) : Bool :=
  decide (howMany < 0)

/-- A call of `LinearFindFreeClusters` as a whole: `none` when
`out.reserve(howMany)` throws, otherwise the list the loop builds. -/
def LinearFindFreeClustersCall (bitmap : List Nat) (totalClusters : Nat) (howMany : Int) :
    Option (List Nat) :=
  if reserveThrows howMany then none
  else some (LinearFindFreeClusters bitmap totalClusters howMany)

/-- A call of `FindRandomFreeClusters` as a whole: `none` when
`found.reserve(howMany)` throws, otherwise the list the loop builds. -/
def FindRandomFreeClustersCall (rand : Nat → Nat) (bitmap : List Nat) (totalClusters : Nat)
    (howMany : Int) : Option (List Nat) :=
  if reserveThrows howMany then none
  else some (FindRandomFreeClusters rand bitmap totalClusters howMany)

/-- The `while` loop of `FindRandomFreeClusters` once more, observed at the
variable `attempts`: the value it has when the loop ends. -/
def randomAttemptsLoop (rand : Nat → Nat) (bitmap : List Nat) (totalClusters : Nat)
    (howMany : Int) : Nat → Nat → List Nat → Nat
  | 0, attempts, _ => attempts
  | n + 1, attempts, found =>
    if (found.length : Int) < howMany then
      let candidate := rand attempts % totalClusters
      randomAttemptsLoop rand bitmap totalClusters howMany n (attempts + 1)
        (if bitVal bitmap candidate = 0 then found ++ [candidate] else found)
    else attempts

/-- The number of draws one call of `FindRandomFreeClusters` makes: the final
value of `attempts`. -/
def drawsMade (rand : Nat → Nat) (bitmap : List Nat) (totalClusters : Nat) (howMany : Int) :
    Nat :=
  randomAttemptsLoop rand bitmap totalClusters howMany (totalClusters * 10) 0 []

/-- The loop of `CountFreeClusters`: `n` clusters remain, `c` is the loop variable. -/
def countFreeLoop (volumeBitmap : List Nat) : Nat → Nat → Nat → Nat
  | 0, _, freeCount => freeCount
  | n + 1, c, freeCount =>
    countFreeLoop volumeBitmap n (c + 1)
      (if bitVal volumeBitmap c = 0 then freeCount + 1 else freeCount)

/-- Function `CountFreeClusters` of `free_cluster_finder.cpp`. -/
def CountFreeClusters (volumeBitmap : List Nat) (totalClusters : Nat) : Nat :=
  countFreeLoop volumeBitmap totalClusters 0 0

/-! ## Paging loop of the read-bitmap tool (`read_bitmap.cpp`) -/

/-- The `while (true)` loop of `main` in `read_bitmap.cpp`, lines 103-186, which
walks the volume bitmap without storing it.  The result is the starting LCN of
every query issued, in order; `maxLCN` is `totalClusters - 1`. -/
def readBitmapLoop (query : Nat → Int → BitmapResponse) (headerSize : Nat) (maxLCN : Int) :
    Nat → Nat → Int → List Int → Option (List Int)
  | 0, _, _, _ => none
  | fuel + 1, k, inStartingLcn, requests =>
    let r := query k inStartingLcn
    let requests := requests ++ [inStartingLcn]
    if r.bytesReturned < headerSize then some requests
    else
      let startLCN := r.StartingLcn
      let chunkClusters := r.BitmapSize
      if !r.success then
        if r.moreData then
          let nextLCN := startLCN + chunkClusters
          if nextLCN > maxLCN then some requests
          else readBitmapLoop query headerSize maxLCN fuel (k + 1) nextLCN requests
        else some requests
      else
        if chunkClusters = 0 then some requests
        else
          let nextLCN := startLCN + chunkClusters
          if nextLCN > maxLCN then some requests
          else readBitmapLoop query headerSize maxLCN fuel (k + 1) nextLCN requests

/-- The paging part of `main` in `read_bitmap.cpp`: the loop started at LCN 0. -/
def readBitmapPaging (query : Nat → Int → BitmapResponse) (headerSize totalClusters : Nat)
    (fuel : Nat) : Option (List Int) :=
  readBitmapLoop query headerSize ((totalClusters : Int) - 1) fuel 0 0 []

/-! ## Bounds-checked variants

The same loops with every vector access checked: `none` stands for an access
outside the vector, where the C++ program has no defined behaviour. -/

/-- Checked read of the bit of cluster `c`: `bitmap[c / 8]` must exist. -/
def bitValChecked (bitmap : List Nat) (c : Nat) : Option Nat :=
  match bitmap[c / 8]? with
  | some b => some ((b >>> (c % 8)) &&& 1)
  | none => none

/-- Checked `IsClusterFree`. -/
def IsClusterFreeChecked (bitmap : List Nat) (clusterIndex : Nat) : Option Bool :=
  match bitValChecked bitmap clusterIndex with
  | some bitVal => some (bitVal == 0)
  | none => none

/-- Checked loop of `FindContiguousFreeBlock`. -/
def findBlockLoopChecked (volumeBitmap : List Nat) (clustersNeeded : Nat) :
    Nat → Nat → Nat → Nat → Option (Option Nat)
  | 0, _, _, _ => some none
  | n + 1, c, runStart, runLen =>
    match IsClusterFreeChecked volumeBitmap c with
    | none => none
    | some true =>
      let runStart := if runLen = 0 then c else runStart
      let runLen := runLen + 1
      if runLen = clustersNeeded then some (some runStart)
      else findBlockLoopChecked volumeBitmap clustersNeeded n (c + 1) runStart runLen
    | some false => findBlockLoopChecked volumeBitmap clustersNeeded n (c + 1) runStart 0

/-- Checked `FindContiguousFreeBlock`. -/
def FindContiguousFreeBlockChecked (volumeBitmap : List Nat)
    (totalClusters clustersNeeded : Nat) : Option (Option Nat) :=
  findBlockLoopChecked volumeBitmap clustersNeeded totalClusters 0 0 0

/-- Checked loop of `CountFreeClusters`. -/
def countFreeLoopChecked (volumeBitmap : List Nat) : Nat → Nat → Nat → Option Nat
  | 0, _, freeCount => some freeCount
  | n + 1, c, freeCount =>
    match bitValChecked volumeBitmap c with
    | none => none
    | some bitVal =>
      countFreeLoopChecked volumeBitmap n (c + 1)
        (if bitVal = 0 then freeCount + 1 else freeCount)

/-- Checked `CountFreeClusters`. -/
def CountFreeClustersChecked (volumeBitmap : List Nat) (totalClusters : Nat) : Option Nat :=
  countFreeLoopChecked volumeBitmap totalClusters 0 0

/-- Checked loop of `LinearFindFreeClusters`. -/
def linearFindLoopChecked (bitmap : List Nat) (howMany : Int) :
    Nat → Nat → List Nat → Option (List Nat)
  | 0, _, out => some out
  | n + 1, c, out =>
    if (out.length : Int) < howMany then
      match bitValChecked bitmap c with
      | none => none
      | some bitVal =>
        linearFindLoopChecked bitmap howMany n (c + 1) (if bitVal = 0 then out ++ [c] else out)
    else some out

/-- Checked `LinearFindFreeClusters`. -/
def LinearFindFreeClustersChecked (bitmap : List Nat) (totalClusters : Nat) (howMany : Int) :
    Option (List Nat) :=
  linearFindLoopChecked bitmap howMany totalClusters 0 []

/-- Checked loop of `FindRandomFreeClusters`. -/
def randomFindLoopChecked (rand : Nat → Nat) (bitmap : List Nat) (totalClusters : Nat)
    (howMany : Int) : Nat → Nat → List Nat → Option (List Nat)
  | 0, _, found => some found
  | n + 1, attempts, found =>
    if (found.length : Int) < howMany then
      let candidate := rand attempts % totalClusters
      match bitValChecked bitmap candidate with
      | none => none
      | some bitVal =>
        randomFindLoopChecked rand bitmap totalClusters howMany n (attempts + 1)
          (if bitVal = 0 then found ++ [candidate] else found)
    else some found

/-- Checked `FindRandomFreeClusters`. -/
def FindRandomFreeClustersChecked (rand : Nat → Nat) (bitmap : List Nat) (totalClusters : Nat)
    (howMany : Int) : Option (List Nat) :=
  randomFindLoopChecked rand bitmap totalClusters howMany (totalClusters * 10) 0 []

/-- Checked `bitmap[c / 8] |= (1 << (c % 8))`. -/
def setBitChecked (bitmap : List Nat) (c : Nat) : Option (List Nat) :=
  if c / 8 < bitmap.length then some (setBit bitmap c) else none

/-- Checked `bitmap[c / 8] &= ~(1 << (c % 8))`. -/
def clearBitChecked (bitmap : List Nat) (c : Nat) : Option (List Nat) :=
  if c / 8 < bitmap.length then some (clearBit bitmap c) else none

/-! ## Predicates used in the statements -/

/-- Clusters `P .. P + N - 1` are all free. -/
def FreeRun (bitmap : List Nat) (P N : Nat) : Prop :=
  ∀ i, i < N → IsClusterFree bitmap (P + i) = true


/-- Number of bits a bitmap response really delivers: the declared `BitmapSize`
cut down to the bits of the bytes returned after the header. -/
def deliveredBits (headerSize : Nat) (r : BitmapResponse) : Nat :=
  min r.BitmapSize.toNat (8 * (r.bytesReturned - headerSize))

/-- A well-behaved bitmap oracle for a volume whose true allocation is `B`:
whenever it is asked for an LCN inside the volume, the response has its header,
is not a hard failure, starts at the requested LCN, declares a size that fits a
`LONGLONG`, delivers at least one bit, and its delivered bits are those of `B`
at the corresponding absolute positions. -/
def WellBehavedVolume (B : Nat → Bool) (totalClusters headerSize : Nat)
    (query : Nat → Int → BitmapResponse) : Prop :=
  ∀ k lcn : Nat, lcn < totalClusters →
    headerSize ≤ (query k lcn).bytesReturned ∧
    ((query k lcn).success = true ∨ (query k lcn).moreData = true) ∧
    (query k lcn).StartingLcn = lcn ∧
    0 ≤ (query k lcn).BitmapSize ∧ (query k lcn).BitmapSize < 2 ^ 63 ∧
    1 ≤ deliveredBits headerSize (query k lcn) ∧
    ∀ i, i < deliveredBits headerSize (query k lcn) → lcn + i < totalClusters →
      bitVal (query k lcn).Buffer i = (B (lcn + i)).toNat

/-- The requests `r₀, r₁, ...` issued from call number `k` on tile the volume:
every request after the first starts exactly where the bits delivered to the
request before it end, and the bits delivered to the last request reach
`totalClusters`. -/
def TilesFrom (query : Nat → Int → BitmapResponse) (headerSize totalClusters : Nat) :
    Nat → List Int → Prop
  | _, [] => False
  | k, [r] => (totalClusters : Int) ≤ r + (deliveredBits headerSize (query k r) : Int)
  | k, r :: r' :: rest =>
    r' = r + (deliveredBits headerSize (query k r) : Int) ∧
      TilesFrom query headerSize totalClusters (k + 1) (r' :: rest)

/-- Expansion of an extent list whose first extent starts at VCN `start`, as the
specification words it: every extent that is not a sentinel gives the pairs
`(start + c, lcn + c)` for `c` in `[0, NextVcn - start)`, a sentinel gives
nothing, and in both cases the next extent starts at this one's `NextVcn`. -/
def expandExtents : Int → List Extent → List (Int × Int)
  | _, [] => []
  | start, e :: rest =>
    (if e.Lcn = -1 then []
     else (List.range (e.NextVcn - start).toNat).map
       (fun (c : Nat) => (start + (c : Int), e.Lcn + (c : Int))))
    ++ expandExtents e.NextVcn rest

/-- The oracle serves the extent list of a file in the given chunks: the `k`-th
query, asked for VCN `vcn`, succeeds with its header, starts at the requested
VCN and carries the next chunk (which is not empty); the query after the last
chunk reports end of file or carries no extent. -/
def ServesChunks (query : Nat → Int → RetrievalResponse) (headerSize : Nat) :
    Nat → Int → List (List Extent) → Prop
  | k, vcn, [] =>
    ((query k vcn).ok = false ∧ (query k vcn).eof = true) ∨
    ((query k vcn).ok = true ∧ headerSize ≤ (query k vcn).bytesReturned ∧
      (query k vcn).Extents = [])
  | k, vcn, chunk :: rest =>
    (query k vcn).ok = true ∧ headerSize ≤ (query k vcn).bytesReturned ∧
    (query k vcn).StartingVcn = vcn ∧ (query k vcn).Extents = chunk ∧ chunk ≠ [] ∧
    ServesChunks query headerSize (k + 1) (chunk.getD (chunk.length - 1) ⟨0, 0⟩).NextVcn rest

/-- The in-memory effect of relocating the cluster at map index `idx` from
`srcLcn` to `dstLcn`, from `st` to `st'`: the destination bit is set, the
source bit is clear, no other cluster bit differs, the map entry `idx` is the
destination and no other map entry differs. -/
def RelocationPost (st : MoveState) (idx srcLcn dstLcn : Nat) (st' : MoveState) : Prop :=
  bitVal st'.volumeBitmap dstLcn = 1 ∧ bitVal st'.volumeBitmap srcLcn = 0 ∧
  (∀ c, c ≠ srcLcn → c ≠ dstLcn → bitVal st'.volumeBitmap c = bitVal st.volumeBitmap c) ∧
  st'.volumeBitmap.length = st.volumeBitmap.length ∧
  st'.fc.lcns.getD idx 0 = (dstLcn : Int) ∧
  (∀ j, j ≠ idx → st'.fc.lcns.getD j 0 = st.fc.lcns.getD j 0) ∧
  st'.fc.lcns.length = st.fc.lcns.length ∧ st'.fc.vcns = st.fc.vcns

/-- The free clusters of `[0, totalClusters)` in ascending order. -/
def freeClusters (bitmap : List Nat) (totalClusters : Nat) : List Nat :=
  (List.range totalClusters).filter (IsClusterFree bitmap)

/-- The candidates `rand k % totalClusters` of the first `n` draws, in draw order. -/
def drawnCandidates (rand : Nat → Nat) (totalClusters n : Nat) : List Nat :=
  (List.range n).map (fun k => rand k % totalClusters)

/-- A hard failure of an extent query: the call fails with an error other than
`ERROR_HANDLE_EOF`, or succeeds with fewer bytes than the buffer header. -/
def HardFailure (headerSize : Nat) (r : RetrievalResponse) : Prop :=
  (r.ok = false ∧ r.eof = false) ∨ (r.ok = true ∧ r.bytesReturned < headerSize)

/-- The response `r` to a query for VCN `v` is no hard failure and meets no stop
condition: the call succeeds with its header and at least one extent, and the
last `NextVcn` is above `v`, so the loop goes on with that `NextVcn`. -/
def GoesOn (headerSize : Nat) (r : RetrievalResponse) (v : Int) : Prop :=
  r.ok = true ∧ headerSize ≤ r.bytesReturned ∧ r.Extents ≠ [] ∧
    v < (r.Extents.getD (r.Extents.length - 1) ⟨0, 0⟩).NextVcn

/-- From the `k`-th query on, which asks for VCN `v`: `n` queries in a row meet
no stop condition, each followed by the query for its last `NextVcn`, and the
query after them is a hard failure. -/
def FailsAfter (query : Nat → Int → RetrievalResponse) (headerSize : Nat) :
    Nat → Nat → Int → Prop
  | 0, k, v => HardFailure headerSize (query k v)
  | n + 1, k, v =>
    GoesOn headerSize (query k v) v ∧
    FailsAfter query headerSize n (k + 1)
      ((query k v).Extents.getD ((query k v).Extents.length - 1) ⟨0, 0⟩).NextVcn

/-- The indices below `n` whose LCN differs from `runStart + index`, ascending:
the clusters `DefragmentFile` has to move into the run at `runStart`. -/
def misplaced (lcns : List Int) (runStart n : Nat) : List Nat :=
  (List.range n).filter (fun i => decide (lcns.getD i 0 ≠ (runStart : Int) + (i : Int)))

/-- The LCN of index `i` after the move loop of `DefragmentFile` on the map `fc`:
the target `runStart + i` when the cluster was already there or when its move
succeeded, the original LCN when its move failed.  The request for index `i`
is call number `(misplaced fc.lcns runStart i).length` of `MoveSingleCluster`. -/
def lcnAfterDefrag (move : Nat → Int → Int → Bool) (fc : FileClusters) (runStart i : Nat) :
    Int :=
  if fc.lcns.getD i 0 = (runStart : Int) + (i : Int) then (runStart : Int) + (i : Int)
  else if move (misplaced fc.lcns runStart i).length (fc.vcns.getD i 0)
      ((runStart : Int) + (i : Int)) then (runStart : Int) + (i : Int)
  else fc.lcns.getD i 0

/-- Cluster `p` is covered by the delivered bits of the response `r`: the
response has its header and `p` lies in
`[StartingLcn, StartingLcn + deliveredBits)`. -/
def Covered (headerSize : Nat) (r : BitmapResponse) (p : Nat) : Prop :=
  headerSize ≤ r.bytesReturned ∧ r.StartingLcn ≤ (p : Int) ∧
    (p : Int) < r.StartingLcn + (deliveredBits headerSize r : Int)

/-- The two bitmap statements of a successful relocation from `srcLcn` to
`dstLcn` (lines 399-407 of `defragment.cpp`, 353-360 of `fragment.cpp`): clear
the old bit, then set the new one. -/
def relocateBits (volumeBitmap : List Nat) (srcLcn dstLcn : Nat) : List Nat :=
  setBit (clearBit volumeBitmap srcLcn) dstLcn

/-- A sequence of relocations `(source, destination)` each of which, at the time
it is made, has its source marked allocated, its destination marked free, both
below `totalClusters`, and source different from destination. -/
def SuchMoves (totalClusters : Nat) : List Nat → List (Nat × Nat) → Prop
  | _, [] => True
  | volumeBitmap, (s, d) :: rest =>
    s < totalClusters ∧ d < totalClusters ∧ s ≠ d ∧
    bitVal volumeBitmap s = 1 ∧ bitVal volumeBitmap d = 0 ∧
    SuchMoves totalClusters (relocateBits volumeBitmap s d) rest

/-- The bitmap after the relocations of a sequence, in order. -/
def applyMoves : List Nat → List (Nat × Nat) → List Nat
  | volumeBitmap, [] => volumeBitmap
  | volumeBitmap, (s, d) :: rest => applyMoves (relocateBits volumeBitmap s d) rest

/-- A response sequence that makes progress: every response to a request inside
the volume reports the requested starting LCN, declares a `BitmapSize` in
`[0, 2^63)`, and delivers at least one bit when its status is partial success
(`DeviceIoControl` false with `ERROR_MORE_DATA`). -/
def ProgressingVolume (totalClusters headerSize : Nat)
    (query : Nat → Int → BitmapResponse) : Prop :=
  ∀ k lcn : Nat, lcn < totalClusters →
    (query k lcn).StartingLcn = lcn ∧
    0 ≤ (query k lcn).BitmapSize ∧ (query k lcn).BitmapSize < 2 ^ 63 ∧
    ((query k lcn).success = false → (query k lcn).moreData = true →
      1 ≤ deliveredBits headerSize (query k lcn))

/-! ## Sample inputs -/

/-- A volume of 12 clusters whose allocation is the bits of `0b010100100011`. -/
def sampleAllocation (i : Nat) : Bool := (1315 : Nat).testBit i

/-- An oracle for `sampleAllocation`: 24 header bytes and one body byte per
response, declaring all the clusters that remain. -/
def sampleBitmapQuery (_ : Nat) (lcn : Int) : BitmapResponse :=
  { success := false, moreData := true, bytesReturned := 25, StartingLcn := lcn,
    BitmapSize := 12 - lcn, Buffer := [(1315 >>> lcn.toNat) % 256] }


/-- An extent oracle for a file with extents `vcn 0-2 → lcn 10-12`, a sparse
run `vcn 3-4` and `vcn 5 → lcn 50`, served in two chunks and then end of file
(`sizeof(RETRIEVAL_POINTERS_BUFFER)` is 32). -/
def sparseFileQuery (k : Nat) (_ : Int) : RetrievalResponse :=
  if k = 0 then
    { ok := true, eof := false, bytesReturned := 48, StartingVcn := 0,
      Extents := [⟨3, 10⟩, ⟨5, -1⟩] }
  else if k = 1 then
    { ok := true, eof := false, bytesReturned := 32, StartingVcn := 5, Extents := [⟨6, 50⟩] }
  else { ok := false, eof := true, bytesReturned := 0, StartingVcn := 0, Extents := [] }

/-- An extent oracle for the file of the specification's scenario, extents
`vcn 0-2 → lcn 10-12` and `vcn 3 → lcn 50`, served in one response and then
end of file. -/
def scenarioFileQuery (k : Nat) (_ : Int) : RetrievalResponse :=
  if k = 0 then
    { ok := true, eof := false, bytesReturned := 48, StartingVcn := 0,
      Extents := [⟨3, 10⟩, ⟨4, 50⟩] }
  else { ok := false, eof := true, bytesReturned := 0, StartingVcn := 0, Extents := [] }

/-- A bitmap of 64 clusters for the scenario: clusters 0-19 and 50 allocated, so
that the first free run of 4 clusters starts at LCN 20. -/
def scenarioBitmap : List Nat := [255, 255, 15, 0, 0, 0, 4, 0]

/-- An extent oracle for a contiguous file of three clusters, `vcn 0-2 → lcn
10-12`, then end of file. -/
def contiguousFileQuery (k : Nat) (_ : Int) : RetrievalResponse :=
  if k = 0 then
    { ok := true, eof := false, bytesReturned := 32, StartingVcn := 0, Extents := [⟨3, 10⟩] }
  else { ok := false, eof := true, bytesReturned := 0, StartingVcn := 0, Extents := [] }

/-- A bitmap oracle whose every call fails outright: `DeviceIoControl` returns
`FALSE` with an error other than `ERROR_MORE_DATA` and no byte is returned. -/
def failingBitmapQuery (_ : Nat) (_ : Int) : BitmapResponse :=
  { success := false, moreData := false, bytesReturned := 0, StartingLcn := 0,
    BitmapSize := 0, Buffer := [] }

/-- A bitmap oracle whose every call succeeds with 8 bytes, fewer than the 24 of
`sizeof(VOLUME_BITMAP_BUFFER)`. -/
def shortBitmapQuery (_ : Nat) (_ : Int) : BitmapResponse :=
  { success := true, moreData := false, bytesReturned := 8, StartingLcn := 0,
    BitmapSize := 0, Buffer := [] }

/-- An extent oracle whose first query succeeds with the extent
`vcn 0-2 → lcn 10-12` and whose second query fails with an error other than end
of file. -/
def brokenFileQuery (k : Nat) (_ : Int) : RetrievalResponse :=
  if k = 0 then
    { ok := true, eof := false, bytesReturned := 32, StartingVcn := 0, Extents := [⟨3, 10⟩] }
  else { ok := false, eof := false, bytesReturned := 0, StartingVcn := 0, Extents := [] }

/-- An extent oracle that answers every query with the same single extent
`vcn 0-2 → lcn 10-12`, whatever VCN is asked for. -/
def stuckFileQuery (_ : Nat) (_ : Int) : RetrievalResponse :=
  { ok := true, eof := false, bytesReturned := 32, StartingVcn := 0, Extents := [⟨3, 10⟩] }

/-- An extent oracle for a file without clusters: the first query reports end of
file. -/
def emptyFileQuery (_ : Nat) (_ : Int) : RetrievalResponse :=
  { ok := false, eof := true, bytesReturned := 0, StartingVcn := 0, Extents := [] }

/-- A full volume of 64 clusters. -/
def fullBitmap : List Nat := [255, 255, 255, 255, 255, 255, 255, 255]

/-- A bitmap response that declares 20 bits but returns only one body byte,
`0b00100011`, after the 24 header bytes, starting at LCN 8. -/
def truncatedResponse : BitmapResponse :=
  { success := false, moreData := true, bytesReturned := 25, StartingLcn := 8,
    BitmapSize := 20, Buffer := [35] }

/-- A bitmap oracle that answers every query with partial success at the
requested LCN, declares 100 clusters and returns one body byte (8 bits) after
the 24 header bytes. -/
def declaringQuery (_ : Nat) (lcn : Int) : BitmapResponse :=
  { success := false, moreData := true, bytesReturned := 25, StartingLcn := lcn,
    BitmapSize := 100, Buffer := [255] }

/-- A bitmap oracle that leaves a gap and then fails: the first response is a
partial success with 8 allocated clusters at LCN 0, the second a hard failure
that still carries 8 allocated clusters, placed at LCN 16. -/
def gapQuery (k : Nat) (_ : Int) : BitmapResponse :=
  if k = 0 then
    { success := false, moreData := true, bytesReturned := 25, StartingLcn := 0,
      BitmapSize := 8, Buffer := [255] }
  else
    { success := false, moreData := false, bytesReturned := 25, StartingLcn := 16,
      BitmapSize := 8, Buffer := [255] }

/-- A bitmap oracle that answers every query with partial success and the 24
header bytes only, so that no bit is delivered. -/
def stallQuery (_ : Nat) (lcn : Int) : BitmapResponse :=
  { success := false, moreData := true, bytesReturned := 24, StartingLcn := lcn,
    BitmapSize := 8, Buffer := [] }
/-! ## Bit-level lemmas -/

theorem bitVal_eq_testBit (bitmap : List Nat) (c : Nat) :
    bitVal bitmap c = ((bitmap.getD (c / 8) 0).testBit (c % 8)).toNat := by
  unfold bitVal Nat.testBit
  show (bitmap.getD (c / 8) 0 >>> (c % 8)) &&& 1 = _
  rw [Nat.and_comm 1, Nat.and_one_is_mod]
  generalize bitmap.getD (c / 8) 0 >>> (c % 8) = x
  rcases Nat.mod_two_eq_zero_or_one x with h | h <;> simp [h]

theorem bitVal_le_one (bitmap : List Nat) (c : Nat) : bitVal bitmap c ≤ 1 := by
  rw [bitVal_eq_testBit]; cases (bitmap.getD (c / 8) 0).testBit (c % 8) <;> simp

theorem length_setBit (bitmap : List Nat) (c : Nat) : (setBit bitmap c).length = bitmap.length := by
  simp [setBit]

theorem length_clearBit (bitmap : List Nat) (c : Nat) :
    (clearBit bitmap c).length = bitmap.length := by
  simp [clearBit]

theorem getD_set_same (l : List Nat) (i v : Nat) (h : i < l.length) :
    (l.set i v).getD i 0 = v := by
  simp [List.getD_eq_getElem?_getD, List.getElem?_set, h]

theorem getD_set_other (l : List Nat) (i j v : Nat) (h : i ≠ j) :
    (l.set i v).getD j 0 = l.getD j 0 := by
  simp [List.getD_eq_getElem?_getD, List.getElem?_set, h]

theorem cluster_split {c d : Nat} (h : c ≠ d) : c / 8 ≠ d / 8 ∨ (c / 8 = d / 8 ∧ c % 8 ≠ d % 8) := by
  omega

theorem bitVal_setBit_same (bitmap : List Nat) (c : Nat) (h : c < 8 * bitmap.length) :
    bitVal (setBit bitmap c) c = 1 := by
  have hb : c / 8 < bitmap.length := by omega
  have h8 : c % 8 < 8 := Nat.mod_lt _ (by norm_num)
  rw [bitVal_eq_testBit, setBit]
  rw [getD_set_same _ _ _ hb]
  have : (256 : Nat) = 2 ^ 8 := by norm_num
  rw [this, Nat.testBit_mod_two_pow, Nat.testBit_or, Nat.one_shiftLeft, Nat.testBit_two_pow]
  simp [h8]

theorem bitVal_setBit_other (bitmap : List Nat) (c d : Nat) (h : d ≠ c) :
    bitVal (setBit bitmap c) d = bitVal bitmap d := by
  have h8 : d % 8 < 8 := Nat.mod_lt _ (by norm_num)
  rw [bitVal_eq_testBit, bitVal_eq_testBit, setBit]
  rcases cluster_split h with h1 | ⟨h1, h2⟩
  · rw [getD_set_other _ _ _ _ (Ne.symm h1)]
  · by_cases hb : c / 8 < bitmap.length
    · rw [← h1, getD_set_same _ _ _ (h1 ▸ hb)]
      have : (256 : Nat) = 2 ^ 8 := by norm_num
      rw [this, Nat.testBit_mod_two_pow, Nat.testBit_or, Nat.one_shiftLeft, Nat.testBit_two_pow]
      simp [h8, Ne.symm h2]
    · rw [List.set_eq_of_length_le (by omega)]

theorem testBit_255 (j : Nat) (h : j < 8) : (255 : Nat).testBit j = true := by
  interval_cases j <;> decide

theorem bitVal_clearBit_same (bitmap : List Nat) (c : Nat) (h : c < 8 * bitmap.length) :
    bitVal (clearBit bitmap c) c = 0 := by
  have hb : c / 8 < bitmap.length := by omega
  have h8 : c % 8 < 8 := Nat.mod_lt _ (by norm_num)
  rw [bitVal_eq_testBit, clearBit]
  rw [getD_set_same _ _ _ hb]
  have : (256 : Nat) = 2 ^ 8 := by norm_num
  rw [this, Nat.testBit_mod_two_pow, Nat.testBit_and, Nat.testBit_xor, Nat.one_shiftLeft,
    Nat.testBit_two_pow, testBit_255 _ h8]
  simp [h8]

theorem bitVal_clearBit_other (bitmap : List Nat) (c d : Nat) (h : d ≠ c) :
    bitVal (clearBit bitmap c) d = bitVal bitmap d := by
  have h8 : d % 8 < 8 := Nat.mod_lt _ (by norm_num)
  rw [bitVal_eq_testBit, bitVal_eq_testBit, clearBit]
  rcases cluster_split h with h1 | ⟨h1, h2⟩
  · rw [getD_set_other _ _ _ _ (Ne.symm h1)]
  · by_cases hb : c / 8 < bitmap.length
    · rw [← h1, getD_set_same _ _ _ (h1 ▸ hb)]
      have : (256 : Nat) = 2 ^ 8 := by norm_num
      rw [this, Nat.testBit_mod_two_pow, Nat.testBit_and, Nat.testBit_xor, Nat.one_shiftLeft,
        Nat.testBit_two_pow, testBit_255 _ h8]
      simp [h8, Ne.symm h2]
    · rw [List.set_eq_of_length_le (by omega)]

/-! ## Contiguous search: first fit -/

theorem findBlockLoop_first_fit (bitmap : List Nat) (N P total : Nat)
    (hP : P + N ≤ total) (hrun : FreeRun bitmap P N)
    (hmin : ∀ Q, Q < P → ¬ FreeRun bitmap Q N) :
    ∀ n c runStart runLen, c + n = total → runLen < N → runLen ≤ c →
      (0 < runLen → runStart = c - runLen) →
      (∀ j, c - runLen ≤ j → j < c → IsClusterFree bitmap j = true) →
      c - runLen ≤ P → c < P + N →
      findBlockLoop bitmap N n c runStart runLen = some P := by
  intro n
  induction n with
  | zero => intro c runStart runLen hc; omega
  | succ n ih =>
    intro c runStart runLen hc hlen hle hstart hfree hlow hhigh
    unfold findBlockLoop
    by_cases hf : IsClusterFree bitmap c = true
    · simp only [hf, if_true]
      have hfree2 : ∀ j, c - runLen ≤ j → j < c + 1 → IsClusterFree bitmap j = true := by
        intro j hj1 hj2
        by_cases hjc : j = c
        · rw [hjc]; exact hf
        · exact hfree j hj1 (by omega)
      have hstart2 : (if runLen = 0 then c else runStart) = c - runLen := by
        by_cases h0 : runLen = 0
        · simp [h0]
        · simp only [h0, if_false]; exact hstart (by omega)
      by_cases hN : runLen + 1 = N
      · simp only [hN, if_true]
        rw [hstart2]
        have hfull : FreeRun bitmap (c - runLen) N := by
          intro i hi
          exact hfree2 _ (by omega) (by omega)
        have : ¬ (c - runLen < P) := fun hlt => hmin _ hlt hfull
        congr 1; omega
      · simp only [hN, if_false]
        apply ih (c + 1) _ (runLen + 1) (by omega) (by omega) (by omega)
        · intro _; rw [hstart2]; omega
        · intro j hj1 hj2; exact hfree2 j (by omega) hj2
        · omega
        · omega
    · simp only [hf]
      have hcP : c < P := by
        by_contra hge
        have := hrun (c - P) (by omega)
        rw [show P + (c - P) = c by omega] at this
        exact hf this
      apply ih (c + 1) _ 0 (by omega) (by omega) (by omega)
      · intro h; omega
      · intro j hj1 hj2; omega
      · omega
      · omega

theorem findBlockLoop_sound (bitmap : List Nat) (N total : Nat) :
    ∀ n c runStart runLen s, c + n = total → runLen < N → runLen ≤ c →
      (0 < runLen → runStart = c - runLen) →
      (∀ j, c - runLen ≤ j → j < c → IsClusterFree bitmap j = true) →
      findBlockLoop bitmap N n c runStart runLen = some s →
      s + N ≤ total ∧ FreeRun bitmap s N := by
  intro n
  induction n with
  | zero => intro c runStart runLen s _ _ _ _ _ h; simp [findBlockLoop] at h
  | succ n ih =>
    intro c runStart runLen s hc hlen hle hstart hfree hres
    unfold findBlockLoop at hres
    by_cases hf : IsClusterFree bitmap c = true
    · simp only [hf, if_true] at hres
      have hfree2 : ∀ j, c - runLen ≤ j → j < c + 1 → IsClusterFree bitmap j = true := by
        intro j hj1 hj2
        by_cases hjc : j = c
        · rw [hjc]; exact hf
        · exact hfree j hj1 (by omega)
      have hstart2 : (if runLen = 0 then c else runStart) = c - runLen := by
        by_cases h0 : runLen = 0
        · simp [h0]
        · simp only [h0, if_false]; exact hstart (by omega)
      by_cases hN : runLen + 1 = N
      · simp only [hN, if_true, Option.some.injEq] at hres
        rw [hstart2] at hres
        subst hres
        refine ⟨by omega, ?_⟩
        intro i hi
        exact hfree2 _ (by omega) (by omega)
      · simp only [hN, if_false] at hres
        refine ih (c + 1) _ (runLen + 1) s (by omega) (by omega) (by omega) ?_ ?_ hres
        · intro _; rw [hstart2]; omega
        · intro j hj1 hj2; exact hfree2 j (by omega) hj2
    · simp only [hf] at hres
      refine ih (c + 1) _ 0 s (by omega) (by omega) (by omega) ?_ ?_ hres
      · intro h; omega
      · intro j hj1 hj2; omega

theorem exists_lowest_run (bitmap : List Nat) (N total : Nat)
    (h : ∃ P, P + N ≤ total ∧ FreeRun bitmap P N) :
    ∃ P, P + N ≤ total ∧ FreeRun bitmap P N ∧ ∀ Q, Q < P → ¬ FreeRun bitmap Q N := by
  classical
  refine ⟨Nat.find h, (Nat.find_spec h).1, (Nat.find_spec h).2, ?_⟩
  intro Q hQ hfr
  have hle := (Nat.find_spec h).1
  exact Nat.find_min h hQ ⟨by omega, hfr⟩

theorem freeRun_iff (bitmap : List Nat) (P N : Nat) :
    FreeRun bitmap P N ↔ ∀ i, i < N → bitVal bitmap (P + i) = 0 := by
  simp [FreeRun, IsClusterFree]

/-- C1. For `N ≥ 1`: if some position `P0` has `N` consecutive free clusters
`P0 .. P0+N-1` inside `[0, totalClusters)`, then `FindContiguousFreeBlock`
returns true with `outBlockStart = P`, where `P` starts such a run and no
lower position does (first fit). -/
theorem C1_first_fit (bitmap : List Nat) (totalClusters N P0 : Nat) (hN : 1 ≤ N)
    (hP : P0 + N ≤ totalClusters)
    (hrun : ∀ i, i < N → bitVal bitmap (P0 + i) = 0) :
    ∃ P, FindContiguousFreeBlock bitmap totalClusters N = some P ∧
      P + N ≤ totalClusters ∧ (∀ i, i < N → bitVal bitmap (P + i) = 0) ∧
      ∀ Q, (∀ i, i < N → bitVal bitmap (Q + i) = 0) → P ≤ Q := by
  obtain ⟨P, h1, h2, h3⟩ := exists_lowest_run bitmap N totalClusters
    ⟨P0, hP, (freeRun_iff _ _ _).2 hrun⟩
  refine ⟨P, ?_, h1, (freeRun_iff _ _ _).1 h2, ?_⟩
  · exact findBlockLoop_first_fit bitmap N P totalClusters h1 h2 h3 totalClusters 0 0 0
      (by omega) (by omega) (by omega) (by intro h; omega) (by intro j _ hj; omega)
      (by omega) (by omega)
  · intro Q hQ
    by_contra hlt
    exact h3 Q (by omega) ((freeRun_iff _ _ _).2 hQ)

/-- C1, the scenario of the specification: bitmap `[1,1,0,0,0,1,0]` is the byte
`0b0100011 = 35`; a run of 3 in 7 clusters is found at cluster 2. -/
theorem C1_first_fit_witness :
    FindContiguousFreeBlock [35] 7 3 = some 2 ∧
    ∃ P, FindContiguousFreeBlock [35] 7 3 = some P ∧
      P + 3 ≤ 7 ∧ (∀ i, i < 3 → bitVal [35] (P + i) = 0) ∧
      ∀ Q, (∀ i, i < 3 → bitVal [35] (Q + i) = 0) → P ≤ Q :=
  ⟨by decide, C1_first_fit [35] 7 3 2 (by decide) (by decide) (by decide)⟩

/-- C2. For `N ≥ 1`, `FindContiguousFreeBlock` returns false exactly when no
`N` consecutive clusters inside `[0, totalClusters)` are all free. -/
theorem C2_no_suitable_run (bitmap : List Nat) (totalClusters N : Nat) (hN : 1 ≤ N) :
    FindContiguousFreeBlock bitmap totalClusters N = none ↔
      ¬ ∃ P, P + N ≤ totalClusters ∧ ∀ i, i < N → bitVal bitmap (P + i) = 0 := by
  constructor
  · intro hnone hex
    have hex2 : ∃ P, P + N ≤ totalClusters ∧ FreeRun bitmap P N := by
      obtain ⟨P, h1, h2⟩ := hex
      exact ⟨P, h1, (freeRun_iff _ _ _).2 h2⟩
    obtain ⟨P, h1, h2, h3⟩ := exists_lowest_run bitmap N totalClusters hex2
    have := findBlockLoop_first_fit bitmap N P totalClusters h1 h2 h3 totalClusters 0 0 0
      (by omega) (by omega) (by omega) (by intro h; omega) (by intro j _ hj; omega)
      (by omega) (by omega)
    unfold FindContiguousFreeBlock at hnone
    rw [this] at hnone
    exact Option.noConfusion hnone
  · intro hno
    cases hres : FindContiguousFreeBlock bitmap totalClusters N with
    | none => rfl
    | some s =>
      exfalso
      unfold FindContiguousFreeBlock at hres
      have := findBlockLoop_sound bitmap N totalClusters totalClusters 0 0 0 s
        (by omega) (by omega) (by omega) (by intro h; omega) (by intro j _ hj; omega) hres
      exact hno ⟨s, this.1, (freeRun_iff _ _ _).1 this.2⟩

/-- C2, the scenario of the specification: no run of 4 in `[1,1,0,0,0,1,0]`. -/
theorem C2_no_suitable_run_witness :
    1 ≤ 4 ∧ (FindContiguousFreeBlock [35] 7 4 = none ↔
      ¬ ∃ P, P + 4 ≤ 7 ∧ ∀ i, i < 4 → bitVal [35] (P + i) = 0) ∧
    FindContiguousFreeBlock [35] 7 4 = none :=
  ⟨by decide, C2_no_suitable_run [35] 7 4 (by decide), by decide⟩


/-! ## Bitmap assembly is complete -/

theorem clampChunkBits_eq (headerSize : Nat) (r : BitmapResponse)
    (h0 : 0 ≤ r.BitmapSize) (h1 : r.BitmapSize < 2 ^ 63) :
    clampChunkBits headerSize r = (deliveredBits headerSize r : Int) := by
  unfold clampChunkBits deliveredBits
  simp only []
  rw [Int.tdiv_eq_ediv (by omega) (by norm_num)]
  have e64 : (2 : Int) ^ 64 = 18446744073709551616 := by norm_num
  have e63 : (2 : Int) ^ 63 = 9223372036854775808 := by norm_num
  rw [e64]
  rw [e63] at h1
  generalize r.BitmapSize = b at h0 h1 ⊢
  generalize r.bytesReturned = br
  have hq : ((b + 7) / 8 % 18446744073709551616) = (b + 7) / 8 := by
    omega
  rw [hq]
  split_ifs <;> omega

theorem copyBitsLoop_length (src : List Nat) (start : Int) (total : Nat) :
    ∀ n i out, (copyBitsLoop src start total n i out).length = out.length := by
  intro n
  induction n with
  | zero => intro i out; rfl
  | succ n ih =>
    intro i out
    unfold copyBitsLoop
    simp only []
    split_ifs
    · rfl
    · rw [ih, length_setBit]
    · rw [ih]

theorem copyBitsLoop_bit (src : List Nat) (L total : Nat) :
    ∀ n i out p, total ≤ 8 * out.length →
      bitVal (copyBitsLoop src (L : Int) total n i out) p =
        if L + i ≤ p ∧ p < L + i + n ∧ p < total ∧ bitVal src (p - L) = 1 then 1
        else bitVal out p := by
  intro n
  induction n with
  | zero =>
    intro i out p _
    have : ¬ (L + i ≤ p ∧ p < L + i + 0 ∧ p < total ∧ bitVal src (p - L) = 1) := by omega
    simp only [copyBitsLoop, this, if_false]
  | succ n ih =>
    intro i out p hlen
    unfold copyBitsLoop
    simp only []
    by_cases hge : (L : Int) + (i : Int) ≥ (total : Int)
    · have : ¬ (L + i ≤ p ∧ p < L + i + (n + 1) ∧ p < total ∧ bitVal src (p - L) = 1) := by
        omega
      simp only [hge, this, if_true, if_false]
    · simp only [hge, if_false]
      have htn : ((L : Int) + (i : Int)).toNat = L + i := by omega
      rw [htn]
      by_cases hs : bitVal src i = 1
      · simp only [hs, if_true]
        rw [ih (i + 1) _ p (by rw [length_setBit]; exact hlen)]
        by_cases hp : p = L + i
        · subst hp
          have hsrc : bitVal src (L + i - L) = 1 := by
            rw [show L + i - L = i by omega]; exact hs
          have c1 : ¬ (L + (i + 1) ≤ L + i ∧ L + i < L + (i + 1) + n ∧ L + i < total ∧
              bitVal src (L + i - L) = 1) := by omega
          have c2 : (L + i ≤ L + i ∧ L + i < L + i + (n + 1) ∧ L + i < total ∧
              bitVal src (L + i - L) = 1) := ⟨by omega, by omega, by omega, hsrc⟩
          rw [if_neg c1, if_pos c2]
          exact bitVal_setBit_same _ _ (by omega)
        · rw [bitVal_setBit_other _ _ _ hp]
          by_cases hb : bitVal src (p - L) = 1
          · by_cases hr : L + (i + 1) ≤ p ∧ p < L + (i + 1) + n ∧ p < total
            · rw [if_pos ⟨hr.1, hr.2.1, hr.2.2, hb⟩, if_pos ⟨by omega, by omega, hr.2.2, hb⟩]
            · rw [if_neg (fun h => hr ⟨h.1, h.2.1, h.2.2.1⟩),
                if_neg (fun h => hr ⟨by omega, by omega, h.2.2.1⟩)]
          · rw [if_neg (fun h => hb h.2.2.2), if_neg (fun h => hb h.2.2.2)]
      · simp only [hs, if_false]
        rw [ih (i + 1) _ p hlen]
        by_cases hb : bitVal src (p - L) = 1
        · have hpi : p ≠ L + i := by
            intro h; subst h
            rw [show L + i - L = i by omega] at hb; exact hs hb
          by_cases hr : L + (i + 1) ≤ p ∧ p < L + (i + 1) + n ∧ p < total
          · rw [if_pos ⟨hr.1, hr.2.1, hr.2.2, hb⟩, if_pos ⟨by omega, by omega, hr.2.2, hb⟩]
          · rw [if_neg (fun h => hr ⟨h.1, h.2.1, h.2.2.1⟩),
              if_neg (fun h => hr ⟨by omega, by omega, h.2.2.1⟩)]
        · rw [if_neg (fun h => hb h.2.2.2), if_neg (fun h => hb h.2.2.2)]

theorem bitmapLoop_complete (B : Nat → Bool) (total hs : Nat)
    (query : Nat → Int → BitmapResponse) (hwb : WellBehavedVolume B total hs query) :
    ∀ fuel k (L : Nat) out reqs, L < total → total - L ≤ fuel → total ≤ 8 * out.length →
      (∀ i, i < L → bitVal out i = (B i).toNat) → (∀ i, L ≤ i → bitVal out i = 0) →
      ∃ out' tail, bitmapLoop query hs total fuel k (L : Int) out reqs = some (out', reqs ++ tail) ∧
        out'.length = out.length ∧ (∀ i, i < total → bitVal out' i = (B i).toNat) ∧
        tail.head? = some (L : Int) ∧ TilesFrom query hs total k tail := by
  intro fuel
  induction fuel with
  | zero => intro k L out reqs h1 h2; omega
  | succ fuel ih =>
    intro k L out reqs hL hfuel hlen hlow hhigh
    obtain ⟨w1, w2, w3, w4, w5, w6, w7⟩ := hwb k L hL
    have hclamp := clampChunkBits_eq hs _ w4 w5
    generalize hd : deliveredBits hs (query k (L : Int)) = d at hclamp w6 w7
    -- the bitmap after the copy loop
    have hbits : ∀ p, p < L + d → p < total →
        bitVal (copyBitsLoop (query k (L : Int)).Buffer (L : Int) total d 0 out) p = (B p).toNat := by
      intro p hp1 hp2
      rw [copyBitsLoop_bit _ _ _ _ _ _ _ hlen]
      by_cases hpl : p < L
      · rw [if_neg (by omega)]; exact hlow p hpl
      · have hsrc := w7 (p - L) (by omega) (by omega)
        rw [show L + (p - L) = p by omega] at hsrc
        cases hB : B p
        · rw [hB] at hsrc
          rw [if_neg (fun h => by rw [hsrc] at h; simp at h)]
          simpa using hhigh p (by omega)
        · rw [hB] at hsrc
          rw [if_pos ⟨by omega, by omega, hp2, by simpa using hsrc⟩]
          rfl
    have hzero : ∀ p, L + d ≤ p →
        bitVal (copyBitsLoop (query k (L : Int)).Buffer (L : Int) total d 0 out) p = 0 := by
      intro p hp
      rw [copyBitsLoop_bit _ _ _ _ _ _ _ hlen, if_neg (by omega)]
      exact hhigh p (by omega)
    unfold bitmapLoop
    simp only [w3, hclamp, Int.toNat_ofNat]
    rw [if_neg (by omega)]
    by_cases hend : (L : Int) + (d : Int) > (total : Int) - 1
    · refine ⟨copyBitsLoop (query k (L : Int)).Buffer (L : Int) total d 0 out, [(L : Int)], ?_,
        copyBitsLoop_length _ _ _ _ _ _, ?_, rfl, ?_⟩
      · rcases w2 with hs1 | hs1
        · simp [hs1, hend]
        · cases hs2 : (query k (L : Int)).success <;> simp [hs1, hend]
      · intro i hi; exact hbits i (by omega) hi
      · simp only [TilesFrom, hd]; omega
    · obtain ⟨out', tail, e1, e2, e3, e4, e5⟩ :=
        ih (k + 1) (L + d) (copyBitsLoop (query k (L : Int)).Buffer (L : Int) total d 0 out)
          (reqs ++ [(L : Int)]) (by omega) (by omega)
          (by rw [copyBitsLoop_length]; exact hlen)
          (fun i hi => hbits i hi (by omega)) hzero
      have e1' : bitmapLoop query hs total fuel (k + 1) ((L : Int) + (d : Int))
          (copyBitsLoop (query k (L : Int)).Buffer (L : Int) total d 0 out) (reqs ++ [(L : Int)]) =
          some (out', reqs ++ ((L : Int) :: tail)) := by
        rw [← Int.natCast_add, e1]; simp
      refine ⟨out', (L : Int) :: tail, ?_, ?_, e3, rfl, ?_⟩
      · have hd0 : ¬ ((d : Int) = 0) := by omega
        rcases w2 with hs1 | hs1
        · simp only [hs1, Bool.not_true, if_false, hd0, hend, false_or]
          exact e1'
        · cases hs2 : (query k (L : Int)).success
          · simp only [hs1, Bool.not_false, if_true, hend, if_false]
            exact e1'
          · simp only [Bool.not_true, if_false, hd0, hend, false_or]
            exact e1'
      · rw [e2, copyBitsLoop_length]
      · cases tail with
        | nil => simp at e4
        | cons r' rest =>
          simp only [List.head?_cons, Option.some.injEq] at e4
          subst e4
          simp only [TilesFrom, hd]
          exact ⟨by push_cast; ring, e5⟩

theorem bitVal_replicate_zero (n c : Nat) : bitVal (List.replicate n 0) c = 0 := by
  rw [bitVal_eq_testBit]
  have : (List.replicate n 0).getD (c / 8) 0 = 0 := by
    rw [List.getD_eq_getElem?_getD, List.getElem?_replicate]
    split_ifs <;> rfl
  rw [this]; simp

/-- C3. On a volume of `totalClusters ≥ 1` clusters with true allocation `B`,
served by a well-behaved oracle, `GetVolumeBitmapChunked` (given fuel for
`totalClusters` queries) returns true with a bitmap of `ceil(totalClusters/8)`
bytes whose bit `i` is `B i` for every `i < totalClusters`, whatever the number
of bits of each chunk; the first request is LCN 0 and the requests tile the
volume, so no cluster is skipped or read twice. -/
theorem C3_bitmap_complete (B : Nat → Bool) (totalClusters headerSize : Nat)
    (query : Nat → Int → BitmapResponse) (hpos : 1 ≤ totalClusters)
    (hwb : WellBehavedVolume B totalClusters headerSize query)
    (fuel : Nat) (hfuel : totalClusters ≤ fuel) :
    ∃ res, GetVolumeBitmapChunked query headerSize totalClusters fuel = some res ∧
      res.ret = true ∧ res.outBitmap.length = (totalClusters + 7) / 8 ∧
      (∀ i, i < totalClusters → bitVal res.outBitmap i = (B i).toNat) ∧
      res.requests.head? = some 0 ∧
      TilesFrom query headerSize totalClusters 0 res.requests := by
  obtain ⟨out', tail, e1, e2, e3, e4, e5⟩ :=
    bitmapLoop_complete B totalClusters headerSize query hwb fuel 0 0
      (List.replicate ((totalClusters + 7) / 8) 0) [] (by omega) (by omega)
      (by rw [List.length_replicate]; omega) (by intro i hi; omega)
      (fun i _ => bitVal_replicate_zero _ _)
  rw [List.length_replicate] at e2
  simp only [Nat.cast_zero, List.nil_append] at e1 e4
  refine ⟨⟨!out'.isEmpty, out', tail⟩, ?_, ?_, e2, e3, e4, e5⟩
  · unfold GetVolumeBitmapChunked
    simp only [e1]
  · cases out' with
    | nil => simp at e2; omega
    | cons a l => rfl

theorem sampleBitmapQuery_wellBehaved : WellBehavedVolume sampleAllocation 12 24 sampleBitmapQuery := by
  intro k lcn h
  simp only [sampleBitmapQuery]
  interval_cases lcn <;> decide

/-- C3 on the sample volume: two queries (8 bits, then 4) give the bytes `[35, 5]`. -/
theorem C3_bitmap_complete_witness :
    GetVolumeBitmapChunked sampleBitmapQuery 24 12 12 = some ⟨true, [35, 5], [0, 8]⟩ ∧
    ∃ res, GetVolumeBitmapChunked sampleBitmapQuery 24 12 12 = some res ∧
      res.ret = true ∧ res.outBitmap.length = (12 + 7) / 8 ∧
      (∀ i, i < 12 → bitVal res.outBitmap i = (sampleAllocation i).toNat) ∧
      res.requests.head? = some 0 ∧
      TilesFrom sampleBitmapQuery 24 12 0 res.requests :=
  ⟨by decide, C3_bitmap_complete sampleAllocation 12 24 sampleBitmapQuery (by decide)
    sampleBitmapQuery_wellBehaved 12 (by decide)⟩

/-! ## Extent mapping -/

theorem pushRunLoop_eq (cur lcn : Int) :
    ∀ n c fc, pushRunLoop cur lcn n c fc =
      { vcns := fc.vcns ++ (List.range n).map (fun j => cur + ((c + j : Nat) : Int)),
        lcns := fc.lcns ++ (List.range n).map (fun j => lcn + ((c + j : Nat) : Int)) } := by
  intro n
  induction n with
  | zero => intro c fc; simp [pushRunLoop]
  | succ n ih =>
    intro c fc
    unfold pushRunLoop
    rw [ih, List.range_succ_eq_map]
    simp only [List.append_assoc, List.singleton_append, List.map_cons, List.map_map,
      Nat.add_zero, FileClusters.mk.injEq]
    constructor <;>
    · congr 2
      apply List.map_congr_left
      intro j _
      simp only [Function.comp]
      congr 2; omega

theorem extentLoop_eq :
    ∀ es cur fc, extentLoop es cur fc =
      { vcns := fc.vcns ++ (expandExtents cur es).map Prod.fst,
        lcns := fc.lcns ++ (expandExtents cur es).map Prod.snd } := by
  intro es
  induction es with
  | nil => intro cur fc; simp [extentLoop, expandExtents]
  | cons e rest ih =>
    intro cur fc
    unfold extentLoop expandExtents
    simp only []
    by_cases hl : e.Lcn = -1
    · simp only [hl, if_true, List.nil_append]
      exact ih _ _
    · simp only [hl, if_false]
      rw [ih, pushRunLoop_eq]
      simp [List.map_append, Function.comp]

theorem lastNext_cons_cons (e e' : Extent) (a : List Extent) :
    ((e :: e' :: a).getD ((e :: e' :: a).length - 1) ⟨0, 0⟩).NextVcn =
      ((e' :: a).getD ((e' :: a).length - 1) ⟨0, 0⟩).NextVcn := by
  simp [List.getD_cons_succ]

theorem expandExtents_append :
    ∀ (a : List Extent) (v : Int) (b : List Extent), a ≠ [] →
      expandExtents v (a ++ b) =
        expandExtents v a ++ expandExtents (a.getD (a.length - 1) ⟨0, 0⟩).NextVcn b := by
  intro a
  induction a with
  | nil => intro v b h; exact absurd rfl h
  | cons e a ih =>
    intro v b _
    cases a with
    | nil => simp [expandExtents]
    | cons e' a' =>
      rw [lastNext_cons_cons, List.cons_append, expandExtents, ih e.NextVcn b (by simp)]
      conv_rhs => rw [expandExtents]
      simp [List.append_assoc]

theorem chain_append_last :
    ∀ (a : List Extent) (v : Int) (b : List Extent), a ≠ [] →
      List.Chain (· < ·) v ((a ++ b).map (·.NextVcn)) →
      v < (a.getD (a.length - 1) ⟨0, 0⟩).NextVcn ∧
        List.Chain (· < ·) (a.getD (a.length - 1) ⟨0, 0⟩).NextVcn (b.map (·.NextVcn)) := by
  intro a
  induction a with
  | nil => intro v b h; exact absurd rfl h
  | cons e a ih =>
    intro v b _ hch
    simp only [List.cons_append, List.map_cons, List.chain_cons] at hch
    cases a with
    | nil => simpa using hch
    | cons e' a' =>
      rw [lastNext_cons_cons]
      obtain ⟨h1, h2⟩ := ih e.NextVcn b (by simp) hch.2
      exact ⟨lt_trans hch.1 h1, h2⟩

theorem expandExtents_lower :
    ∀ (es : List Extent) (v : Int), List.Chain (· < ·) v (es.map (·.NextVcn)) →
      ∀ x ∈ (expandExtents v es).map Prod.fst, v ≤ x := by
  intro es
  induction es with
  | nil => intro v _ x hx; simp [expandExtents] at hx
  | cons e rest ih =>
    intro v hch x hx
    simp only [List.map_cons, List.chain_cons] at hch
    simp only [expandExtents, List.map_append, List.mem_append] at hx
    rcases hx with hx | hx
    · split_ifs at hx
      · simp at hx
      · simp only [List.map_map, List.mem_map, List.mem_range, Function.comp] at hx
        obtain ⟨c, _, rfl⟩ := hx
        omega
    · have := ih e.NextVcn hch.2 x hx
      omega

theorem expandExtents_sorted :
    ∀ (es : List Extent) (v : Int), List.Chain (· < ·) v (es.map (·.NextVcn)) →
      List.Pairwise (· < ·) ((expandExtents v es).map Prod.fst) := by
  intro es
  induction es with
  | nil => intro v _; simp [expandExtents]
  | cons e rest ih =>
    intro v hch
    simp only [List.map_cons, List.chain_cons] at hch
    simp only [expandExtents, List.map_append]
    rw [List.pairwise_append]
    refine ⟨?_, ih _ hch.2, ?_⟩
    · split_ifs
      · simp
      · rw [List.map_map, List.pairwise_map]
        refine (List.pairwise_lt_range _).imp ?_
        intro a b hab
        simp only [Function.comp]
        omega
    · intro x hx y hy
      have hy' := expandExtents_lower rest e.NextVcn hch.2 y hy
      split_ifs at hx
      · simp at hx
      · simp only [List.map_map, List.mem_map, List.mem_range, Function.comp] at hx
        obtain ⟨c, hc, rfl⟩ := hx
        omega

theorem expandExtents_sentinels :
    ∀ (es : List Extent) (v : Int), (∀ e ∈ es, e.Lcn = -1) → expandExtents v es = [] := by
  intro es
  induction es with
  | nil => intro v _; rfl
  | cons e rest ih =>
    intro v h
    have h1 : e.Lcn = -1 := h e (List.mem_cons_self _ _)
    simp only [expandExtents, h1, if_true, List.nil_append]
    exact ih _ (fun e' he' => h e' (List.mem_cons_of_mem _ he'))

theorem retrievalLoop_chunks (query : Nat → Int → RetrievalResponse) (hs : Nat) :
    ∀ (chunks : List (List Extent)) (fuel k : Nat) (v : Int) (fc : FileClusters) (reqs : List Int),
      ServesChunks query hs k v chunks →
      List.Chain (· < ·) v (chunks.flatten.map (·.NextVcn)) →
      chunks.length < fuel →
      ∃ reqs', retrievalLoop query hs fuel k v fc reqs =
        some ⟨true, ⟨fc.vcns ++ (expandExtents v chunks.flatten).map Prod.fst,
                     fc.lcns ++ (expandExtents v chunks.flatten).map Prod.snd⟩, reqs'⟩ := by
  intro chunks
  induction chunks with
  | nil =>
    intro fuel k v fc reqs hserve _ hfuel
    obtain ⟨f, rfl⟩ : ∃ f, fuel = f + 1 := ⟨fuel - 1, by simp at hfuel; omega⟩
    unfold retrievalLoop
    rcases hserve with ⟨h1, h2⟩ | ⟨h1, h2, h3⟩
    · exact ⟨reqs ++ [v], by simp [h1, h2, expandExtents]⟩
    · exact ⟨reqs ++ [v], by simp [h1, h3, expandExtents, Nat.not_lt.2 h2]⟩
  | cons chunk rest ih =>
    intro fuel k v fc reqs hserve hch hfuel
    obtain ⟨f, rfl⟩ : ∃ f, fuel = f + 1 := ⟨fuel - 1, by simp at hfuel; omega⟩
    obtain ⟨h1, h2, h3, h4, h5, h6⟩ := hserve
    rw [List.flatten_cons] at hch ⊢
    obtain ⟨hlt, hch'⟩ := chain_append_last chunk v rest.flatten h5 hch
    obtain ⟨reqs', hrec⟩ := ih f (k + 1) _ (extentLoop chunk v fc) (reqs ++ [v]) h6 hch'
      (by simp at hfuel; omega)
    refine ⟨reqs', ?_⟩
    unfold retrievalLoop
    have hlen : ¬ chunk.length = 0 := by
      intro h; exact h5 (List.length_eq_zero.1 h)
    simp only [h1, h3, h4, Bool.not_true, if_false, Nat.not_lt.2 h2, hlen, not_le.2 hlt]
    rw [hrec, extentLoop_eq, expandExtents_append chunk v rest.flatten h5]
    simp [List.append_assoc]

/-- C4. For a file whose extents have strictly increasing `NextVcn` above 0 and
are served in any chunks that each begin at the requested VCN, followed by end
of file or an empty response, `GetAllFileRetrievalPointers` (given fuel for one
query more than there are chunks) returns true with exactly the expansion of
the whole extent list from VCN 0: sentinel extents give no entry but advance
the VCN; the VCNs are strictly ascending, so no cluster appears twice; with
only sentinel extents the map is empty. -/
theorem C4_extent_expansion (query : Nat → Int → RetrievalResponse) (headerSize : Nat)
    (chunks : List (List Extent)) (hserve : ServesChunks query headerSize 0 0 chunks)
    (hmono : List.Chain (· < ·) 0 (chunks.flatten.map (·.NextVcn)))
    (fuel : Nat) (hfuel : chunks.length < fuel) :
    ∃ res, GetAllFileRetrievalPointers query headerSize fuel = some res ∧ res.ret = true ∧
      res.outClusters.vcns = (expandExtents 0 chunks.flatten).map Prod.fst ∧
      res.outClusters.lcns = (expandExtents 0 chunks.flatten).map Prod.snd ∧
      List.Pairwise (· < ·) res.outClusters.vcns ∧ res.outClusters.vcns.Nodup ∧
      ((∀ e ∈ chunks.flatten, e.Lcn = -1) → res.outClusters = ⟨[], []⟩) := by
  obtain ⟨reqs', h⟩ := retrievalLoop_chunks query headerSize chunks fuel 0 0 ⟨[], []⟩ []
    hserve hmono hfuel
  simp only [List.nil_append] at h
  have hsorted := expandExtents_sorted chunks.flatten 0 hmono
  refine ⟨_, h, rfl, rfl, rfl, hsorted, hsorted.nodup, ?_⟩
  intro hall
  simp [expandExtents_sentinels _ 0 hall]

/-- C4 on a file with a sparse run, served in two chunks: the map is
`{0→10, 1→11, 2→12, 5→50}`. -/
theorem C4_extent_expansion_witness :
    GetAllFileRetrievalPointers sparseFileQuery 32 3 =
      some ⟨true, ⟨[0, 1, 2, 5], [10, 11, 12, 50]⟩, [0, 5, 6]⟩ ∧
    ∃ res, GetAllFileRetrievalPointers sparseFileQuery 32 3 = some res ∧ res.ret = true ∧
      res.outClusters.vcns =
        (expandExtents 0 [[⟨3, 10⟩, ⟨5, -1⟩], [⟨6, 50⟩]].flatten).map Prod.fst ∧
      res.outClusters.lcns =
        (expandExtents 0 [[⟨3, 10⟩, ⟨5, -1⟩], [⟨6, 50⟩]].flatten).map Prod.snd ∧
      List.Pairwise (· < ·) res.outClusters.vcns ∧ res.outClusters.vcns.Nodup ∧
      ((∀ e ∈ [[(⟨3, 10⟩ : Extent), ⟨5, -1⟩], [⟨6, 50⟩]].flatten, e.Lcn = -1) →
        res.outClusters = ⟨[], []⟩) :=
  ⟨by decide, C4_extent_expansion sparseFileQuery 32 [[⟨3, 10⟩, ⟨5, -1⟩], [⟨6, 50⟩]]
    (by simp [ServesChunks, sparseFileQuery]) (by simp) 3 (by decide)⟩

/-! ## Single relocations -/

theorem getD_set_int_same (l : List Int) (i : Nat) (v : Int) (h : i < l.length) :
    (l.set i v).getD i 0 = v := by
  simp [List.getD_eq_getElem?_getD, List.getElem?_set, h]

theorem getD_set_int_other (l : List Int) (i j : Nat) (v : Int) (h : j ≠ i) :
    (l.set i v).getD j 0 = l.getD j 0 := by
  simp [List.getD_eq_getElem?_getD, List.getElem?_set, Ne.symm h]

theorem relocation_update (st : MoveState) (idx src dst : Nat) (moves : List (Int × Int))
    (hidx : idx < st.fc.lcns.length) (hsrc : src < 8 * st.volumeBitmap.length)
    (hdst : dst < 8 * st.volumeBitmap.length) (hne : src ≠ dst) :
    RelocationPost st idx src dst
      { volumeBitmap := setBit (clearBit st.volumeBitmap src) dst,
        fc := { st.fc with lcns := st.fc.lcns.set idx (dst : Int) },
        moves := moves } := by
  refine ⟨?_, ?_, ?_, ?_, ?_, ?_, ?_, rfl⟩
  · exact bitVal_setBit_same _ _ (by rw [length_clearBit]; exact hdst)
  · show bitVal (setBit (clearBit st.volumeBitmap src) dst) src = 0
    rw [bitVal_setBit_other _ _ _ hne]
    exact bitVal_clearBit_same _ _ hsrc
  · intro c hc1 hc2
    show bitVal (setBit (clearBit st.volumeBitmap src) dst) c = _
    rw [bitVal_setBit_other _ _ _ hc2, bitVal_clearBit_other _ _ _ hc1]
  · show (setBit (clearBit st.volumeBitmap src) dst).length = _
    rw [length_setBit, length_clearBit]
  · exact getD_set_int_same _ _ _ hidx
  · intro j hj
    exact getD_set_int_other _ _ _ _ hj
  · exact List.length_set _ _ _

/-- C5 (amended). Let the cluster at map index `idx` sit at `srcLcn`, let
`dstLcn` be the destination, both inside the bitmap, and `srcLcn ≠ dstLcn`.
Then a successful move in the loop of `DefragmentFile` (where
`dstLcn = blockStart + idx`) and a successful move in the loop of
`FragmentFileRandomly` (where `idx` is the random index and `dstLcn` the
destination found) both leave the destination bit set, the source bit clear,
every other bit as before, map entry `idx` equal to `dstLcn` and every other
map entry as before. -/
theorem C5_relocation_frame (st : MoveState) (idx srcLcn dstLcn : Nat)
    (hidx : idx < st.fc.lcns.length) (hlcn : st.fc.lcns.getD idx 0 = (srcLcn : Int))
    (hsrc : srcLcn < 8 * st.volumeBitmap.length) (hdst : dstLcn < 8 * st.volumeBitmap.length)
    (hne : srcLcn ≠ dstLcn) :
    (∀ (move : Nat → Int → Int → Bool) (blockStart : Nat), blockStart + idx = dstLcn →
      move st.moves.length (st.fc.vcns.getD idx 0) (dstLcn : Int) = true →
      RelocationPost st idx srcLcn dstLcn (defragMoveStep move blockStart idx st)) ∧
    (∀ (rand : Nat → Nat) (move : Nat → Int → Int → Bool) (totalClusters randCalls k : Nat),
      rand randCalls % st.fc.vcns.length = idx →
      findFreeDestination rand st.volumeBitmap totalClusters (randCalls + 1) = (some dstLcn, k) →
      move st.moves.length (st.fc.vcns.getD idx 0) (dstLcn : Int) = true →
      (fragMoveStep rand move totalClusters randCalls st).1 = true ∧
      RelocationPost st idx srcLcn dstLcn
        (fragMoveStep rand move totalClusters randCalls st).2.1) := by
  constructor
  · intro move blockStart hb hmove
    unfold defragMoveStep
    have hcast : (blockStart : Int) + (idx : Int) = (dstLcn : Int) := by
      rw [← hb]; push_cast; rfl
    have hne' : ¬ ((srcLcn : Int) = (dstLcn : Int)) := by
      intro h; exact hne (by exact_mod_cast h)
    simp only [hlcn, hcast, hne', hmove, if_false, Bool.not_true, Int.toNat_ofNat]
    exact relocation_update st idx srcLcn dstLcn _ hidx hsrc hdst hne
  · intro rand move totalClusters randCalls k hrand hfind hmove
    unfold fragMoveStep
    simp only [hrand, hfind, hlcn, hmove, Bool.not_true, Bool.false_eq_true, if_false,
      Int.toNat_ofNat, true_and]
    exact relocation_update st idx srcLcn dstLcn _ hidx hsrc hdst hne

/-- C5 (amended) at a concrete move: one file cluster at LCN 3 (bitmap byte
`0b00001000`) is relocated to LCN 5 by either loop; the byte becomes
`0b00100000`. -/
theorem C5_relocation_frame_witness :
    defragMoveStep (fun _ _ _ => true) 5 0 ⟨[8], ⟨[0], [3]⟩, []⟩ =
      ⟨[32], ⟨[0], [5]⟩, [(0, 5)]⟩ ∧
    fragMoveStep (fun _ => 5) (fun _ _ _ => true) 8 0 ⟨[8], ⟨[0], [3]⟩, []⟩ =
      (true, ⟨[32], ⟨[0], [5]⟩, [(0, 5)]⟩, 2) ∧
    RelocationPost ⟨[8], ⟨[0], [3]⟩, []⟩ 0 3 5
      (defragMoveStep (fun _ _ _ => true) 5 0 ⟨[8], ⟨[0], [3]⟩, []⟩) ∧
    RelocationPost ⟨[8], ⟨[0], [3]⟩, []⟩ 0 3 5
      (fragMoveStep (fun _ => 5) (fun _ _ _ => true) 8 0 ⟨[8], ⟨[0], [3]⟩, []⟩).2.1 :=
  have h := C5_relocation_frame ⟨[8], ⟨[0], [3]⟩, []⟩ 0 3 5 (by decide) (by decide) (by decide)
    (by decide) (by decide)
  ⟨by decide, by decide, h.1 (fun _ _ _ => true) 5 (by decide) rfl,
    (h.2 (fun _ => 5) (fun _ _ _ => true) 8 0 2 (by decide) (by decide) rfl).2⟩

/-- C5 as stated fails in `FragmentFileRandomly` when the bitmap marks the
source cluster free: on the all-free bitmap `[0]` of 8 clusters, with the file's
only cluster at LCN 3 and the random probe drawing candidate 3, the move is
requested from LCN 3 to LCN 3 and succeeds, the map entry is updated, and the
source bit ends set instead of cleared. -/
theorem C5_source_bit_left_set :
    (fragMoveStep (fun _ => 3) (fun _ _ _ => true) 8 0 ⟨[0], ⟨[0], [3]⟩, []⟩).1 = true ∧
    (fragMoveStep (fun _ => 3) (fun _ _ _ => true) 8 0 ⟨[0], ⟨[0], [3]⟩, []⟩).2.1.moves =
      [(0, 3)] ∧
    bitVal (fragMoveStep (fun _ => 3) (fun _ _ _ => true) 8 0
      ⟨[0], ⟨[0], [3]⟩, []⟩).2.1.volumeBitmap 3 = 1 ∧
    ¬ RelocationPost ⟨[0], ⟨[0], [3]⟩, []⟩ 0 3 3
      (fragMoveStep (fun _ => 3) (fun _ _ _ => true) 8 0 ⟨[0], ⟨[0], [3]⟩, []⟩).2.1 :=
  ⟨by decide, by decide, by decide, fun h => absurd h.2.1 (by decide)⟩

/-- C6. When `MoveSingleCluster` returns false, the iteration of the move loop of
`DefragmentFile` and the iteration of `FragmentFileRandomly` leave the bitmap
and the file's cluster map as they were (only the request is recorded), and
the loop goes on with the next index, respectively the next iteration. -/
theorem C6_failed_move_no_change (st : MoveState) :
    (∀ (move : Nat → Int → Int → Bool) (blockStart i : Nat),
      move st.moves.length (st.fc.vcns.getD i 0) ((blockStart : Int) + (i : Int)) = false →
      (defragMoveStep move blockStart i st).volumeBitmap = st.volumeBitmap ∧
      (defragMoveStep move blockStart i st).fc = st.fc ∧
      ∀ n, defragMoveLoop move blockStart (n + 1) i st =
        defragMoveLoop move blockStart n (i + 1) (defragMoveStep move blockStart i st)) ∧
    (∀ (rand : Nat → Nat) (move : Nat → Int → Int → Bool) (totalClusters randCalls dst k : Nat),
      findFreeDestination rand st.volumeBitmap totalClusters (randCalls + 1) = (some dst, k) →
      move st.moves.length (st.fc.vcns.getD (rand randCalls % st.fc.vcns.length) 0) (dst : Int)
        = false →
      fragMoveStep rand move totalClusters randCalls st =
        (true, { st with moves := st.moves ++
          [(st.fc.vcns.getD (rand randCalls % st.fc.vcns.length) 0, (dst : Int))] }, k) ∧
      ∀ n, fragMoveLoop rand move totalClusters (n + 1) randCalls st =
        fragMoveLoop rand move totalClusters n k { st with moves := st.moves ++
          [(st.fc.vcns.getD (rand randCalls % st.fc.vcns.length) 0, (dst : Int))] }) := by
  constructor
  · intro move blockStart i hmove
    refine ⟨?_, ?_, fun n => rfl⟩
    · unfold defragMoveStep
      simp only [hmove, Bool.not_false, if_true]
      split_ifs <;> rfl
    · unfold defragMoveStep
      simp only [hmove, Bool.not_false, if_true]
      split_ifs <;> rfl
  · intro rand move totalClusters randCalls dst k hfind hmove
    have hstep : fragMoveStep rand move totalClusters randCalls st =
        (true, { st with moves := st.moves ++
          [(st.fc.vcns.getD (rand randCalls % st.fc.vcns.length) 0, (dst : Int))] }, k) := by
      unfold fragMoveStep
      simp only [hfind, hmove, Bool.not_false, if_true]
    refine ⟨hstep, fun n => ?_⟩
    conv_lhs => unfold fragMoveLoop
    rw [hstep]

/-- C6 at a concrete failed move (LCN 3 to LCN 5 refused): bitmap `[8]` and map
`{0→3}` are unchanged in both loops. -/
theorem C6_failed_move_no_change_witness :
    (defragMoveStep (fun _ _ _ => false) 5 0 ⟨[8], ⟨[0], [3]⟩, []⟩).volumeBitmap = [8] ∧
    (defragMoveStep (fun _ _ _ => false) 5 0 ⟨[8], ⟨[0], [3]⟩, []⟩).fc = ⟨[0], [3]⟩ ∧
    fragMoveStep (fun _ => 5) (fun _ _ _ => false) 8 0 ⟨[8], ⟨[0], [3]⟩, []⟩ =
      (true, ⟨[8], ⟨[0], [3]⟩, [(0, 5)]⟩, 2) :=
  have h := C6_failed_move_no_change ⟨[8], ⟨[0], [3]⟩, []⟩
  ⟨(h.1 (fun _ _ _ => false) 5 0 rfl).1, (h.1 (fun _ _ _ => false) 5 0 rfl).2.1,
    (h.2 (fun _ => 5) (fun _ _ _ => false) 8 0 5 2 (by decide) rfl).1⟩

/-! ## Defragmentation of one file -/

theorem defragMoveStep_success (move : Nat → Int → Int → Bool) (hmove : ∀ k v d, move k v d = true)
    (blockStart i : Nat) (st : MoveState) (hi : i < st.fc.lcns.length) :
    (defragMoveStep move blockStart i st).fc.lcns.getD i 0 = (blockStart : Int) + (i : Int) ∧
    (∀ j : Nat, j ≠ i → (defragMoveStep move blockStart i st).fc.lcns.getD j 0 = st.fc.lcns.getD j 0) ∧
    (defragMoveStep move blockStart i st).fc.lcns.length = st.fc.lcns.length ∧
    (defragMoveStep move blockStart i st).fc.vcns = st.fc.vcns := by
  by_cases h : st.fc.lcns.getD i 0 = (blockStart : Int) + (i : Int)
  · have hstep : defragMoveStep move blockStart i st = st := by
      unfold defragMoveStep
      simp only [h, if_true]
    rw [hstep]
    exact ⟨h, fun _ _ => rfl, rfl, rfl⟩
  · have hstep : defragMoveStep move blockStart i st =
        { volumeBitmap := setBit (clearBit st.volumeBitmap (st.fc.lcns.getD i 0).toNat)
            ((blockStart : Int) + (i : Int)).toNat,
          fc := { st.fc with lcns := st.fc.lcns.set i ((blockStart : Int) + (i : Int)) },
          moves := st.moves ++ [(st.fc.vcns.getD i 0, (blockStart : Int) + (i : Int))] } := by
      unfold defragMoveStep
      simp only [h, if_false, hmove, Bool.not_true, Bool.false_eq_true]
    rw [hstep]
    exact ⟨getD_set_int_same _ _ _ hi, fun j hj => getD_set_int_other _ _ _ _ hj,
      List.length_set _ _ _, rfl⟩

theorem defragMoveLoop_success (move : Nat → Int → Int → Bool)
    (hmove : ∀ k v d, move k v d = true) (blockStart : Nat) :
    ∀ (n i : Nat) (st : MoveState), i + n = st.fc.lcns.length →
      (∀ j : Nat, j < i → st.fc.lcns.getD j 0 = (blockStart : Int) + (j : Int)) →
      (∀ j : Nat, j < st.fc.lcns.length →
        (defragMoveLoop move blockStart n i st).fc.lcns.getD j 0 = (blockStart : Int) + (j : Int)) ∧
      (defragMoveLoop move blockStart n i st).fc.lcns.length = st.fc.lcns.length ∧
      (defragMoveLoop move blockStart n i st).fc.vcns = st.fc.vcns := by
  intro n
  induction n with
  | zero =>
    intro i st hlen hdone
    exact ⟨fun j hj => hdone j (by omega), rfl, rfl⟩
  | succ n ih =>
    intro i st hlen hdone
    obtain ⟨s1, s2, s3, s4⟩ := defragMoveStep_success move hmove blockStart i st (by omega)
    unfold defragMoveLoop
    obtain ⟨r1, r2, r3⟩ := ih (i + 1) (defragMoveStep move blockStart i st) (by omega) (by
      intro j hj
      by_cases hji : j = i
      · rw [hji]; exact s1
      · rw [s2 j hji]; exact hdone j (by omega))
    exact ⟨fun j hj => r1 j (by omega), by omega, by rw [r3, s4]⟩

/-- C7. If the extent query gives the map `fc`, the map is neither empty nor
contiguous, `FindContiguousFreeBlock` finds a free run at `runStart` and every
relocation request succeeds, then `DefragmentFile` returns true and the map at
exit has the same VCNs and `lcns[i] = runStart + i` for every index `i`: it is
contiguous and occupies exactly `[runStart, runStart + count)`. -/
theorem C7_defragmented_contiguous (query : Nat → Int → RetrievalResponse) (headerSize : Nat)
    (move : Nat → Int → Int → Bool) (volumeBitmap : List Nat) (totalClusters fuel : Nat)
    (fc : FileClusters) (reqs : List Int) (runStart : Nat)
    (hget : GetAllFileRetrievalPointers query headerSize fuel = some ⟨true, fc, reqs⟩)
    (hne : fc.lcns ≠ [])
    (hfrag : isContiguousLoop fc.lcns (fc.lcns.length - 1) 1 = false)
    (hrun : FindContiguousFreeBlock volumeBitmap totalClusters fc.lcns.length = some runStart)
    (hmove : ∀ k v d, move k v d = true) :
    ∃ res, DefragmentFile true query headerSize move volumeBitmap totalClusters fuel = some res ∧
      res.ret = true ∧ res.st.fc.vcns = fc.vcns ∧
      res.st.fc.lcns.length = fc.lcns.length ∧
      ∀ i : Nat, i < fc.lcns.length →
        res.st.fc.lcns.getD i 0 = (runStart : Int) + (i : Int) := by
  obtain ⟨r1, r2, r3⟩ := defragMoveLoop_success move hmove runStart fc.lcns.length 0
    ⟨volumeBitmap, fc, []⟩ (by simp) (by intro j hj; omega)
  refine ⟨⟨true, defragMoveLoop move runStart fc.lcns.length 0 ⟨volumeBitmap, fc, []⟩⟩,
    ?_, rfl, r3, r2, r1⟩
  unfold DefragmentFile
  have hemp : fc.lcns.isEmpty = false := by
    cases h : fc.lcns with
    | nil => exact absurd h hne
    | cons a l => rfl
  simp [hget, hemp, hfrag, hrun]

/-- C7, the scenario of the specification: map `{0→10, 1→11, 2→12, 3→50}` with
the first free run of 4 at LCN 20 ends as `{0→20, 1→21, 2→22, 3→23}`. -/
theorem C7_defragmented_contiguous_witness :
    DefragmentFile true scenarioFileQuery 32 (fun _ _ _ => true) scenarioBitmap 64 2 =
      some ⟨true, ⟨[255, 227, 255, 0, 0, 0, 0, 0], ⟨[0, 1, 2, 3], [20, 21, 22, 23]⟩,
        [(0, 20), (1, 21), (2, 22), (3, 23)]⟩⟩ ∧
    ∃ res, DefragmentFile true scenarioFileQuery 32 (fun _ _ _ => true) scenarioBitmap 64 2 =
        some res ∧
      res.ret = true ∧ res.st.fc.vcns = [0, 1, 2, 3] ∧
      res.st.fc.lcns.length = 4 ∧
      ∀ i : Nat, i < 4 → res.st.fc.lcns.getD i 0 = ((20 : Nat) : Int) + (i : Int) :=
  ⟨by decide, C7_defragmented_contiguous scenarioFileQuery 32 (fun _ _ _ => true) scenarioBitmap
    64 2 ⟨[0, 1, 2, 3], [10, 11, 12, 50]⟩ [0, 4] 20 (by decide) (by decide) (by decide)
    (by decide) (fun _ _ _ => rfl)⟩

theorem isContiguousLoop_true (lcns : List Int) :
    ∀ (n i : Nat), (∀ j : Nat, i ≤ j → j < i + n → lcns.getD j 0 = lcns.getD (j - 1) 0 + 1) →
      isContiguousLoop lcns n i = true := by
  intro n
  induction n with
  | zero => intro i _; rfl
  | succ n ih =>
    intro i h
    unfold isContiguousLoop
    have hi := h i (le_refl _) (by omega)
    simp only [ne_eq, hi, not_true_eq_false, if_false]
    exact ih (i + 1) (fun j hj1 hj2 => h j (by omega) (by omega))

/-- C8. If the extent query gives a map that is contiguous
(`lcns[i] = lcns[i-1] + 1` for every `i ≥ 1`; so also an empty or one-cluster
map), `DefragmentFile` returns true, issues no relocation request and leaves
the bitmap and the map as they are. -/
theorem C8_contiguous_skipped (query : Nat → Int → RetrievalResponse) (headerSize : Nat)
    (move : Nat → Int → Int → Bool) (volumeBitmap : List Nat) (totalClusters fuel : Nat)
    (fc : FileClusters) (reqs : List Int)
    (hget : GetAllFileRetrievalPointers query headerSize fuel = some ⟨true, fc, reqs⟩)
    (hcontig : ∀ i : Nat, 1 ≤ i → i < fc.lcns.length →
      fc.lcns.getD i 0 = fc.lcns.getD (i - 1) 0 + 1) :
    DefragmentFile true query headerSize move volumeBitmap totalClusters fuel =
      some ⟨true, ⟨volumeBitmap, fc, []⟩⟩ := by
  have hloop : isContiguousLoop fc.lcns (fc.lcns.length - 1) 1 = true :=
    isContiguousLoop_true fc.lcns _ 1 (fun j hj1 hj2 => hcontig j hj1 (by omega))
  unfold DefragmentFile
  simp only [hget, hloop, Bool.not_true, Bool.false_eq_true, if_false, if_true]
  split_ifs <;> rfl

/-- C8 on a contiguous file of three clusters at LCN 10-12: no move, bitmap
unchanged, result true. -/
theorem C8_contiguous_skipped_witness :
    DefragmentFile true contiguousFileQuery 32 (fun _ _ _ => true) scenarioBitmap 64 2 =
      some ⟨true, ⟨scenarioBitmap, ⟨[0, 1, 2], [10, 11, 12]⟩, []⟩⟩ :=
  C8_contiguous_skipped contiguousFileQuery 32 (fun _ _ _ => true) scenarioBitmap 64 2
    ⟨[0, 1, 2], [10, 11, 12]⟩ [0, 3] (by decide) (by decide)

/-! ## Failure of the first bitmap query -/

/-- C9 fails on the code: with `totalClusters = 8` and `sizeof(VOLUME_BITMAP_BUFFER)
= 24`, a first query that fails outright, and a first query that succeeds with
only 8 bytes, both make `GetVolumeBitmapChunked` return true, with the all-zero
bitmap, after that single query. -/
theorem C9_header_failure_returns_true :
    GetVolumeBitmapChunked failingBitmapQuery 24 8 1 = some ⟨true, [0], [0]⟩ ∧
    GetVolumeBitmapChunked shortBitmapQuery 24 8 1 = some ⟨true, [0], [0]⟩ := by
  constructor <;> decide

/-! ## Scattered free-cluster search -/

theorem linearFindLoop_free (bitmap : List Nat) (howMany : Int) (total : Nat) :
    ∀ (n c : Nat) (out : List Nat), c + n = total →
      (∀ x ∈ out, x < total ∧ bitVal bitmap x = 0) →
      ∀ x ∈ linearFindLoop bitmap howMany n c out, x < total ∧ bitVal bitmap x = 0 := by
  intro n
  induction n with
  | zero => intro c out _ h; exact h
  | succ n ih =>
    intro c out hc h
    unfold linearFindLoop
    split_ifs with h1 h2
    · apply ih (c + 1) _ (by omega)
      intro x hx
      rcases List.mem_append.1 hx with hx | hx
      · exact h x hx
      · rw [List.mem_singleton.1 hx]; exact ⟨by omega, h2⟩
    · exact ih (c + 1) _ (by omega) h
    · exact h

theorem randomFindLoop_free (rand : Nat → Nat) (bitmap : List Nat) (howMany : Int) (total : Nat)
    (hpos : 1 ≤ total) :
    ∀ (n attempts : Nat) (found : List Nat),
      (∀ x ∈ found, x < total ∧ bitVal bitmap x = 0) →
      ∀ x ∈ randomFindLoop rand bitmap total howMany n attempts found,
        x < total ∧ bitVal bitmap x = 0 := by
  intro n
  induction n with
  | zero => intro attempts found h; exact h
  | succ n ih =>
    intro attempts found h
    unfold randomFindLoop
    simp only []
    split_ifs with h1 h2
    · apply ih (attempts + 1)
      intro x hx
      rcases List.mem_append.1 hx with hx | hx
      · exact h x hx
      · rw [List.mem_singleton.1 hx]; exact ⟨Nat.mod_lt _ (by omega), h2⟩
    · exact ih (attempts + 1) _ h
    · exact h

/-- C10. For every bitmap, `totalClusters ≥ 1`, `howMany` and sequence of random
draws, every LCN returned by `LinearFindFreeClusters` and every LCN returned by
`FindRandomFreeClusters` is below `totalClusters` and has bitmap bit 0. -/
theorem C10_scattered_free (rand : Nat → Nat) (bitmap : List Nat) (totalClusters : Nat)
    (howMany : Int) (hpos : 1 ≤ totalClusters) :
    (∀ c ∈ LinearFindFreeClusters bitmap totalClusters howMany,
      c < totalClusters ∧ bitVal bitmap c = 0) ∧
    (∀ c ∈ FindRandomFreeClusters rand bitmap totalClusters howMany,
      c < totalClusters ∧ bitVal bitmap c = 0) := by
  constructor
  · exact linearFindLoop_free bitmap howMany totalClusters totalClusters 0 [] (by omega)
      (by intro x hx; simp at hx)
  · exact randomFindLoop_free rand bitmap howMany totalClusters hpos _ 0 []
      (by intro x hx; simp at hx)

/-- C10 on the bitmap `[1,1,0,0,0,1,0]` with the draws `0, 3, 6, 9, ...`: the
linear search gives `[2, 3, 4]`, the random one `[3, 6, 2]`. -/
theorem C10_scattered_free_witness :
    LinearFindFreeClusters [35] 7 3 = [2, 3, 4] ∧
    FindRandomFreeClusters (fun k => 3 * k) [35] 7 3 = [3, 6, 2] ∧
    (∀ c ∈ LinearFindFreeClusters [35] 7 3, c < 7 ∧ bitVal [35] c = 0) ∧
    (∀ c ∈ FindRandomFreeClusters (fun k => 3 * k) [35] 7 3, c < 7 ∧ bitVal [35] c = 0) :=
  ⟨by decide, by decide, C10_scattered_free (fun k => 3 * k) [35] 7 3 (by decide)⟩

/-! ## Scattered search: what the two loops return -/

theorem linearFindLoop_eq (bitmap : List Nat) (howMany : Int) :
    ∀ (n c : Nat) (out : List Nat),
      linearFindLoop bitmap howMany n c out =
        out ++ ((List.range' c n).filter (IsClusterFree bitmap)).take
          (howMany.toNat - out.length) := by
  intro n
  induction n with
  | zero => intro c out; simp [linearFindLoop]
  | succ n ih =>
    intro c out
    unfold linearFindLoop
    by_cases hlt : (out.length : Int) < howMany
    · simp only [hlt, if_true]
      rw [ih, List.range'_succ, List.filter_cons]
      obtain ⟨m, hm⟩ : ∃ m, howMany.toNat - out.length = m + 1 :=
        ⟨howMany.toNat - out.length - 1, by omega⟩
      by_cases hf : bitVal bitmap c = 0
      · have hfree : IsClusterFree bitmap c = true := by simp [IsClusterFree, hf]
        simp only [hf, if_true, hfree, hm, List.take_succ_cons, List.length_append,
          List.length_singleton, List.append_assoc, List.singleton_append]
        congr 3
        omega
      · have hfree : ¬ (IsClusterFree bitmap c = true) := by simp [IsClusterFree, hf]
        simp only [hf, if_false, hfree, Bool.false_eq_true]
    · simp only [hlt, if_false]
      have : howMany.toNat - out.length = 0 := by omega
      simp [this]

theorem randomFindLoop_eq (rand : Nat → Nat) (bitmap : List Nat) (total : Nat) (howMany : Int) :
    ∀ (n attempts : Nat) (found : List Nat),
      randomFindLoop rand bitmap total howMany n attempts found =
        found ++ (((List.range' attempts n).map (fun k => rand k % total)).filter
          (IsClusterFree bitmap)).take (howMany.toNat - found.length) := by
  intro n
  induction n with
  | zero => intro attempts found; simp [randomFindLoop]
  | succ n ih =>
    intro attempts found
    unfold randomFindLoop
    by_cases hlt : (found.length : Int) < howMany
    · simp only [hlt, if_true]
      rw [ih, List.range'_succ, List.map_cons, List.filter_cons]
      obtain ⟨m, hm⟩ : ∃ m, howMany.toNat - found.length = m + 1 :=
        ⟨howMany.toNat - found.length - 1, by omega⟩
      by_cases hf : bitVal bitmap (rand attempts % total) = 0
      · have hfree : IsClusterFree bitmap (rand attempts % total) = true := by
          simp [IsClusterFree, hf]
        simp only [hf, if_true, hfree, hm, List.take_succ_cons, List.length_append,
          List.length_singleton, List.append_assoc, List.singleton_append]
        congr 3
        omega
      · have hfree : ¬ (IsClusterFree bitmap (rand attempts % total) = true) := by
          simp [IsClusterFree, hf]
        simp only [hf, if_false, hfree, Bool.false_eq_true]
    · simp only [hlt, if_false]
      have : howMany.toNat - found.length = 0 := by omega
      simp [this]

theorem LinearFindFreeClusters_eq (bitmap : List Nat) (totalClusters : Nat) (howMany : Int) :
    LinearFindFreeClusters bitmap totalClusters howMany =
      (freeClusters bitmap totalClusters).take howMany.toNat := by
  unfold LinearFindFreeClusters freeClusters
  rw [linearFindLoop_eq, List.range_eq_range']
  simp

theorem FindRandomFreeClusters_eq (rand : Nat → Nat) (bitmap : List Nat) (totalClusters : Nat)
    (howMany : Int) :
    FindRandomFreeClusters rand bitmap totalClusters howMany =
      ((drawnCandidates rand totalClusters (totalClusters * 10)).filter
        (IsClusterFree bitmap)).take howMany.toNat := by
  unfold FindRandomFreeClusters drawnCandidates
  rw [randomFindLoop_eq, List.range_eq_range']
  simp

theorem freeClusters_sorted (bitmap : List Nat) (totalClusters : Nat) :
    List.Pairwise (· < ·) (freeClusters bitmap totalClusters) :=
  (List.pairwise_lt_range totalClusters).filter _

theorem mem_freeClusters (bitmap : List Nat) (totalClusters c : Nat) :
    c ∈ freeClusters bitmap totalClusters ↔ c < totalClusters ∧ bitVal bitmap c = 0 := by
  simp [freeClusters, IsClusterFree]

theorem countFreeLoop_eq (bitmap : List Nat) :
    ∀ (n c freeCount : Nat),
      countFreeLoop bitmap n c freeCount =
        freeCount + ((List.range' c n).filter (IsClusterFree bitmap)).length := by
  intro n
  induction n with
  | zero => intro c freeCount; simp [countFreeLoop]
  | succ n ih =>
    intro c freeCount
    unfold countFreeLoop
    rw [ih, List.range'_succ, List.filter_cons]
    by_cases hf : bitVal bitmap c = 0
    · have hfree : IsClusterFree bitmap c = true := by simp [IsClusterFree, hf]
      simp only [hf, if_true, hfree, List.length_cons]
      omega
    · have hfree : ¬ (IsClusterFree bitmap c = true) := by simp [IsClusterFree, hf]
      simp only [hf, if_false, hfree, Bool.false_eq_true]

theorem CountFreeClusters_eq (bitmap : List Nat) (totalClusters : Nat) :
    CountFreeClusters bitmap totalClusters = (freeClusters bitmap totalClusters).length := by
  unfold CountFreeClusters freeClusters
  rw [countFreeLoop_eq, List.range_eq_range']
  simp

theorem mem_take_of_lt_sorted (l : List Nat) (hs : List.Pairwise (· < ·) l) (k x c : Nat)
    (hx : x ∈ l.take k) (hc : c ∈ l) (hlt : c < x) : c ∈ l.take k := by
  rw [← List.take_append_drop k l] at hc hs
  rcases List.mem_append.1 hc with h | h
  · exact h
  · have := (List.pairwise_append.1 hs).2.2 x hx c h
    omega

theorem randomLoops_spec (rand : Nat → Nat) (bitmap : List Nat) (totalClusters : Nat)
    (howMany : Int) :
    ∀ (n attempts : Nat) (found : List Nat),
      attempts ≤ randomAttemptsLoop rand bitmap totalClusters howMany n attempts found ∧
      randomAttemptsLoop rand bitmap totalClusters howMany n attempts found ≤ attempts + n ∧
      randomFindLoop rand bitmap totalClusters howMany n attempts found =
        found ++ (((List.range' attempts
          (randomAttemptsLoop rand bitmap totalClusters howMany n attempts found - attempts)).map
            (fun k => rand k % totalClusters)).filter (IsClusterFree bitmap)) := by
  intro n
  induction n with
  | zero => intro attempts found; simp [randomAttemptsLoop, randomFindLoop]
  | succ n ih =>
    intro attempts found
    unfold randomAttemptsLoop randomFindLoop
    by_cases hlt : (found.length : Int) < howMany
    · simp only [hlt, if_true]
      obtain ⟨h1, h2, h3⟩ := ih (attempts + 1)
        (if bitVal bitmap (rand attempts % totalClusters) = 0
          then found ++ [rand attempts % totalClusters] else found)
      refine ⟨by omega, by omega, ?_⟩
      rw [h3]
      obtain ⟨m, hm⟩ : ∃ m, randomAttemptsLoop rand bitmap totalClusters howMany n (attempts + 1)
          (if bitVal bitmap (rand attempts % totalClusters) = 0
            then found ++ [rand attempts % totalClusters] else found) = attempts + 1 + m :=
        ⟨_, (Nat.add_sub_cancel' h1).symm⟩
      rw [hm]
      have e1 : attempts + 1 + m - (attempts + 1) = m := by omega
      have e2 : attempts + 1 + m - attempts = m + 1 := by omega
      rw [e1, e2, List.range'_succ, List.map_cons, List.filter_cons]
      by_cases hf : bitVal bitmap (rand attempts % totalClusters) = 0
      · have hfree : IsClusterFree bitmap (rand attempts % totalClusters) = true := by
          simp [IsClusterFree, hf]
        simp only [hf, if_true, hfree, List.append_assoc, List.singleton_append]
      · have hfree : IsClusterFree bitmap (rand attempts % totalClusters) = false := by
          simp [IsClusterFree, hf]
        simp only [hf, if_false, hfree, Bool.false_eq_true]
    · simp only [hlt, if_false]
      simp

theorem FindRandomFreeClusters_draws (rand : Nat → Nat) (bitmap : List Nat)
    (totalClusters : Nat) (howMany : Int) :
    drawsMade rand bitmap totalClusters howMany ≤ totalClusters * 10 ∧
    FindRandomFreeClusters rand bitmap totalClusters howMany =
      (drawnCandidates rand totalClusters
        (drawsMade rand bitmap totalClusters howMany)).filter (IsClusterFree bitmap) := by
  obtain ⟨_, h2, h3⟩ := randomLoops_spec rand bitmap totalClusters howMany
    (totalClusters * 10) 0 []
  refine ⟨by unfold drawsMade; omega, ?_⟩
  unfold FindRandomFreeClusters drawnCandidates drawsMade
  rw [h3, List.nil_append, Nat.sub_zero, List.range_eq_range']

theorem nodup_free_draws (rand : Nat → Nat) (bitmap : List Nat) (totalClusters m : Nat) :
    ((drawnCandidates rand totalClusters m).filter (IsClusterFree bitmap)).Nodup ↔
      ∀ i j, i < j → j < m → rand i % totalClusters = rand j % totalClusters →
        bitVal bitmap (rand i % totalClusters) ≠ 0 := by
  unfold drawnCandidates
  rw [List.filter_map]
  constructor
  · intro hnd i j hij hj heq hfree
    have hmem : ∀ k, k < m → bitVal bitmap (rand k % totalClusters) = 0 →
        k ∈ List.filter (IsClusterFree bitmap ∘ fun k => rand k % totalClusters)
          (List.range m) := by
      intro k hk hb
      rw [List.mem_filter, List.mem_range]
      exact ⟨hk, by simp [IsClusterFree, hb]⟩
    have := List.inj_on_of_nodup_map hnd (hmem i (by omega) hfree)
      (hmem j hj (by rw [← heq]; exact hfree)) heq
    omega
  · intro hdraw
    unfold List.Nodup
    rw [List.pairwise_map]
    have hlt : List.Pairwise (· < ·)
        (List.filter (IsClusterFree bitmap ∘ fun k => rand k % totalClusters)
          (List.range m)) :=
      (List.pairwise_lt_range _).filter _
    refine hlt.imp_of_mem ?_
    intro a b ha hb hab heq
    rw [List.mem_filter, List.mem_range] at ha hb
    have hfree : bitVal bitmap (rand a % totalClusters) = 0 := by
      simpa [IsClusterFree] using ha.2
    exact hdraw a b hab hb.1 heq hfree

theorem searchCall_of_nonneg (rand : Nat → Nat) (bitmap : List Nat) (totalClusters : Nat)
    (howMany : Int) (h0 : 0 ≤ howMany) :
    LinearFindFreeClustersCall bitmap totalClusters howMany =
      some (LinearFindFreeClusters bitmap totalClusters howMany) ∧
    FindRandomFreeClustersCall rand bitmap totalClusters howMany =
      some (FindRandomFreeClusters rand bitmap totalClusters howMany) := by
  have h : reserveThrows howMany = false := by
    unfold reserveThrows
    exact decide_eq_false (by omega)
  unfold LinearFindFreeClustersCall FindRandomFreeClustersCall
  rw [h]
  exact ⟨rfl, rfl⟩

theorem searchCall_some (rand : Nat → Nat) (bitmap : List Nat) (totalClusters : Nat)
    (howMany : Int) :
    (∀ out, LinearFindFreeClustersCall bitmap totalClusters howMany = some out →
      out = LinearFindFreeClusters bitmap totalClusters howMany) ∧
    (∀ found, FindRandomFreeClustersCall rand bitmap totalClusters howMany = some found →
      found = FindRandomFreeClusters rand bitmap totalClusters howMany) := by
  unfold LinearFindFreeClustersCall FindRandomFreeClustersCall
  cases reserveThrows howMany
  · exact ⟨fun out h => (Option.some.inj h).symm, fun found h => (Option.some.inj h).symm⟩
  · exact ⟨fun out h => by simp at h, fun found h => by simp at h⟩

/-- C11 (amended). Whenever a call of `LinearFindFreeClusters` returns a list,
its LCNs are pairwise distinct.  Whenever a call of `FindRandomFreeClusters`
returns a list, that list holds the free candidates among the draws the call
made, in draw order, and its LCNs are pairwise distinct exactly when no free
candidate is repeated among those draws; the function does not filter
repeated draws.  Both calls return a list when `howMany ≥ 0`. -/
theorem C11_distinct_clusters (rand : Nat → Nat) (bitmap : List Nat) (totalClusters : Nat)
    (howMany : Int) :
    (∀ out, LinearFindFreeClustersCall bitmap totalClusters howMany = some out → out.Nodup) ∧
    (∀ found, FindRandomFreeClustersCall rand bitmap totalClusters howMany = some found →
      found = (drawnCandidates rand totalClusters
        (drawsMade rand bitmap totalClusters howMany)).filter (IsClusterFree bitmap) ∧
      (found.Nodup ↔
        ∀ i j, i < j → j < drawsMade rand bitmap totalClusters howMany →
          rand i % totalClusters = rand j % totalClusters →
          bitVal bitmap (rand i % totalClusters) ≠ 0)) ∧
    (0 ≤ howMany →
      LinearFindFreeClustersCall bitmap totalClusters howMany =
        some (LinearFindFreeClusters bitmap totalClusters howMany) ∧
      FindRandomFreeClustersCall rand bitmap totalClusters howMany =
        some (FindRandomFreeClusters rand bitmap totalClusters howMany)) := by
  obtain ⟨hl, hr⟩ := searchCall_some rand bitmap totalClusters howMany
  refine ⟨?_, ?_, searchCall_of_nonneg rand bitmap totalClusters howMany⟩
  · intro out hout
    rw [hl out hout, LinearFindFreeClusters_eq]
    exact ((freeClusters_sorted bitmap totalClusters).sublist (List.take_sublist _ _)).nodup
  · intro found hfound
    have heq := (FindRandomFreeClusters_draws rand bitmap totalClusters howMany).2
    rw [hr found hfound]
    refine ⟨heq, ?_⟩
    rw [heq]
    exact nodup_free_draws rand bitmap totalClusters _

/-- C11 (amended) on an all-free volume of 8 clusters with the draws
`0, 1, 2, ...`: three clusters are asked for, three draws are made, no
candidate is repeated among them, and the list `[0, 1, 2]` has no duplicate. -/
theorem C11_distinct_clusters_witness :
    FindRandomFreeClustersCall (fun k => k) [0] 8 3 = some [0, 1, 2] ∧
    drawsMade (fun k => k) [0] 8 3 = 3 ∧
    ([0, 1, 2] : List Nat).Nodup ∧
    (∀ out, LinearFindFreeClustersCall [0] 8 3 = some out → out.Nodup) :=
  have h := C11_distinct_clusters (fun k => k) [0] 8 3
  have h3 : drawsMade (fun k => k) [0] 8 3 = 3 := by decide
  ⟨by decide, h3,
    ((h.2.1 [0, 1, 2] (by decide)).2).2 (by
      intro i j hij hj heq
      rw [h3] at hj
      omega),
    h.1⟩

/-- C11 as stated fails for `FindRandomFreeClusters`: on the bitmap
`[1,1,0,0,0,1,0]` with every draw equal to 3, three clusters are asked for,
three draws are made and the free cluster 3 is returned three times. -/
theorem C11_random_duplicates :
    FindRandomFreeClustersCall (fun _ => 3) [35] 7 3 = some [3, 3, 3] ∧
    drawsMade (fun _ => 3) [35] 7 3 = 3 ∧
    FindRandomFreeClusters (fun _ => 3) [35] 7 3 = [3, 3, 3] ∧
    ¬ (FindRandomFreeClusters (fun _ => 3) [35] 7 3).Nodup := by
  refine ⟨by decide, by decide, by decide, by decide⟩

/-- C12. For `howMany ≥ 0`, `LinearFindFreeClusters` returns the first `howMany`
entries of the ascending list of free clusters of `[0, totalClusters)`: exactly
`min(howMany, F)` clusters with `F = CountFreeClusters`, strictly ascending,
each free and in range, and every free cluster below a returned one is
returned too (they are the lowest free LCNs). -/
theorem C12_linear_lowest (bitmap : List Nat) (totalClusters : Nat) (howMany : Int)
    (h0 : 0 ≤ howMany) :
    LinearFindFreeClusters bitmap totalClusters howMany =
      (freeClusters bitmap totalClusters).take howMany.toNat ∧
    ((LinearFindFreeClusters bitmap totalClusters howMany).length : Int) =
      min howMany (CountFreeClusters bitmap totalClusters : Int) ∧
    List.Pairwise (· < ·) (LinearFindFreeClusters bitmap totalClusters howMany) ∧
    (∀ x ∈ LinearFindFreeClusters bitmap totalClusters howMany,
      x < totalClusters ∧ bitVal bitmap x = 0) ∧
    (∀ x ∈ LinearFindFreeClusters bitmap totalClusters howMany, ∀ c, c < x →
      bitVal bitmap c = 0 → c ∈ LinearFindFreeClusters bitmap totalClusters howMany) := by
  have heq := LinearFindFreeClusters_eq bitmap totalClusters howMany
  have hsorted := freeClusters_sorted bitmap totalClusters
  refine ⟨heq, ?_, ?_, ?_, ?_⟩
  · rw [heq, List.length_take, CountFreeClusters_eq]
    omega
  · rw [heq]
    exact hsorted.sublist (List.take_sublist _ _)
  · intro x hx
    rw [heq] at hx
    exact (mem_freeClusters bitmap totalClusters x).1 (List.mem_of_mem_take hx)
  · intro x hx c hc hfree
    rw [heq] at hx ⊢
    have hxr := (mem_freeClusters bitmap totalClusters x).1 (List.mem_of_mem_take hx)
    exact mem_take_of_lt_sorted _ hsorted _ x c hx
      ((mem_freeClusters bitmap totalClusters c).2 ⟨by omega, hfree⟩) hc

/-- C12 on the bitmap `[1,1,0,0,0,1,0]`, which has 4 free clusters: asking for 3
gives `[2, 3, 4]`, asking for 9 gives all four, `[2, 3, 4, 6]`. -/
theorem C12_linear_lowest_witness :
    LinearFindFreeClusters [35] 7 3 = [2, 3, 4] ∧
    LinearFindFreeClusters [35] 7 9 = [2, 3, 4, 6] ∧
    CountFreeClusters [35] 7 = 4 ∧
    ((LinearFindFreeClusters [35] 7 9).length : Int) = min 9 (CountFreeClusters [35] 7 : Int) ∧
    List.Pairwise (· < ·) (LinearFindFreeClusters [35] 7 9) :=
  have h := C12_linear_lowest [35] 7 9 (by decide)
  ⟨by decide, by decide, by decide, h.2.1, h.2.2.1⟩

/-- C13 (amended). For `howMany ≥ 1` a call of `FindRandomFreeClusters` returns a
list after at most `totalClusters * 10` draws, and it has no linear fallback:
the list is the first `howMany` free candidates among those draws, so it has
at most `howMany` clusters, and it is non-empty exactly when at least one of
the `totalClusters * 10` draws hits a free cluster. -/
theorem C13_random_bounded (rand : Nat → Nat) (bitmap : List Nat) (totalClusters : Nat)
    (howMany : Int) (h1 : 1 ≤ howMany) :
    FindRandomFreeClustersCall rand bitmap totalClusters howMany =
      some (FindRandomFreeClusters rand bitmap totalClusters howMany) ∧
    drawsMade rand bitmap totalClusters howMany ≤ totalClusters * 10 ∧
    FindRandomFreeClusters rand bitmap totalClusters howMany =
      ((drawnCandidates rand totalClusters (totalClusters * 10)).filter
        (IsClusterFree bitmap)).take howMany.toNat ∧
    (FindRandomFreeClusters rand bitmap totalClusters howMany).length ≤ howMany.toNat ∧
    (FindRandomFreeClusters rand bitmap totalClusters howMany ≠ [] ↔
      ∃ k, k < totalClusters * 10 ∧ bitVal bitmap (rand k % totalClusters) = 0) := by
  have heq := FindRandomFreeClusters_eq rand bitmap totalClusters howMany
  refine ⟨(searchCall_of_nonneg rand bitmap totalClusters howMany (by omega)).2,
    (FindRandomFreeClusters_draws rand bitmap totalClusters howMany).1, heq, ?_, ?_⟩
  · rw [heq, List.length_take]; omega
  · rw [heq]
    constructor
    · intro hne
      obtain ⟨x, hx⟩ := List.exists_mem_of_ne_nil _ hne
      have hx2 := List.mem_of_mem_take hx
      rw [List.mem_filter] at hx2
      unfold drawnCandidates at hx2
      rw [List.mem_map] at hx2
      obtain ⟨⟨k, hk, rfl⟩, hfree⟩ := hx2
      exact ⟨k, List.mem_range.1 hk, by simpa [IsClusterFree] using hfree⟩
    · rintro ⟨k, hk, hfree⟩ hnil
      have hmem : rand k % totalClusters ∈
          (drawnCandidates rand totalClusters (totalClusters * 10)).filter
            (IsClusterFree bitmap) := by
        rw [List.mem_filter]
        refine ⟨?_, by simp [IsClusterFree, hfree]⟩
        unfold drawnCandidates
        exact List.mem_map.2 ⟨k, List.mem_range.2 hk, rfl⟩
      obtain ⟨m, hm⟩ : ∃ m, howMany.toNat = m + 1 := ⟨howMany.toNat - 1, by omega⟩
      rw [hm] at hnil
      cases hl : (drawnCandidates rand totalClusters (totalClusters * 10)).filter
          (IsClusterFree bitmap) with
      | nil => rw [hl] at hmem; simp at hmem
      | cons a l => rw [hl] at hnil; simp at hnil

/-- C13 (amended) on the bitmap `[1,1,0,0,0,1,0]` with three clusters asked for
and the draws `2, 0, 0, ...`: all 70 draws are made, only the first hits a free
cluster, and the call returns the one-element list `[2]`, although clusters 3,
4 and 6 are free as well. -/
theorem C13_random_bounded_witness :
    (1 : Int) ≤ 3 ∧
    FindRandomFreeClustersCall (fun k => if k = 0 then 2 else 0) [35] 7 3 = some [2] ∧
    drawsMade (fun k => if k = 0 then 2 else 0) [35] 7 3 = 70 ∧
    (FindRandomFreeClusters (fun k => if k = 0 then 2 else 0) [35] 7 3).length ≤ 3 ∧
    (FindRandomFreeClusters (fun k => if k = 0 then 2 else 0) [35] 7 3 ≠ [] ↔
      ∃ k, k < 7 * 10 ∧ bitVal [35] ((if k = 0 then 2 else 0) % 7) = 0) :=
  have h := C13_random_bounded (fun k => if k = 0 then 2 else 0) [35] 7 3 (by decide)
  ⟨by decide, by decide, by decide, h.2.2.2.1, h.2.2.2.2⟩

/-- C13 as stated fails: the bitmap `[1,1,0,0,0,1,0]` has free clusters (cluster
2 is free), one cluster is asked for, every draw gives the allocated cluster
0, and the call of `FindRandomFreeClusters` returns the empty list after its
70 draws. -/
theorem C13_random_finds_nothing :
    bitVal [35] 2 = 0 ∧ (2 : Nat) < 7 ∧ (1 : Int) ≤ 1 ∧
    drawsMade (fun _ => 0) [35] 7 1 = 70 ∧
    FindRandomFreeClustersCall (fun _ => 0) [35] 7 1 = some [] ∧
    FindRandomFreeClusters (fun _ => 0) [35] 7 1 = [] := by
  refine ⟨by decide, by decide, by decide, by decide, by decide, by decide⟩

/-! ## Destination search of the fragmentation policy -/

theorem randomProbeLoop_some (rand : Nat → Nat) (bitmap : List Nat) (total : Nat)
    (hpos : 1 ≤ total) :
    ∀ (n k c k' : Nat), randomProbeLoop rand bitmap total n k = (some c, k') →
      c < total ∧ bitVal bitmap c = 0 := by
  intro n
  induction n with
  | zero => intro k c k' h; simp [randomProbeLoop] at h
  | succ n ih =>
    intro k c k' h
    unfold randomProbeLoop at h
    by_cases hf : bitVal bitmap (rand k % total) = 0
    · simp only [hf, if_true, Prod.mk.injEq, Option.some.injEq] at h
      rw [← h.1]
      exact ⟨Nat.mod_lt _ (by omega), hf⟩
    · simp only [hf, if_false] at h
      exact ih _ _ _ h

theorem linearProbeLoop_some (bitmap : List Nat) :
    ∀ (n c0 c : Nat), linearProbeLoop bitmap n c0 = some c →
      c0 ≤ c ∧ c < c0 + n ∧ bitVal bitmap c = 0 := by
  intro n
  induction n with
  | zero => intro c0 c h; simp [linearProbeLoop] at h
  | succ n ih =>
    intro c0 c h
    unfold linearProbeLoop at h
    by_cases hf : bitVal bitmap c0 = 0
    · simp only [hf, if_true, Option.some.injEq] at h
      subst h
      exact ⟨le_refl _, by omega, hf⟩
    · simp only [hf, if_false] at h
      obtain ⟨h1, h2, h3⟩ := ih _ _ h
      exact ⟨by omega, by omega, h3⟩

theorem linearProbeLoop_none (bitmap : List Nat) :
    ∀ (n c0 : Nat), linearProbeLoop bitmap n c0 = none →
      ∀ c, c0 ≤ c → c < c0 + n → bitVal bitmap c ≠ 0 := by
  intro n
  induction n with
  | zero => intro c0 _ c h1 h2; omega
  | succ n ih =>
    intro c0 h c h1 h2
    unfold linearProbeLoop at h
    by_cases hf : bitVal bitmap c0 = 0
    · simp [hf] at h
    · simp only [hf, if_false] at h
      by_cases hc : c = c0
      · rw [hc]; exact hf
      · exact ih _ h c (by omega) (by omega)

theorem findFreeDestination_some (rand : Nat → Nat) (bitmap : List Nat) (total k : Nat)
    (hpos : 1 ≤ total) (c : Nat)
    (h : (findFreeDestination rand bitmap total k).1 = some c) :
    c < total ∧ bitVal bitmap c = 0 := by
  unfold findFreeDestination at h
  cases hp : randomProbeLoop rand bitmap total 2000 k with
  | mk found k' =>
    rw [hp] at h
    cases found with
    | some c' =>
      simp only [Option.some.injEq] at h
      subst h
      exact randomProbeLoop_some rand bitmap total hpos _ _ _ _ hp
    | none =>
      simp only at h
      obtain ⟨_, h2, h3⟩ := linearProbeLoop_some bitmap _ _ _ h
      exact ⟨by omega, h3⟩

theorem findFreeDestination_none (rand : Nat → Nat) (bitmap : List Nat) (total k : Nat)
    (hpos : 1 ≤ total) :
    (findFreeDestination rand bitmap total k).1 = none ↔
      ¬ ∃ c, c < total ∧ bitVal bitmap c = 0 := by
  constructor
  · intro h hex
    obtain ⟨c, hc1, hc2⟩ := hex
    unfold findFreeDestination at h
    cases hp : randomProbeLoop rand bitmap total 2000 k with
    | mk found k' =>
      rw [hp] at h
      cases found with
      | some c' => simp at h
      | none =>
        simp only at h
        exact linearProbeLoop_none bitmap _ _ h c (by omega) (by omega) hc2
  · intro hno
    cases hres : (findFreeDestination rand bitmap total k).1 with
    | none => rfl
    | some c =>
      exfalso
      exact hno ⟨c, findFreeDestination_some rand bitmap total k hpos c hres⟩

theorem fragMoveStep_flag (rand : Nat → Nat) (move : Nat → Int → Int → Bool)
    (total randCalls : Nat) (st : MoveState) :
    ((fragMoveStep rand move total randCalls st).1 = false ↔
      (findFreeDestination rand st.volumeBitmap total (randCalls + 1)).1 = none) ∧
    ((findFreeDestination rand st.volumeBitmap total (randCalls + 1)).1 = none →
      (fragMoveStep rand move total randCalls st).2.1 = st) := by
  unfold fragMoveStep
  cases hfd : findFreeDestination rand st.volumeBitmap total (randCalls + 1) with
  | mk found k =>
    cases found with
    | none => simp
    | some c =>
      simp only []
      split_ifs <;> simp

/-- C14. With `totalClusters ≥ 1`, in an iteration of `FragmentFileRandomly` that
starts in state `st`: the destination search (2000 random probes, then the
ascending scan) only ever selects a cluster below `totalClusters` whose bit is
0, and it selects one whenever such a cluster exists; the iteration executes
`return false` exactly when no cluster of `[0, totalClusters)` is free, and then
the loop ends there with result false and the state untouched, whatever number
of moves remained; otherwise the loop goes on. -/
theorem C14_destination_or_volume_full (rand : Nat → Nat) (move : Nat → Int → Int → Bool)
    (totalClusters randCalls : Nat) (st : MoveState) (hpos : 1 ≤ totalClusters) :
    (∀ c, (findFreeDestination rand st.volumeBitmap totalClusters (randCalls + 1)).1 = some c →
      c < totalClusters ∧ bitVal st.volumeBitmap c = 0) ∧
    ((∃ c, c < totalClusters ∧ bitVal st.volumeBitmap c = 0) →
      ∃ c, (findFreeDestination rand st.volumeBitmap totalClusters (randCalls + 1)).1 = some c) ∧
    ((fragMoveStep rand move totalClusters randCalls st).1 = false ↔
      ¬ ∃ c, c < totalClusters ∧ bitVal st.volumeBitmap c = 0) ∧
    ((¬ ∃ c, c < totalClusters ∧ bitVal st.volumeBitmap c = 0) →
      ∀ n, fragMoveLoop rand move totalClusters (n + 1) randCalls st = ⟨false, st⟩) ∧
    ((∃ c, c < totalClusters ∧ bitVal st.volumeBitmap c = 0) →
      ∀ n, fragMoveLoop rand move totalClusters (n + 1) randCalls st =
        fragMoveLoop rand move totalClusters n
          (fragMoveStep rand move totalClusters randCalls st).2.2
          (fragMoveStep rand move totalClusters randCalls st).2.1) := by
  have hnone := findFreeDestination_none rand st.volumeBitmap totalClusters (randCalls + 1) hpos
  have hflag := fragMoveStep_flag rand move totalClusters randCalls st
  refine ⟨fun c h => findFreeDestination_some rand _ _ _ hpos c h, ?_, ?_, ?_, ?_⟩
  · intro hex
    cases hres : (findFreeDestination rand st.volumeBitmap totalClusters (randCalls + 1)).1 with
    | none => exact absurd hex (hnone.1 hres)
    | some c => exact ⟨c, rfl⟩
  · exact hflag.1.trans hnone
  · intro hno n
    have h1 := hflag.1.2 (hnone.2 hno)
    have h2 := hflag.2 (hnone.2 hno)
    conv_lhs => unfold fragMoveLoop
    rcases hstep : fragMoveStep rand move totalClusters randCalls st with ⟨b, st', k⟩
    rw [hstep] at h1 h2
    simp only at h1 h2
    subst h1 h2
    rfl
  · intro hex n
    have h1 : (fragMoveStep rand move totalClusters randCalls st).1 = true := by
      cases hb : (fragMoveStep rand move totalClusters randCalls st).1 with
      | true => rfl
      | false => exact absurd hex ((hflag.1.trans hnone).1 hb)
    conv_lhs => unfold fragMoveLoop
    rcases hstep : fragMoveStep rand move totalClusters randCalls st with ⟨b, st', k⟩
    rw [hstep] at h1
    simp only at h1
    subst h1
    rfl

/-- C14 on a full volume of 8 clusters (byte 255) and on the bitmap
`[1,1,0,0,0,1,0]` with every draw hitting the allocated cluster 0: the first
aborts with false and no move, the second still selects a destination, and any
destination it selects is free. -/
theorem C14_destination_or_volume_full_witness :
    fragMoveLoop (fun _ => 0) (fun _ _ _ => true) 8 3 0 ⟨[255], ⟨[0], [3]⟩, []⟩ =
      ⟨false, ⟨[255], ⟨[0], [3]⟩, []⟩⟩ ∧
    (∃ c, (findFreeDestination (fun _ => 0) [35] 7 1).1 = some c) ∧
    (∀ c, (findFreeDestination (fun _ => 0) [35] 7 1).1 = some c →
      c < 7 ∧ bitVal [35] c = 0) :=
  have h1 := C14_destination_or_volume_full (fun _ => 0) (fun _ _ _ => true) 8 0
    ⟨[255], ⟨[0], [3]⟩, []⟩ (by decide)
  have h2 := C14_destination_or_volume_full (fun _ => 0) (fun _ _ _ => true) 7 0
    ⟨[35], ⟨[0], [3]⟩, []⟩ (by decide)
  ⟨h1.2.2.2.1 (by decide) 2, h2.2.1 ⟨2, by decide, by decide⟩, h2.1⟩

/-! ## Extent mapping: stop conditions and failure -/

theorem retrievalLoop_eof (query : Nat → Int → RetrievalResponse) (hs fuel k : Nat) (v : Int)
    (fc : FileClusters) (reqs : List Int)
    (h : (query k v).ok = false ∧ (query k v).eof = true) :
    retrievalLoop query hs (fuel + 1) k v fc reqs = some ⟨true, fc, reqs ++ [v]⟩ := by
  unfold retrievalLoop
  simp [h.1, h.2]

theorem retrievalLoop_failed (query : Nat → Int → RetrievalResponse) (hs fuel k : Nat) (v : Int)
    (fc : FileClusters) (reqs : List Int) (h : HardFailure hs (query k v)) :
    retrievalLoop query hs (fuel + 1) k v fc reqs = some ⟨false, fc, reqs ++ [v]⟩ := by
  unfold retrievalLoop
  rcases h with ⟨h1, h2⟩ | ⟨h1, h2⟩
  · simp [h1, h2]
  · simp [h1, h2]

theorem retrievalLoop_empty (query : Nat → Int → RetrievalResponse) (hs fuel k : Nat) (v : Int)
    (fc : FileClusters) (reqs : List Int)
    (h : (query k v).ok = true ∧ hs ≤ (query k v).bytesReturned ∧ (query k v).Extents = []) :
    retrievalLoop query hs (fuel + 1) k v fc reqs = some ⟨true, fc, reqs ++ [v]⟩ := by
  unfold retrievalLoop
  simp [h.1, h.2.2, Nat.not_lt.2 h.2.1]

theorem retrievalLoop_no_advance (query : Nat → Int → RetrievalResponse) (hs fuel k : Nat)
    (v : Int) (fc : FileClusters) (reqs : List Int)
    (h : (query k v).ok = true ∧ hs ≤ (query k v).bytesReturned ∧ (query k v).Extents ≠ [] ∧
      ((query k v).Extents.getD ((query k v).Extents.length - 1) ⟨0, 0⟩).NextVcn ≤ v) :
    retrievalLoop query hs (fuel + 1) k v fc reqs =
      some ⟨true, extentLoop (query k v).Extents (query k v).StartingVcn fc, reqs ++ [v]⟩ := by
  unfold retrievalLoop
  have hlen : ¬ (query k v).Extents.length = 0 := fun e => h.2.2.1 (List.length_eq_zero.1 e)
  simp only [h.1, Bool.not_true, Bool.false_eq_true, if_false, Nat.not_lt.2 h.2.1, hlen,
    h.2.2.2, if_true]

theorem retrievalLoop_advance (query : Nat → Int → RetrievalResponse) (hs fuel k : Nat)
    (v : Int) (fc : FileClusters) (reqs : List Int)
    (h : (query k v).ok = true ∧ hs ≤ (query k v).bytesReturned ∧ (query k v).Extents ≠ [] ∧
      v < ((query k v).Extents.getD ((query k v).Extents.length - 1) ⟨0, 0⟩).NextVcn) :
    retrievalLoop query hs (fuel + 1) k v fc reqs =
      retrievalLoop query hs fuel (k + 1)
        ((query k v).Extents.getD ((query k v).Extents.length - 1) ⟨0, 0⟩).NextVcn
        (extentLoop (query k v).Extents (query k v).StartingVcn fc) (reqs ++ [v]) := by
  conv_lhs => unfold retrievalLoop
  have hlen : ¬ (query k v).Extents.length = 0 := fun e => h.2.2.1 (List.length_eq_zero.1 e)
  simp only [h.1, Bool.not_true, Bool.false_eq_true, if_false, Nat.not_lt.2 h.2.1, hlen,
    not_le.2 h.2.2.2]

/-- The five ways one query of the loop can go. -/
theorem retrieval_cases (hs : Nat) (r : RetrievalResponse) (v : Int) :
    (r.ok = false ∧ r.eof = true) ∨ HardFailure hs r ∨
    (r.ok = true ∧ hs ≤ r.bytesReturned ∧ r.Extents = []) ∨
    (r.ok = true ∧ hs ≤ r.bytesReturned ∧ r.Extents ≠ [] ∧
      (r.Extents.getD (r.Extents.length - 1) ⟨0, 0⟩).NextVcn ≤ v) ∨
    (r.ok = true ∧ hs ≤ r.bytesReturned ∧ r.Extents ≠ [] ∧
      v < (r.Extents.getD (r.Extents.length - 1) ⟨0, 0⟩).NextVcn) := by
  unfold HardFailure
  cases hok : r.ok
  · cases heof : r.eof
    · exact Or.inr (Or.inl (Or.inl ⟨rfl, rfl⟩))
    · exact Or.inl ⟨rfl, rfl⟩
  · by_cases hb : r.bytesReturned < hs
    · exact Or.inr (Or.inl (Or.inr ⟨rfl, hb⟩))
    · by_cases he : r.Extents = []
      · exact Or.inr (Or.inr (Or.inl ⟨rfl, Nat.not_lt.1 hb, he⟩))
      · rcases le_or_lt (r.Extents.getD (r.Extents.length - 1) ⟨0, 0⟩).NextVcn v with h | h
        · exact Or.inr (Or.inr (Or.inr (Or.inl ⟨rfl, Nat.not_lt.1 hb, he, h⟩)))
        · exact Or.inr (Or.inr (Or.inr (Or.inr ⟨rfl, Nat.not_lt.1 hb, he, h⟩)))

theorem hardFailure_trace_extend (query : Nat → Int → RetrievalResponse) (hs k : Nat) (v : Int)
    (reqs : List Int) (hlen : reqs.length = k)
    (hprev : ∀ j, j < k → ¬ HardFailure hs (query j (reqs.getD j 0))) :
    (∃ j, j < (reqs ++ [v]).length ∧ HardFailure hs (query j ((reqs ++ [v]).getD j 0))) ↔
      HardFailure hs (query k v) := by
  constructor
  · rintro ⟨j, hj, hf⟩
    rw [List.length_append, List.length_singleton] at hj
    by_cases hjk : j < k
    · rw [List.getD_append _ _ _ _ (by omega)] at hf
      exact absurd hf (hprev j hjk)
    · have hjeq : j = k := by omega
      subst hjeq
      rw [List.getD_append_right _ _ _ _ (by omega)] at hf
      simpa [hlen] using hf
  · intro hf
    refine ⟨k, by simp [hlen], ?_⟩
    rw [List.getD_append_right _ _ _ _ (by omega)]
    simpa [hlen] using hf

theorem retrievalLoop_trace (query : Nat → Int → RetrievalResponse) (hs : Nat) :
    ∀ (fuel k : Nat) (v : Int) (fc : FileClusters) (reqs : List Int) (res : RetrievalResult),
      retrievalLoop query hs fuel k v fc reqs = some res →
      reqs.length = k → List.Pairwise (· < ·) reqs → (∀ x ∈ reqs, x < v) →
      (∀ j, j < k → ¬ HardFailure hs (query j (reqs.getD j 0))) →
      List.Pairwise (· < ·) res.requests ∧ (∃ tail, res.requests = reqs ++ v :: tail) ∧
      (res.ret = false ↔
        ∃ j, j < res.requests.length ∧ HardFailure hs (query j (res.requests.getD j 0))) := by
  intro fuel
  induction fuel with
  | zero => intro k v fc reqs res h; simp [retrievalLoop] at h
  | succ fuel ih =>
    intro k v fc reqs res hres hlen hsorted hbelow hprev
    have hsorted' : List.Pairwise (· < ·) (reqs ++ [v]) := by
      rw [List.pairwise_append]
      exact ⟨hsorted, List.pairwise_singleton _ _, fun a ha b hb => by
        rw [List.mem_singleton.1 hb]; exact hbelow a ha⟩
    have hext := hardFailure_trace_extend query hs k v reqs hlen hprev
    have notHF : ¬ HardFailure hs (query k v) →
        ((true = false) ↔ ∃ j, j < (reqs ++ [v]).length ∧
          HardFailure hs (query j ((reqs ++ [v]).getD j 0))) := by
      intro hn
      rw [hext]
      exact ⟨fun h => Bool.noConfusion h, fun h => absurd h hn⟩
    rcases retrieval_cases hs (query k v) v with h | h | h | h | h
    · rw [retrievalLoop_eof query hs fuel k v fc reqs h] at hres
      cases hres
      refine ⟨hsorted', ⟨[], rfl⟩, notHF ?_⟩
      rintro (⟨_, h2⟩ | ⟨h1, _⟩)
      · rw [h.2] at h2; exact Bool.noConfusion h2
      · rw [h.1] at h1; exact Bool.noConfusion h1
    · rw [retrievalLoop_failed query hs fuel k v fc reqs h] at hres
      cases hres
      refine ⟨hsorted', ⟨[], rfl⟩, ?_⟩
      rw [hext]
      exact ⟨fun _ => h, fun _ => rfl⟩
    · rw [retrievalLoop_empty query hs fuel k v fc reqs h] at hres
      cases hres
      refine ⟨hsorted', ⟨[], rfl⟩, notHF ?_⟩
      rintro (⟨h1, _⟩ | ⟨_, h2⟩)
      · rw [h.1] at h1; exact Bool.noConfusion h1
      · omega
    · rw [retrievalLoop_no_advance query hs fuel k v fc reqs h] at hres
      cases hres
      refine ⟨hsorted', ⟨[], rfl⟩, notHF ?_⟩
      rintro (⟨h1, _⟩ | ⟨_, h2⟩)
      · rw [h.1] at h1; exact Bool.noConfusion h1
      · omega
    · rw [retrievalLoop_advance query hs fuel k v fc reqs h] at hres
      have hnhf : ¬ HardFailure hs (query k v) := by
        rintro (⟨h1, _⟩ | ⟨_, h2⟩)
        · rw [h.1] at h1; exact Bool.noConfusion h1
        · omega
      obtain ⟨r1, ⟨tail, r2⟩, r3⟩ := ih (k + 1) _ _ (reqs ++ [v]) res hres (by simp [hlen])
        hsorted' (by
          intro x hx
          rcases List.mem_append.1 hx with hx | hx
          · exact lt_trans (hbelow x hx) h.2.2.2
          · rw [List.mem_singleton.1 hx]; exact h.2.2.2)
        (by
          intro j hj hf
          exact hnhf (hext.1 ⟨j, by rw [List.length_append, List.length_singleton]; omega, hf⟩))
      exact ⟨r1, ⟨_ :: tail, by rw [r2, List.append_assoc]; rfl⟩, r3⟩

/-- C15. One round of the loop of `GetAllFileRetrievalPointers` that asks for VCN
`v` stops with result true and the map accumulated so far when the query fails
with end of file, when it succeeds (with its header) with zero extents, and
when the last `NextVcn` of its extents is `≤ v` (the extents of that response
are already expanded); otherwise, when the last `NextVcn` is `> v`, the next
query asks for exactly that `NextVcn`.  Hence in every run the first request is
VCN 0 and the requested VCNs are strictly increasing. -/
theorem C15_stop_conditions (query : Nat → Int → RetrievalResponse) (headerSize : Nat) :
    (∀ (fuel k : Nat) (v : Int) (fc : FileClusters) (reqs : List Int),
      ((query k v).ok = false ∧ (query k v).eof = true →
        retrievalLoop query headerSize (fuel + 1) k v fc reqs =
          some ⟨true, fc, reqs ++ [v]⟩) ∧
      ((query k v).ok = true ∧ headerSize ≤ (query k v).bytesReturned ∧
          (query k v).Extents = [] →
        retrievalLoop query headerSize (fuel + 1) k v fc reqs =
          some ⟨true, fc, reqs ++ [v]⟩) ∧
      ((query k v).ok = true ∧ headerSize ≤ (query k v).bytesReturned ∧
          (query k v).Extents ≠ [] ∧
          ((query k v).Extents.getD ((query k v).Extents.length - 1) ⟨0, 0⟩).NextVcn ≤ v →
        retrievalLoop query headerSize (fuel + 1) k v fc reqs =
          some ⟨true, extentLoop (query k v).Extents (query k v).StartingVcn fc,
            reqs ++ [v]⟩) ∧
      ((query k v).ok = true ∧ headerSize ≤ (query k v).bytesReturned ∧
          (query k v).Extents ≠ [] ∧
          v < ((query k v).Extents.getD ((query k v).Extents.length - 1) ⟨0, 0⟩).NextVcn →
        retrievalLoop query headerSize (fuel + 1) k v fc reqs =
          retrievalLoop query headerSize fuel (k + 1)
            ((query k v).Extents.getD ((query k v).Extents.length - 1) ⟨0, 0⟩).NextVcn
            (extentLoop (query k v).Extents (query k v).StartingVcn fc) (reqs ++ [v]))) ∧
    (∀ (fuel : Nat) (res : RetrievalResult),
      GetAllFileRetrievalPointers query headerSize fuel = some res →
      res.requests.head? = some 0 ∧ List.Pairwise (· < ·) res.requests) := by
  constructor
  · intro fuel k v fc reqs
    exact ⟨retrievalLoop_eof query headerSize fuel k v fc reqs,
      retrievalLoop_empty query headerSize fuel k v fc reqs,
      retrievalLoop_no_advance query headerSize fuel k v fc reqs,
      retrievalLoop_advance query headerSize fuel k v fc reqs⟩
  · intro fuel res hres
    obtain ⟨h1, ⟨tail, h2⟩, _⟩ := retrievalLoop_trace query headerSize fuel 0 0 ⟨[], []⟩ []
      res hres rfl List.Pairwise.nil (by intro x hx; simp at hx) (by intro j hj; omega)
    exact ⟨by rw [h2]; rfl, h1⟩

/-- C15 on two files: the scenario file stops on end of file after the requests
`0, 4`; the oracle that repeats the same extent stops after the requests
`0, 3` because the second response does not advance, with the extents of both
responses in the map. -/
theorem C15_stop_conditions_witness :
    GetAllFileRetrievalPointers scenarioFileQuery 32 2 =
      some ⟨true, ⟨[0, 1, 2, 3], [10, 11, 12, 50]⟩, [0, 4]⟩ ∧
    GetAllFileRetrievalPointers stuckFileQuery 32 5 =
      some ⟨true, ⟨[0, 1, 2, 0, 1, 2], [10, 11, 12, 10, 11, 12]⟩, [0, 3]⟩ ∧
    (∀ (fuel : Nat) (res : RetrievalResult),
      GetAllFileRetrievalPointers stuckFileQuery 32 fuel = some res →
      res.requests.head? = some 0 ∧ List.Pairwise (· < ·) res.requests) :=
  ⟨by decide, by decide, (C15_stop_conditions stuckFileQuery 32).2⟩

theorem retrievalLoop_fails (query : Nat → Int → RetrievalResponse) (hs : Nat) :
    ∀ (n fuel k : Nat) (v : Int) (fc : FileClusters) (reqs : List Int),
      n < fuel → FailsAfter query hs n k v →
      ∃ fc1 tail, retrievalLoop query hs fuel k v fc reqs = some ⟨false, fc1, reqs ++ tail⟩ ∧
        tail.length = n + 1 ∧ HardFailure hs (query (k + n) (tail.getD n 0)) := by
  intro n
  induction n with
  | zero =>
    intro fuel k v fc reqs hfuel hf
    obtain ⟨f, rfl⟩ : ∃ f, fuel = f + 1 := ⟨fuel - 1, by omega⟩
    exact ⟨fc, [v], retrievalLoop_failed query hs f k v fc reqs hf, rfl, hf⟩
  | succ n ih =>
    intro fuel k v fc reqs hfuel hf
    obtain ⟨f, rfl⟩ : ∃ f, fuel = f + 1 := ⟨fuel - 1, by omega⟩
    obtain ⟨hgo, hrest⟩ := hf
    obtain ⟨fc1, tail, h1, h2, h3⟩ := ih f (k + 1) _
      (extentLoop (query k v).Extents (query k v).StartingVcn fc) (reqs ++ [v])
      (by omega) hrest
    refine ⟨fc1, v :: tail, ?_, by simp [h2], ?_⟩
    · rw [retrievalLoop_advance query hs f k v fc reqs hgo, h1, List.append_assoc]
      rfl
    · have e : k + (n + 1) = k + 1 + n := by omega
      rw [e]
      exact h3

theorem retrievalLoop_false (query : Nat → Int → RetrievalResponse) (hs : Nat) :
    ∀ (fuel k : Nat) (v : Int) (fc : FileClusters) (reqs : List Int) (res : RetrievalResult),
      retrievalLoop query hs fuel k v fc reqs = some res → res.ret = false →
      ∃ n, n < fuel ∧ FailsAfter query hs n k v := by
  intro fuel
  induction fuel with
  | zero => intro k v fc reqs res h; simp [retrievalLoop] at h
  | succ fuel ih =>
    intro k v fc reqs res hres hret
    rcases retrieval_cases hs (query k v) v with h | h | h | h | h
    · rw [retrievalLoop_eof query hs fuel k v fc reqs h] at hres
      cases hres
      exact Bool.noConfusion hret
    · exact ⟨0, by omega, h⟩
    · rw [retrievalLoop_empty query hs fuel k v fc reqs h] at hres
      cases hres
      exact Bool.noConfusion hret
    · rw [retrievalLoop_no_advance query hs fuel k v fc reqs h] at hres
      cases hres
      exact Bool.noConfusion hret
    · rw [retrievalLoop_advance query hs fuel k v fc reqs h] at hres
      obtain ⟨n, hn, hf⟩ := ih (k + 1) _ _ _ res hres hret
      exact ⟨n + 1, by omega, h, hf⟩

/-- C16. With `fuel` rounds allowed, `GetAllFileRetrievalPointers` returns false
exactly when fewer than `fuel` queries in a row meet no stop condition and the
query after them is a hard failure (it fails with an error other than end of
file, or succeeds with fewer bytes than the header).  In that case the
function does return: its result is false after exactly those queries, and
`DefragmentFile` and `FragmentFileRandomly` return false with no relocation
request and the bitmap as it was.  In every run that returns, the result is
false exactly when one of the queries issued is a hard failure. -/
theorem C16_extent_query_failed (query : Nat → Int → RetrievalResponse) (headerSize fuel : Nat) :
    ((∃ res, GetAllFileRetrievalPointers query headerSize fuel = some res ∧ res.ret = false) ↔
      ∃ n, n < fuel ∧ FailsAfter query headerSize n 0 0) ∧
    (∀ n, n < fuel → FailsAfter query headerSize n 0 0 →
      ∃ res, GetAllFileRetrievalPointers query headerSize fuel = some res ∧
        res.ret = false ∧ res.requests.length = n + 1 ∧
        HardFailure headerSize (query n (res.requests.getD n 0)) ∧
        ∀ (rand : Nat → Nat) (move : Nat → Int → Int → Bool) (volumeBitmap : List Nat)
          (totalClusters : Nat) (movesToPerform : Int),
          DefragmentFile true query headerSize move volumeBitmap totalClusters fuel =
            some ⟨false, ⟨volumeBitmap, res.outClusters, []⟩⟩ ∧
          FragmentFileRandomly true query headerSize rand move volumeBitmap totalClusters
            movesToPerform fuel = some ⟨false, ⟨volumeBitmap, res.outClusters, []⟩⟩) ∧
    (∀ res, GetAllFileRetrievalPointers query headerSize fuel = some res →
      (res.ret = false ↔
        ∃ j, j < res.requests.length ∧
          HardFailure headerSize (query j (res.requests.getD j 0)))) := by
  have hprod : ∀ n, n < fuel → FailsAfter query headerSize n 0 0 →
      ∃ res, GetAllFileRetrievalPointers query headerSize fuel = some res ∧
        res.ret = false ∧ res.requests.length = n + 1 ∧
        HardFailure headerSize (query n (res.requests.getD n 0)) ∧
        ∀ (rand : Nat → Nat) (move : Nat → Int → Int → Bool) (volumeBitmap : List Nat)
          (totalClusters : Nat) (movesToPerform : Int),
          DefragmentFile true query headerSize move volumeBitmap totalClusters fuel =
            some ⟨false, ⟨volumeBitmap, res.outClusters, []⟩⟩ ∧
          FragmentFileRandomly true query headerSize rand move volumeBitmap totalClusters
            movesToPerform fuel = some ⟨false, ⟨volumeBitmap, res.outClusters, []⟩⟩ := by
    intro n hn hf
    obtain ⟨fc1, tail, h1, h2, h3⟩ :=
      retrievalLoop_fails query headerSize n fuel 0 0 ⟨[], []⟩ [] hn hf
    have hget : GetAllFileRetrievalPointers query headerSize fuel =
        some ⟨false, fc1, [] ++ tail⟩ := h1
    refine ⟨⟨false, fc1, [] ++ tail⟩, hget, rfl, by simpa using h2, ?_, ?_⟩
    · simpa using h3
    · intro rand move volumeBitmap totalClusters movesToPerform
      constructor
      · unfold DefragmentFile
        simp [hget]
      · unfold FragmentFileRandomly
        simp [hget]
  refine ⟨⟨?_, ?_⟩, hprod, ?_⟩
  · rintro ⟨res, hres, hret⟩
    exact retrievalLoop_false query headerSize fuel 0 0 ⟨[], []⟩ [] res hres hret
  · rintro ⟨n, hn, hf⟩
    obtain ⟨res, h1, h2, _⟩ := hprod n hn hf
    exact ⟨res, h1, h2⟩
  · intro res hget
    exact (retrievalLoop_trace query headerSize fuel 0 0 ⟨[], []⟩ [] res hget rfl
      List.Pairwise.nil (by intro x hx; simp at hx) (by intro j hj; omega)).2.2

/-- C16 on a file whose second extent query fails with an error other than end
of file: one query meets no stop condition and the next is a hard failure, so
with two or more rounds allowed the mapping returns false after the requests
`0, 3`, and both policies return false with no move and the bitmap untouched. -/
theorem C16_extent_query_failed_witness :
    FailsAfter brokenFileQuery 32 1 0 0 ∧
    GetAllFileRetrievalPointers brokenFileQuery 32 2 =
      some ⟨false, ⟨[0, 1, 2], [10, 11, 12]⟩, [0, 3]⟩ ∧
    (∃ res, GetAllFileRetrievalPointers brokenFileQuery 32 5 = some res ∧
      res.ret = false ∧ res.requests.length = 1 + 1 ∧
      HardFailure 32 (brokenFileQuery 1 (res.requests.getD 1 0)) ∧
      ∀ (rand : Nat → Nat) (move : Nat → Int → Int → Bool) (volumeBitmap : List Nat)
        (totalClusters : Nat) (movesToPerform : Int),
        DefragmentFile true brokenFileQuery 32 move volumeBitmap totalClusters 5 =
          some ⟨false, ⟨volumeBitmap, res.outClusters, []⟩⟩ ∧
        FragmentFileRandomly true brokenFileQuery 32 rand move volumeBitmap totalClusters
          movesToPerform 5 = some ⟨false, ⟨volumeBitmap, res.outClusters, []⟩⟩) ∧
    DefragmentFile true brokenFileQuery 32 (fun _ _ _ => true) scenarioBitmap 64 2 =
      some ⟨false, ⟨scenarioBitmap, ⟨[0, 1, 2], [10, 11, 12]⟩, []⟩⟩ ∧
    FragmentFileRandomly true brokenFileQuery 32 (fun k => k) (fun _ _ _ => true)
      scenarioBitmap 64 3 2 = some ⟨false, ⟨scenarioBitmap, ⟨[0, 1, 2], [10, 11, 12]⟩, []⟩⟩ :=
  have hf : FailsAfter brokenFileQuery 32 1 0 0 := by
    simp only [FailsAfter, GoesOn, HardFailure]
    decide
  ⟨hf, by decide, (C16_extent_query_failed brokenFileQuery 32 5).2.1 1 (by decide) hf,
    by decide, by decide⟩

/-! ## The two policies on special maps -/

/-- C17. When the extent query gives the empty map, `FragmentFileRandomly` returns
false and `DefragmentFile` returns true; neither issues a relocation request
and both leave the bitmap as it was. -/
theorem C17_empty_map (query : Nat → Int → RetrievalResponse) (headerSize fuel : Nat)
    (reqs : List Int)
    (hget : GetAllFileRetrievalPointers query headerSize fuel = some ⟨true, ⟨[], []⟩, reqs⟩)
    (rand : Nat → Nat) (move : Nat → Int → Int → Bool) (volumeBitmap : List Nat)
    (totalClusters : Nat) (movesToPerform : Int) :
    FragmentFileRandomly true query headerSize rand move volumeBitmap totalClusters
      movesToPerform fuel = some ⟨false, ⟨volumeBitmap, ⟨[], []⟩, []⟩⟩ ∧
    DefragmentFile true query headerSize move volumeBitmap totalClusters fuel =
      some ⟨true, ⟨volumeBitmap, ⟨[], []⟩, []⟩⟩ := by
  constructor
  · unfold FragmentFileRandomly
    simp [hget]
  · unfold DefragmentFile
    simp [hget]

/-- C17 on a file whose first extent query reports end of file. -/
theorem C17_empty_map_witness :
    FragmentFileRandomly true emptyFileQuery 32 (fun k => k) (fun _ _ _ => true)
      scenarioBitmap 64 3 1 = some ⟨false, ⟨scenarioBitmap, ⟨[], []⟩, []⟩⟩ ∧
    DefragmentFile true emptyFileQuery 32 (fun _ _ _ => true) scenarioBitmap 64 1 =
      some ⟨true, ⟨scenarioBitmap, ⟨[], []⟩, []⟩⟩ :=
  C17_empty_map emptyFileQuery 32 1 [0] (by decide) (fun k => k) (fun _ _ _ => true)
    scenarioBitmap 64 3

theorem fragMoveStep_shape (rand : Nat → Nat) (move : Nat → Int → Int → Bool)
    (total randCalls : Nat) (st : MoveState) :
    (fragMoveStep rand move total randCalls st).2.1.moves.length ≤ st.moves.length + 1 ∧
    (fragMoveStep rand move total randCalls st).2.1.fc.vcns = st.fc.vcns ∧
    (fragMoveStep rand move total randCalls st).2.1.fc.lcns.length = st.fc.lcns.length := by
  unfold fragMoveStep
  cases hfd : findFreeDestination rand st.volumeBitmap total (randCalls + 1) with
  | mk found k =>
    cases found with
    | none => simp
    | some c =>
      simp only []
      split_ifs <;> simp

theorem fragMoveLoop_shape (rand : Nat → Nat) (move : Nat → Int → Int → Bool) (total : Nat) :
    ∀ (n randCalls : Nat) (st : MoveState),
      (fragMoveLoop rand move total n randCalls st).st.moves.length ≤ st.moves.length + n ∧
      (fragMoveLoop rand move total n randCalls st).st.fc.vcns = st.fc.vcns ∧
      (fragMoveLoop rand move total n randCalls st).st.fc.lcns.length = st.fc.lcns.length := by
  intro n
  induction n with
  | zero => intro randCalls st; simp [fragMoveLoop]
  | succ n ih =>
    intro randCalls st
    obtain ⟨s1, s2, s3⟩ := fragMoveStep_shape rand move total randCalls st
    unfold fragMoveLoop
    rcases hstep : fragMoveStep rand move total randCalls st with ⟨b, st', k⟩
    rw [hstep] at s1 s2 s3
    simp only at s1 s2 s3
    cases b with
    | false => exact ⟨by simp only; omega, s2, s3⟩
    | true =>
      obtain ⟨r1, r2, r3⟩ := ih k st'
      exact ⟨by simp only; omega, by simp only; rw [r2, s2], by simp only; rw [r3, s3]⟩

/-- C18. For a non-empty map `fc`, every `movesToPerform`, every sequence of random
draws and every pattern of move results, `FragmentFileRandomly` returns, having
issued at most `movesToPerform` relocation requests, and the map at exit has
the VCNs of `fc` and as many LCNs as `fc`. -/
theorem C18_fragment_bounded (query : Nat → Int → RetrievalResponse) (headerSize fuel : Nat)
    (fc : FileClusters) (reqs : List Int)
    (hget : GetAllFileRetrievalPointers query headerSize fuel = some ⟨true, fc, reqs⟩)
    (hne : fc.vcns ≠ [])
    (rand : Nat → Nat) (move : Nat → Int → Int → Bool) (volumeBitmap : List Nat)
    (totalClusters : Nat) (movesToPerform : Int) :
    ∃ res, FragmentFileRandomly true query headerSize rand move volumeBitmap totalClusters
        movesToPerform fuel = some res ∧
      res.st.moves.length ≤ movesToPerform.toNat ∧
      res.st.fc.vcns = fc.vcns ∧ res.st.fc.lcns.length = fc.lcns.length := by
  obtain ⟨r1, r2, r3⟩ := fragMoveLoop_shape rand move totalClusters movesToPerform.toNat 0
    ⟨volumeBitmap, fc, []⟩
  refine ⟨fragMoveLoop rand move totalClusters movesToPerform.toNat 0 ⟨volumeBitmap, fc, []⟩,
    ?_, by simpa using r1, r2, r3⟩
  unfold FragmentFileRandomly
  have hemp : fc.vcns.isEmpty = false := by
    cases h : fc.vcns with
    | nil => exact absurd h hne
    | cons a l => rfl
  simp [hget, hemp]

/-- C18, the scenario of the specification: a contiguous file of 3 clusters at LCN
10-12 with `movesToPerform = 3` on a volume with free clusters; with the draws
`20, 21, 22, ...` and every move succeeding the three clusters end at LCN 25,
23 and 21, and the map still has 3 entries with VCNs 0, 1, 2. -/
theorem C18_fragment_bounded_witness :
    FragmentFileRandomly true contiguousFileQuery 32 (fun k => 20 + k) (fun _ _ _ => true)
      scenarioBitmap 64 3 2 =
      some ⟨true, ⟨[255, 227, 175, 2, 0, 0, 4, 0], ⟨[0, 1, 2], [25, 23, 21]⟩,
        [(2, 21), (1, 23), (0, 25)]⟩⟩ ∧
    ∃ res, FragmentFileRandomly true contiguousFileQuery 32 (fun k => 20 + k)
        (fun _ _ _ => true) scenarioBitmap 64 3 2 = some res ∧
      res.st.moves.length ≤ (3 : Int).toNat ∧
      res.st.fc.vcns = [0, 1, 2] ∧ res.st.fc.lcns.length = 3 :=
  ⟨by decide, C18_fragment_bounded contiguousFileQuery 32 2 ⟨[0, 1, 2], [10, 11, 12]⟩ [0, 3]
    (by decide) (by decide) (fun k => 20 + k) (fun _ _ _ => true) scenarioBitmap 64 3⟩

theorem isContiguousLoop_false (lcns : List Int) :
    ∀ (n i : Nat), (∃ j : Nat, i ≤ j ∧ j < i + n ∧ lcns.getD j 0 ≠ lcns.getD (j - 1) 0 + 1) →
      isContiguousLoop lcns n i = false := by
  intro n
  induction n with
  | zero => rintro i ⟨j, h1, h2, _⟩; omega
  | succ n ih =>
    rintro i ⟨j, h1, h2, h3⟩
    unfold isContiguousLoop
    by_cases hi : lcns.getD i 0 ≠ lcns.getD (i - 1) 0 + 1
    · rw [if_pos hi]
    · rw [if_neg hi]
      have hji : j ≠ i := by
        intro e; subst e; exact hi h3
      exact ih (i + 1) ⟨j, by omega, by omega, h3⟩

/-- C19. If the extent query gives a map that is not contiguous (some index `i ≥ 1`
has `lcns[i] ≠ lcns[i-1] + 1`) and `FindContiguousFreeBlock` finds no free run
of the file's cluster count, `DefragmentFile` returns true with no relocation
request and with the bitmap and the map as they were. -/
theorem C19_no_space_skipped (query : Nat → Int → RetrievalResponse) (headerSize : Nat)
    (move : Nat → Int → Int → Bool) (volumeBitmap : List Nat) (totalClusters fuel : Nat)
    (fc : FileClusters) (reqs : List Int)
    (hget : GetAllFileRetrievalPointers query headerSize fuel = some ⟨true, fc, reqs⟩)
    (hfrag : ∃ i : Nat, 1 ≤ i ∧ i < fc.lcns.length ∧
      fc.lcns.getD i 0 ≠ fc.lcns.getD (i - 1) 0 + 1)
    (hnone : FindContiguousFreeBlock volumeBitmap totalClusters fc.lcns.length = none) :
    DefragmentFile true query headerSize move volumeBitmap totalClusters fuel =
      some ⟨true, ⟨volumeBitmap, fc, []⟩⟩ := by
  obtain ⟨i, h1, h2, h3⟩ := hfrag
  have hloop : isContiguousLoop fc.lcns (fc.lcns.length - 1) 1 = false :=
    isContiguousLoop_false fc.lcns _ 1 ⟨i, h1, by omega, h3⟩
  have hemp : fc.lcns.isEmpty = false := by
    cases h : fc.lcns with
    | nil => rw [h] at h2; simp at h2
    | cons a l => rfl
  unfold DefragmentFile
  simp [hget, hemp, hloop, hnone]

/-- C19 on the scenario file (4 clusters, not contiguous) and a full volume. -/
theorem C19_no_space_skipped_witness :
    DefragmentFile true scenarioFileQuery 32 (fun _ _ _ => true) fullBitmap 64 2 =
      some ⟨true, ⟨fullBitmap, ⟨[0, 1, 2, 3], [10, 11, 12, 50]⟩, []⟩⟩ :=
  C19_no_space_skipped scenarioFileQuery 32 (fun _ _ _ => true) fullBitmap 64 2
    ⟨[0, 1, 2, 3], [10, 11, 12, 50]⟩ [0, 4] (by decide) ⟨3, by decide, by decide, by decide⟩
    (by decide)

/-! ## Bits taken from one bitmap response -/

theorem bitmapLoop_step (query : Nat → Int → BitmapResponse) (hs total fuel k : Nat)
    (v : Int) (out : List Nat) (reqs : List Int) (hhdr : hs ≤ (query k v).bytesReturned) :
    bitmapLoop query hs total (fuel + 1) k v out reqs =
        some (copyBitsLoop (query k v).Buffer (query k v).StartingLcn total
          (clampChunkBits hs (query k v)).toNat 0 out, reqs ++ [v]) ∨
    bitmapLoop query hs total (fuel + 1) k v out reqs =
        bitmapLoop query hs total fuel (k + 1)
          ((query k v).StartingLcn + clampChunkBits hs (query k v))
          (copyBitsLoop (query k v).Buffer (query k v).StartingLcn total
            (clampChunkBits hs (query k v)).toNat 0 out) (reqs ++ [v]) := by
  conv_lhs => unfold bitmapLoop
  conv_rhs => lhs; unfold bitmapLoop
  simp only [Nat.not_lt.2 hhdr, if_false]
  split_ifs <;> simp

/-- C20. A response with its header, a declared `BitmapSize` in `[0, 2^63)` and a
starting LCN `L ≥ 0` is processed by the loop of `GetVolumeBitmapChunked` as
follows: `chunkBits` is `min(BitmapSize, 8 * (bytesReturned - headerSize))`; the
output bitmap handed on (returned, or passed to the next round) has bit
`L + i` equal to 1 for each `i < min(chunkBits, totalClusters - L)` whose chunk
bit `i` is 1, and every other bit as before. -/
theorem C20_bits_copied (query : Nat → Int → BitmapResponse) (headerSize totalClusters : Nat)
    (fuel k : Nat) (v : Int) (out : List Nat) (reqs : List Int) (L : Nat)
    (hhdr : headerSize ≤ (query k v).bytesReturned)
    (hstart : (query k v).StartingLcn = (L : Int))
    (h0 : 0 ≤ (query k v).BitmapSize) (h1 : (query k v).BitmapSize < 2 ^ 63)
    (hlen : totalClusters ≤ 8 * out.length) :
    ∃ out', (bitmapLoop query headerSize totalClusters (fuel + 1) k v out reqs =
          some (out', reqs ++ [v]) ∨
        bitmapLoop query headerSize totalClusters (fuel + 1) k v out reqs =
          bitmapLoop query headerSize totalClusters fuel (k + 1)
            ((L : Int) + clampChunkBits headerSize (query k v)) out' (reqs ++ [v])) ∧
      clampChunkBits headerSize (query k v) =
        min (query k v).BitmapSize
          ((8 * ((query k v).bytesReturned - headerSize) : Nat) : Int) ∧
      out'.length = out.length ∧
      ∀ p, bitVal out' p =
        if L ≤ p ∧
            p < L + min (min (query k v).BitmapSize.toNat
              (8 * ((query k v).bytesReturned - headerSize))) (totalClusters - L) ∧
            bitVal (query k v).Buffer (p - L) = 1
        then 1 else bitVal out p := by
  have hclamp := clampChunkBits_eq headerSize (query k v) h0 h1
  refine ⟨copyBitsLoop (query k v).Buffer (query k v).StartingLcn totalClusters
    (clampChunkBits headerSize (query k v)).toNat 0 out, ?_, ?_, copyBitsLoop_length _ _ _ _ _ _,
    ?_⟩
  · have := bitmapLoop_step query headerSize totalClusters fuel k v out reqs hhdr
    rw [hstart] at this ⊢
    exact this
  · rw [hclamp]
    unfold deliveredBits
    omega
  · intro p
    rw [hstart, hclamp, Int.toNat_ofNat, copyBitsLoop_bit _ _ _ _ _ _ _ hlen]
    unfold deliveredBits
    have hiff : (L + 0 ≤ p ∧
          p < L + 0 + min (query k v).BitmapSize.toNat
            (8 * ((query k v).bytesReturned - headerSize)) ∧
          p < totalClusters ∧ bitVal (query k v).Buffer (p - L) = 1) ↔
        (L ≤ p ∧
          p < L + min (min (query k v).BitmapSize.toNat
            (8 * ((query k v).bytesReturned - headerSize))) (totalClusters - L) ∧
          bitVal (query k v).Buffer (p - L) = 1) := by
      constructor
      · rintro ⟨a1, a2, a3, a4⟩
        exact ⟨by omega, by omega, a4⟩
      · rintro ⟨a1, a2, a3⟩
        exact ⟨by omega, by omega, by omega, a3⟩
    exact if_congr hiff rfl rfl

/-- C20 on a response at LCN 8 that declares 20 bits, backs 8 of them with the
byte `0b00100011`, on a volume of 12 clusters: `min(20, 8, 12 - 8) = 4` bits are
taken and the bitmap `[0, 0]` becomes `[0, 3]`. -/
theorem C20_bits_copied_witness :
    clampChunkBits 24 truncatedResponse = 8 ∧
    copyBitsLoop truncatedResponse.Buffer truncatedResponse.StartingLcn 12
      (clampChunkBits 24 truncatedResponse).toNat 0 [0, 0] = [0, 3] ∧
    ∃ out', (bitmapLoop (fun _ _ => truncatedResponse) 24 12 (0 + 1) 0 8 [0, 0] [] =
          some (out', [] ++ [8]) ∨
        bitmapLoop (fun _ _ => truncatedResponse) 24 12 (0 + 1) 0 8 [0, 0] [] =
          bitmapLoop (fun _ _ => truncatedResponse) 24 12 0 (0 + 1)
            (((8 : Nat) : Int) + clampChunkBits 24 truncatedResponse) out' ([] ++ [8])) ∧
      clampChunkBits 24 truncatedResponse =
        min truncatedResponse.BitmapSize
          ((8 * (truncatedResponse.bytesReturned - 24) : Nat) : Int) ∧
      out'.length = [0, 0].length ∧
      ∀ p, bitVal out' p =
        if 8 ≤ p ∧
            p < 8 + min (min truncatedResponse.BitmapSize.toNat
              (8 * (truncatedResponse.bytesReturned - 24))) (12 - 8) ∧
            bitVal truncatedResponse.Buffer (p - 8) = 1
        then 1 else bitVal [0, 0] p :=
  ⟨by decide, by decide,
    C20_bits_copied (fun _ _ => truncatedResponse) 24 12 0 0 8 [0, 0] [] 8 (by decide) rfl
      (by decide) (by decide) (by decide)⟩

/-! ## Paging after a partial-success response -/

/-- C21. After a response with its header whose status is partial success
(`DeviceIoControl` false with `ERROR_MORE_DATA`) and whose declared `BitmapSize`
lies in `[0, 2^63)`, the loop of `GetVolumeBitmapChunked` stops when
`StartingLcn + consumed > totalClusters - 1` and otherwise issues the next query
at exactly `StartingLcn + consumed`, where
`consumed = min(BitmapSize, 8 * (bytesReturned - headerSize))`. -/
theorem C21_partial_success_reissue (query : Nat → Int → BitmapResponse)
    (headerSize totalClusters fuel k : Nat) (v : Int) (out : List Nat) (reqs : List Int)
    (hhdr : headerSize ≤ (query k v).bytesReturned)
    (hfail : (query k v).success = false) (hmore : (query k v).moreData = true)
    (h0 : 0 ≤ (query k v).BitmapSize) (h1 : (query k v).BitmapSize < 2 ^ 63) :
    deliveredBits headerSize (query k v) =
      min (query k v).BitmapSize.toNat (8 * ((query k v).bytesReturned - headerSize)) ∧
    ((query k v).StartingLcn + (deliveredBits headerSize (query k v) : Int) >
        (totalClusters : Int) - 1 →
      bitmapLoop query headerSize totalClusters (fuel + 1) k v out reqs =
        some (copyBitsLoop (query k v).Buffer (query k v).StartingLcn totalClusters
          (deliveredBits headerSize (query k v)) 0 out, reqs ++ [v])) ∧
    (¬ ((query k v).StartingLcn + (deliveredBits headerSize (query k v) : Int) >
        (totalClusters : Int) - 1) →
      bitmapLoop query headerSize totalClusters (fuel + 1) k v out reqs =
        bitmapLoop query headerSize totalClusters fuel (k + 1)
          ((query k v).StartingLcn + (deliveredBits headerSize (query k v) : Int))
          (copyBitsLoop (query k v).Buffer (query k v).StartingLcn totalClusters
            (deliveredBits headerSize (query k v)) 0 out) (reqs ++ [v])) := by
  have hclamp := clampChunkBits_eq headerSize (query k v) h0 h1
  refine ⟨rfl, ?_, ?_⟩
  · intro hgt
    conv_lhs => unfold bitmapLoop
    simp only [Nat.not_lt.2 hhdr, if_false, hfail, hmore, Bool.not_false, if_true, hclamp,
      Int.toNat_ofNat, hgt]
  · intro hle
    conv_lhs => unfold bitmapLoop
    simp only [Nat.not_lt.2 hhdr, if_false, hfail, hmore, Bool.not_false, if_true, hclamp,
      Int.toNat_ofNat, hle]

/-- C21 on a partial-success response at LCN 8 that declares 20 bits and backs 8:
on a volume of 100 clusters the next query asks for LCN 16, on a volume of 12
clusters the loop stops. -/
theorem C21_partial_success_reissue_witness :
    deliveredBits 24 truncatedResponse = 8 ∧
    bitmapLoop (fun _ _ => truncatedResponse) 24 100 (1 + 1) 0 8 [0, 0] [] =
      bitmapLoop (fun _ _ => truncatedResponse) 24 100 1 (0 + 1)
        (truncatedResponse.StartingLcn + (deliveredBits 24 truncatedResponse : Int))
        (copyBitsLoop truncatedResponse.Buffer truncatedResponse.StartingLcn 100
          (deliveredBits 24 truncatedResponse) 0 [0, 0]) ([] ++ [8]) ∧
    bitmapLoop (fun _ _ => truncatedResponse) 24 12 (0 + 1) 0 8 [0, 0] [] =
      some ([0, 3], [8]) :=
  ⟨by decide,
    (C21_partial_success_reissue (fun _ _ => truncatedResponse) 24 100 1 0 8 [0, 0] []
      (by decide) rfl rfl (by decide) (by decide)).2.2 (by decide),
    (C21_partial_success_reissue (fun _ _ => truncatedResponse) 24 12 0 0 8 [0, 0] []
      (by decide) rfl rfl (by decide) (by decide)).2.1 (by decide)⟩

/-- C22 fails on the code: on a volume of 200 clusters, the first response is a
partial success at LCN 0 that declares 100 clusters and backs 8 of them
(`min(100, 8 * 1) = 8`); the loop of `read_bitmap.cpp` then asks for LCN 100, not
LCN 8, and stops after that second query, so clusters 8-99 are never asked
for.  On the same oracle `GetVolumeBitmapChunked` asks for LCN 8 next. -/
theorem C22_read_bitmap_skips :
    deliveredBits 24 (declaringQuery 0 0) = 8 ∧
    readBitmapPaging declaringQuery 24 200 2 = some [0, 100] ∧
    (GetVolumeBitmapChunked declaringQuery 24 200 25).map (fun r => r.requests.take 3) =
      some [0, 8, 16] := by
  refine ⟨by decide, by decide, by decide⟩

/-! ## Best-effort compaction -/

theorem misplaced_succ (lcns : List Int) (runStart i : Nat) :
    misplaced lcns runStart (i + 1) =
      misplaced lcns runStart i ++
        (if lcns.getD i 0 ≠ (runStart : Int) + (i : Int) then [i] else []) := by
  unfold misplaced
  rw [List.range_succ, List.filter_append]
  congr 1
  by_cases h : lcns.getD i 0 = (runStart : Int) + (i : Int)
  · have hd : decide (lcns.getD i 0 ≠ (runStart : Int) + (i : Int)) = false :=
      decide_eq_false (not_not.2 h)
    rw [if_neg (not_not.2 h)]
    simp only [List.filter_cons, List.filter_nil, hd, Bool.false_eq_true, if_false]
  · have hd : decide (lcns.getD i 0 ≠ (runStart : Int) + (i : Int)) = true :=
      decide_eq_true h
    rw [if_pos h]
    simp only [List.filter_cons, List.filter_nil, hd, if_true]

theorem defragMoveLoop_trace (move : Nat → Int → Int → Bool) (fc : FileClusters)
    (runStart : Nat) :
    ∀ (n i : Nat) (st : MoveState), i + n = fc.lcns.length →
      st.fc.vcns = fc.vcns → st.fc.lcns.length = fc.lcns.length →
      (∀ j : Nat, i ≤ j → st.fc.lcns.getD j 0 = fc.lcns.getD j 0) →
      (∀ j : Nat, j < i → st.fc.lcns.getD j 0 = lcnAfterDefrag move fc runStart j) →
      st.moves = (misplaced fc.lcns runStart i).map
        (fun j => (fc.vcns.getD j 0, (runStart : Int) + (j : Int))) →
      (defragMoveLoop move runStart n i st).moves =
        (misplaced fc.lcns runStart fc.lcns.length).map
          (fun j => (fc.vcns.getD j 0, (runStart : Int) + (j : Int))) ∧
      (defragMoveLoop move runStart n i st).fc.vcns = fc.vcns ∧
      (defragMoveLoop move runStart n i st).fc.lcns.length = fc.lcns.length ∧
      ∀ j : Nat, j < fc.lcns.length →
        (defragMoveLoop move runStart n i st).fc.lcns.getD j 0 =
          lcnAfterDefrag move fc runStart j := by
  intro n
  induction n with
  | zero =>
    intro i st hlen hv hl _ hdone hmoves
    have hi : i = fc.lcns.length := by omega
    subst hi
    exact ⟨hmoves, hv, hl, fun j hj => hdone j hj⟩
  | succ n ih =>
    intro i st hlen hv hl hrest hdone hmoves
    unfold defragMoveLoop
    have hcur := hrest i (le_refl _)
    have hcalls : st.moves.length = (misplaced fc.lcns runStart i).length := by
      rw [hmoves, List.length_map]
    by_cases heq : fc.lcns.getD i 0 = (runStart : Int) + (i : Int)
    · -- already at its target: no request
      have hstep : defragMoveStep move runStart i st = st := by
        unfold defragMoveStep
        simp only [hcur, heq, if_true]
      rw [hstep]
      refine ih (i + 1) st (by omega) hv hl (fun j hj => hrest j (by omega)) ?_ ?_
      · intro j hj
        by_cases hji : j = i
        · subst hji
          rw [hcur]
          unfold lcnAfterDefrag
          simp only [heq, if_true]
        · exact hdone j (by omega)
      · rw [misplaced_succ, if_neg (not_not.2 heq), List.append_nil]
        exact hmoves
    · by_cases hmv : move (misplaced fc.lcns runStart i).length (fc.vcns.getD i 0)
          ((runStart : Int) + (i : Int)) = true
      · -- the move succeeds
        have hstep : defragMoveStep move runStart i st =
            { volumeBitmap := setBit (clearBit st.volumeBitmap (fc.lcns.getD i 0).toNat)
                ((runStart : Int) + (i : Int)).toNat,
              fc := { st.fc with lcns := st.fc.lcns.set i ((runStart : Int) + (i : Int)) },
              moves := st.moves ++ [(fc.vcns.getD i 0, (runStart : Int) + (i : Int))] } := by
          unfold defragMoveStep
          simp only [hcur, heq, if_false, hv, hcalls, hmv, Bool.not_true, Bool.false_eq_true]
        rw [hstep]
        refine ih (i + 1) _ (by omega) hv (by simp [hl])
          (fun j hj => by
            show (st.fc.lcns.set i _).getD j 0 = _
            rw [getD_set_int_other _ _ _ _ (by omega)]
            exact hrest j (by omega)) ?_ ?_
        · intro j hj
          show (st.fc.lcns.set i _).getD j 0 = _
          by_cases hji : j = i
          · subst hji
            rw [getD_set_int_same _ _ _ (by omega)]
            unfold lcnAfterDefrag
            simp only [heq, if_false, hmv, if_true]
          · rw [getD_set_int_other _ _ _ _ hji]
            exact hdone j (by omega)
        · show st.moves ++ _ = _
          rw [misplaced_succ, if_pos heq, List.map_append, hmoves]
          rfl
      · -- the move fails
        have hmv' : move (misplaced fc.lcns runStart i).length (fc.vcns.getD i 0)
            ((runStart : Int) + (i : Int)) = false := by
          cases h : move (misplaced fc.lcns runStart i).length (fc.vcns.getD i 0)
            ((runStart : Int) + (i : Int))
          · rfl
          · exact absurd h hmv
        have hstep : defragMoveStep move runStart i st =
            { st with moves := st.moves ++
                [(fc.vcns.getD i 0, (runStart : Int) + (i : Int))] } := by
          unfold defragMoveStep
          simp only [hcur, heq, if_false, hv, hcalls, hmv', Bool.not_false, if_true]
        rw [hstep]
        refine ih (i + 1) _ (by omega) hv hl (fun j hj => hrest j (by omega)) ?_ ?_
        · intro j hj
          show st.fc.lcns.getD j 0 = _
          by_cases hji : j = i
          · subst hji
            rw [hcur]
            unfold lcnAfterDefrag
            simp only [heq, if_false, hmv', Bool.false_eq_true]
          · exact hdone j (by omega)
        · show st.moves ++ _ = _
          rw [misplaced_succ, if_pos heq, List.map_append, hmoves]
          rfl

/-- C23. If the extent query gives the map `fc`, which is not contiguous, and a
free run is found at `runStart`, then whatever the move results are
`DefragmentFile` returns true; its relocation requests are, in ascending index
order, exactly one request `(vcns[i], runStart + i)` for each index `i` whose LCN
differs from `runStart + i` and none for the other indices; the VCNs are
unchanged, and `lcns[i]` ends as `runStart + i` when index `i` was already there
or its move succeeded, and as its original value when its move failed. -/
theorem C23_best_effort_compaction (query : Nat → Int → RetrievalResponse) (headerSize : Nat)
    (move : Nat → Int → Int → Bool) (volumeBitmap : List Nat) (totalClusters fuel : Nat)
    (fc : FileClusters) (reqs : List Int) (runStart : Nat)
    (hget : GetAllFileRetrievalPointers query headerSize fuel = some ⟨true, fc, reqs⟩)
    (hfrag : ∃ i : Nat, 1 ≤ i ∧ i < fc.lcns.length ∧
      fc.lcns.getD i 0 ≠ fc.lcns.getD (i - 1) 0 + 1)
    (hrun : FindContiguousFreeBlock volumeBitmap totalClusters fc.lcns.length = some runStart) :
    ∃ res, DefragmentFile true query headerSize move volumeBitmap totalClusters fuel = some res ∧
      res.ret = true ∧
      res.st.moves = (misplaced fc.lcns runStart fc.lcns.length).map
        (fun i => (fc.vcns.getD i 0, (runStart : Int) + (i : Int))) ∧
      res.st.fc.vcns = fc.vcns ∧ res.st.fc.lcns.length = fc.lcns.length ∧
      ∀ i : Nat, i < fc.lcns.length →
        res.st.fc.lcns.getD i 0 = lcnAfterDefrag move fc runStart i := by
  obtain ⟨i, h1, h2, h3⟩ := hfrag
  have hloop : isContiguousLoop fc.lcns (fc.lcns.length - 1) 1 = false :=
    isContiguousLoop_false fc.lcns _ 1 ⟨i, h1, by omega, h3⟩
  have hemp : fc.lcns.isEmpty = false := by
    cases h : fc.lcns with
    | nil => rw [h] at h2; simp at h2
    | cons a l => rfl
  obtain ⟨r1, r2, r3, r4⟩ := defragMoveLoop_trace move fc runStart fc.lcns.length 0
    ⟨volumeBitmap, fc, []⟩ (by omega) rfl rfl (fun _ _ => rfl) (by intro j hj; omega) rfl
  refine ⟨⟨true, defragMoveLoop move runStart fc.lcns.length 0 ⟨volumeBitmap, fc, []⟩⟩,
    ?_, rfl, r1, r2, r3, r4⟩
  unfold DefragmentFile
  simp [hget, hemp, hloop, hrun]

/-- C23 on the scenario file with the second relocation request refused: four
requests are issued, and the map ends as `{0→20, 1→11, 2→22, 3→23}`. -/
theorem C23_best_effort_compaction_witness :
    DefragmentFile true scenarioFileQuery 32 (fun k _ _ => k != 1) scenarioBitmap 64 2 =
      some ⟨true, ⟨[255, 235, 223, 0, 0, 0, 0, 0], ⟨[0, 1, 2, 3], [20, 11, 22, 23]⟩,
        [(0, 20), (1, 21), (2, 22), (3, 23)]⟩⟩ ∧
    ∃ res, DefragmentFile true scenarioFileQuery 32 (fun k _ _ => k != 1) scenarioBitmap 64 2 =
        some res ∧
      res.ret = true ∧
      res.st.moves = (misplaced [10, 11, 12, 50] 20 4).map
        (fun i => (([0, 1, 2, 3] : List Int).getD i 0, ((20 : Nat) : Int) + (i : Int))) ∧
      res.st.fc.vcns = [0, 1, 2, 3] ∧ res.st.fc.lcns.length = 4 ∧
      ∀ i : Nat, i < 4 →
        res.st.fc.lcns.getD i 0 =
          lcnAfterDefrag (fun k _ _ => k != 1) ⟨[0, 1, 2, 3], [10, 11, 12, 50]⟩ 20 i :=
  ⟨by decide, C23_best_effort_compaction scenarioFileQuery 32 (fun k _ _ => k != 1)
    scenarioBitmap 64 2 ⟨[0, 1, 2, 3], [10, 11, 12, 50]⟩ [0, 4] 20 (by decide)
    ⟨3, by decide, by decide, by decide⟩ (by decide)⟩

/-! ## Clusters no chunk covers stay free -/

theorem clampChunkBits_toNat (headerSize : Nat) (r : BitmapResponse)
    (h1 : r.BitmapSize < 2 ^ 63) :
    (clampChunkBits headerSize r).toNat = deliveredBits headerSize r := by
  by_cases h0 : 0 ≤ r.BitmapSize
  · rw [clampChunkBits_eq headerSize r h0 h1, Int.toNat_ofNat]
  · unfold clampChunkBits deliveredBits
    simp only []
    split_ifs <;> omega

theorem covered_extend (query : Nat → Int → BitmapResponse) (hs : Nat) (reqs : List Int)
    (v : Int) (p : Nat)
    (h : ∃ j, j < reqs.length ∧ Covered hs (query j (reqs.getD j 0)) p) :
    ∃ j, j < (reqs ++ [v]).length ∧ Covered hs (query j ((reqs ++ [v]).getD j 0)) p := by
  obtain ⟨j, hj, hc⟩ := h
  refine ⟨j, by rw [List.length_append]; omega, ?_⟩
  rw [List.getD_append _ _ _ _ hj]
  exact hc

theorem bitmapLoop_covered (query : Nat → Int → BitmapResponse) (hs total : Nat)
    (hwf : ∀ k v, 0 ≤ (query k v).StartingLcn ∧ (query k v).BitmapSize < 2 ^ 63) :
    ∀ (fuel k : Nat) (v : Int) (out : List Nat) (reqs : List Int) (out' : List Nat)
      (reqs' : List Int),
      bitmapLoop query hs total fuel k v out reqs = some (out', reqs') →
      reqs.length = k → total ≤ 8 * out.length →
      (∀ p, bitVal out p = 1 → ∃ j, j < reqs.length ∧ Covered hs (query j (reqs.getD j 0)) p) →
      out'.length = out.length ∧
      ∀ p, bitVal out' p = 1 →
        ∃ j, j < reqs'.length ∧ Covered hs (query j (reqs'.getD j 0)) p := by
  intro fuel
  induction fuel with
  | zero => intro k v out reqs out' reqs' h; simp [bitmapLoop] at h
  | succ fuel ih =>
    intro k v out reqs out' reqs' hres hlen hbytes hinv
    by_cases hhdr : hs ≤ (query k v).bytesReturned
    · obtain ⟨hs0, hs1⟩ := hwf k v
      obtain ⟨L, hL⟩ := Int.eq_ofNat_of_zero_le hs0
      have hd := clampChunkBits_toNat hs (query k v) hs1
      -- the bitmap after the copy loop
      have hcopy : ∀ p, bitVal (copyBitsLoop (query k v).Buffer (query k v).StartingLcn total
            (clampChunkBits hs (query k v)).toNat 0 out) p = 1 →
          ∃ j, j < (reqs ++ [v]).length ∧
            Covered hs (query j ((reqs ++ [v]).getD j 0)) p := by
        intro p hp
        rw [hL, hd, copyBitsLoop_bit _ _ _ _ _ _ _ hbytes] at hp
        by_cases hc : L + 0 ≤ p ∧ p < L + 0 + deliveredBits hs (query k v) ∧ p < total ∧
            bitVal (query k v).Buffer (p - L) = 1
        · refine ⟨k, by rw [List.length_append, List.length_singleton]; omega, ?_⟩
          rw [List.getD_append_right _ _ _ _ (by omega)]
          have hv : [v].getD (k - reqs.length) 0 = v := by
            rw [hlen, Nat.sub_self]; rfl
          rw [hv]
          refine ⟨hhdr, ?_, ?_⟩
          · rw [hL]; omega
          · rw [hL]; omega
        · rw [if_neg hc] at hp
          exact covered_extend query hs reqs v p (hinv p hp)
      rcases bitmapLoop_step query hs total fuel k v out reqs hhdr with hstep | hstep
      · rw [hstep] at hres
        simp only [Option.some.injEq, Prod.mk.injEq] at hres
        rw [← hres.1, ← hres.2]
        exact ⟨copyBitsLoop_length _ _ _ _ _ _, hcopy⟩
      · rw [hstep] at hres
        obtain ⟨r1, r2⟩ := ih (k + 1) _ _ (reqs ++ [v]) out' reqs' hres
          (by rw [List.length_append, List.length_singleton, hlen])
          (by rw [copyBitsLoop_length]; exact hbytes) hcopy
        exact ⟨by rw [r1, copyBitsLoop_length], r2⟩
    · unfold bitmapLoop at hres
      simp only [Nat.lt_of_not_le hhdr, if_true, Option.some.injEq, Prod.mk.injEq] at hres
      rw [← hres.1, ← hres.2]
      exact ⟨rfl, fun p hp => covered_extend query hs reqs v p (hinv p hp)⟩

/-- C24. For every sequence of responses whose `StartingLcn` is not negative and
whose `BitmapSize` fits a `LONGLONG` (hard failures, short responses and gaps
included), a run of `GetVolumeBitmapChunked` that returns gives a bitmap of
exactly `ceil(totalClusters / 8)` bytes in which every cluster that is not
covered by the delivered bits of any response of the run has bit 0. -/
theorem C24_uncovered_free (query : Nat → Int → BitmapResponse)
    (headerSize totalClusters fuel : Nat) (res : BitmapResult)
    (hwf : ∀ k v, 0 ≤ (query k v).StartingLcn ∧ (query k v).BitmapSize < 2 ^ 63)
    (hrun : GetVolumeBitmapChunked query headerSize totalClusters fuel = some res) :
    res.outBitmap.length = (totalClusters + 7) / 8 ∧
    ∀ p, p < totalClusters →
      (∀ j, j < res.requests.length →
        ¬ Covered headerSize (query j (res.requests.getD j 0)) p) →
      bitVal res.outBitmap p = 0 := by
  unfold GetVolumeBitmapChunked at hrun
  cases hloop : bitmapLoop query headerSize totalClusters fuel 0 0
      (List.replicate ((totalClusters + 7) / 8) 0) [] with
  | none => simp only [hloop] at hrun; exact Option.noConfusion hrun
  | some pr =>
    obtain ⟨out', reqs'⟩ := pr
    simp only [hloop, Option.some.injEq] at hrun
    subst hrun
    obtain ⟨h1, h2⟩ := bitmapLoop_covered query headerSize totalClusters hwf fuel 0 0 _ []
      out' reqs' hloop rfl (by rw [List.length_replicate]; omega)
      (by intro p hp; rw [bitVal_replicate_zero] at hp; omega)
    refine ⟨by rw [h1, List.length_replicate], ?_⟩
    intro p _ hnot
    have hle := bitVal_le_one out' p
    by_contra hne
    have hone : bitVal out' p = 1 := by
      show bitVal out' p = 1
      have : bitVal out' p ≠ 0 := hne
      omega
    obtain ⟨j, hj, hc⟩ := h2 p hone
    exact hnot j hj hc

/-- C24 on a run of 32 clusters with a gap and a hard failure: the chunks cover
clusters 0-7 and 16-23, the bitmap is `[255, 0, 255, 0]`, and the uncovered
cluster 9 is free. -/
theorem C24_uncovered_free_witness :
    GetVolumeBitmapChunked gapQuery 24 32 5 = some ⟨true, [255, 0, 255, 0], [0, 8]⟩ ∧
    ([255, 0, 255, 0] : List Nat).length = (32 + 7) / 8 ∧
    ∀ p, p < 32 →
      (∀ j, j < ([0, 8] : List Int).length →
        ¬ Covered 24 (gapQuery j (([0, 8] : List Int).getD j 0)) p) →
      bitVal [255, 0, 255, 0] p = 0 :=
  ⟨by decide, C24_uncovered_free gapQuery 24 32 5 ⟨true, [255, 0, 255, 0], [0, 8]⟩
    (by intro k v; unfold gapQuery; split_ifs <;> exact ⟨by decide, by decide⟩) (by decide)⟩

/-! ## Bitmap after a complete defragmentation -/

theorem defragMoveLoop_bits (move : Nat → Int → Int → Bool) (hmove : ∀ k v d, move k v d = true)
    (fc : FileClusters) (bm0 : List Nat) (runStart total : Nat)
    (hbytes : total ≤ 8 * bm0.length) (hfit : runStart + fc.lcns.length ≤ total)
    (hfree : ∀ p, runStart ≤ p → p < runStart + fc.lcns.length → bitVal bm0 p = 0)
    (hsrc : ∀ j : Nat, j < fc.lcns.length →
      0 ≤ fc.lcns.getD j 0 ∧ fc.lcns.getD j 0 < (total : Int) ∧
        bitVal bm0 (fc.lcns.getD j 0).toNat = 1) :
    ∀ (n i : Nat) (st : MoveState), i + n = fc.lcns.length →
      (∀ j : Nat, i ≤ j → st.fc.lcns.getD j 0 = fc.lcns.getD j 0) →
      st.volumeBitmap.length = bm0.length →
      (∀ p, runStart ≤ p → p < runStart + i → bitVal st.volumeBitmap p = 1) →
      (∀ j : Nat, j < i → bitVal st.volumeBitmap (fc.lcns.getD j 0).toNat = 0) →
      (∀ p, ¬ (runStart ≤ p ∧ p < runStart + i) →
        (∀ j : Nat, j < i → (fc.lcns.getD j 0).toNat ≠ p) →
        bitVal st.volumeBitmap p = bitVal bm0 p) →
      (defragMoveLoop move runStart n i st).volumeBitmap.length = bm0.length ∧
      (∀ p, runStart ≤ p → p < runStart + fc.lcns.length →
        bitVal (defragMoveLoop move runStart n i st).volumeBitmap p = 1) ∧
      (∀ j : Nat, j < fc.lcns.length →
        bitVal (defragMoveLoop move runStart n i st).volumeBitmap (fc.lcns.getD j 0).toNat = 0) ∧
      (∀ p, ¬ (runStart ≤ p ∧ p < runStart + fc.lcns.length) →
        (∀ j : Nat, j < fc.lcns.length → (fc.lcns.getD j 0).toNat ≠ p) →
        bitVal (defragMoveLoop move runStart n i st).volumeBitmap p = bitVal bm0 p) := by
  -- no source cluster lies in the target run
  have hout : ∀ j : Nat, j < fc.lcns.length →
      ¬ (runStart ≤ (fc.lcns.getD j 0).toNat ∧
        (fc.lcns.getD j 0).toNat < runStart + fc.lcns.length) := by
    intro j hj hin
    have h1 := (hsrc j hj).2.2
    have h2 := hfree _ hin.1 hin.2
    omega
  intro n
  induction n with
  | zero =>
    intro i st hlen _ hl ha hb hc
    have hi : i = fc.lcns.length := by omega
    subst hi
    exact ⟨hl, ha, hb, hc⟩
  | succ n ih =>
    intro i st hlen hrest hl ha hb hc
    have hi : i < fc.lcns.length := by omega
    obtain ⟨s0, s1, s2⟩ := hsrc i hi
    have hnot := hout i hi
    have hcur := hrest i (le_refl _)
    have hne : ¬ (fc.lcns.getD i 0 = (runStart : Int) + (i : Int)) := by
      intro h
      apply hnot
      rw [h]
      omega
    have hstep : defragMoveStep move runStart i st =
        { volumeBitmap := setBit (clearBit st.volumeBitmap (fc.lcns.getD i 0).toNat)
            (runStart + i),
          fc := { st.fc with lcns := st.fc.lcns.set i ((runStart : Int) + (i : Int)) },
          moves := st.moves ++ [(st.fc.vcns.getD i 0, (runStart : Int) + (i : Int))] } := by
      unfold defragMoveStep
      have ht : ((runStart : Int) + (i : Int)).toNat = runStart + i := by omega
      simp only [hcur, hne, if_false, hmove, Bool.not_true, Bool.false_eq_true, ht]
    unfold defragMoveLoop
    rw [hstep]
    have hsb : (fc.lcns.getD i 0).toNat < 8 * st.volumeBitmap.length := by
      rw [hl]; omega
    have hdb : runStart + i < 8 * (clearBit st.volumeBitmap (fc.lcns.getD i 0).toNat).length := by
      rw [length_clearBit, hl]; omega
    have hsd : (fc.lcns.getD i 0).toNat ≠ runStart + i := by
      intro h; apply hnot; rw [h]; omega
    apply ih (i + 1) _ (by omega)
    · intro j hj
      show (st.fc.lcns.set i _).getD j 0 = _
      rw [getD_set_int_other _ _ _ _ (by omega)]
      exact hrest j (by omega)
    · show (setBit (clearBit st.volumeBitmap _) _).length = _
      rw [length_setBit, length_clearBit, hl]
    · intro p hp1 hp2
      show bitVal (setBit (clearBit st.volumeBitmap _) _) p = 1
      by_cases hpd : p = runStart + i
      · rw [hpd]; exact bitVal_setBit_same _ _ hdb
      · rw [bitVal_setBit_other _ _ _ hpd, bitVal_clearBit_other _ _ _ (by
          intro h; apply hnot; rw [← h]; omega)]
        exact ha p hp1 (by omega)
    · intro j hj
      show bitVal (setBit (clearBit st.volumeBitmap _) _) _ = 0
      have hjout := hout j (by omega)
      rw [bitVal_setBit_other _ _ _ (by intro h; apply hjout; rw [h]; omega)]
      by_cases hsame : (fc.lcns.getD j 0).toNat = (fc.lcns.getD i 0).toNat
      · rw [hsame]; exact bitVal_clearBit_same _ _ hsb
      · rw [bitVal_clearBit_other _ _ _ hsame]
        have hji : j ≠ i := by intro h; apply hsame; rw [h]
        exact hb j (by omega)
    · intro p hp hq
      show bitVal (setBit (clearBit st.volumeBitmap _) _) p = _
      have hpd : p ≠ runStart + i := by intro h; apply hp; omega
      have hps : p ≠ (fc.lcns.getD i 0).toNat := fun h => hq i (by omega) h.symm
      rw [bitVal_setBit_other _ _ _ hpd, bitVal_clearBit_other _ _ _ hps]
      exact hc p (by intro h; apply hp; omega) (fun j hj => hq j (by omega))

theorem getD_mem_int (l : List Int) (i : Nat) (h : i < l.length) : l.getD i 0 ∈ l := by
  rw [List.getD_eq_getElem _ _ h]
  exact List.getElem_mem h

theorem mem_getD_int (l : List Int) (x : Int) (h : x ∈ l) :
    ∃ i, i < l.length ∧ l.getD i 0 = x := by
  obtain ⟨i, hi, rfl⟩ := List.getElem_of_mem h
  exact ⟨i, hi, List.getD_eq_getElem _ _ hi⟩

/-- C25. Let the bitmap cover `totalClusters`, let every LCN of the map `fc` be in
`[0, totalClusters)` and marked allocated, let the map be non-contiguous, let
`FindContiguousFreeBlock` find a run at `runStart` and let every relocation
succeed.  Then after `DefragmentFile` every cluster of
`[runStart, runStart + count)` is marked allocated, every original LCN of the
file is marked free, every other bit is as before, and no original LCN lies in
the target run. -/
theorem C25_defrag_bitmap_frame (query : Nat → Int → RetrievalResponse) (headerSize : Nat)
    (move : Nat → Int → Int → Bool) (volumeBitmap : List Nat) (totalClusters fuel : Nat)
    (fc : FileClusters) (reqs : List Int) (runStart : Nat)
    (hget : GetAllFileRetrievalPointers query headerSize fuel = some ⟨true, fc, reqs⟩)
    (hfrag : ∃ i : Nat, 1 ≤ i ∧ i < fc.lcns.length ∧
      fc.lcns.getD i 0 ≠ fc.lcns.getD (i - 1) 0 + 1)
    (hrun : FindContiguousFreeBlock volumeBitmap totalClusters fc.lcns.length = some runStart)
    (hmove : ∀ k v d, move k v d = true)
    (hbytes : totalClusters ≤ 8 * volumeBitmap.length)
    (hsrc : ∀ l ∈ fc.lcns, 0 ≤ l ∧ l < (totalClusters : Int) ∧
      bitVal volumeBitmap l.toNat = 1) :
    ∃ res, DefragmentFile true query headerSize move volumeBitmap totalClusters fuel = some res ∧
      res.ret = true ∧ res.st.volumeBitmap.length = volumeBitmap.length ∧
      (∀ p, runStart ≤ p → p < runStart + fc.lcns.length →
        bitVal res.st.volumeBitmap p = 1) ∧
      (∀ l ∈ fc.lcns, bitVal res.st.volumeBitmap l.toNat = 0) ∧
      (∀ p, ¬ (runStart ≤ p ∧ p < runStart + fc.lcns.length) →
        (∀ l ∈ fc.lcns, l.toNat ≠ p) →
        bitVal res.st.volumeBitmap p = bitVal volumeBitmap p) ∧
      (∀ l ∈ fc.lcns, ¬ (runStart ≤ l.toNat ∧ l.toNat < runStart + fc.lcns.length)) := by
  obtain ⟨i, h1, h2, h3⟩ := hfrag
  have hloop : isContiguousLoop fc.lcns (fc.lcns.length - 1) 1 = false :=
    isContiguousLoop_false fc.lcns _ 1 ⟨i, h1, by omega, h3⟩
  have hemp : fc.lcns.isEmpty = false := by
    cases h : fc.lcns with
    | nil => rw [h] at h2; simp at h2
    | cons a l => rfl
  have hsound := findBlockLoop_sound volumeBitmap fc.lcns.length totalClusters totalClusters
    0 0 0 runStart (by omega) (by omega) (by omega) (by intro h; omega)
    (by intro j _ hj; omega) hrun
  have hfree : ∀ p, runStart ≤ p → p < runStart + fc.lcns.length →
      bitVal volumeBitmap p = 0 := by
    intro p hp1 hp2
    have := (freeRun_iff _ _ _).1 hsound.2 (p - runStart) (by omega)
    rwa [show runStart + (p - runStart) = p by omega] at this
  obtain ⟨r0, r1, r2, r3⟩ := defragMoveLoop_bits move hmove fc volumeBitmap runStart
    totalClusters hbytes hsound.1 hfree
    (fun j hj => hsrc _ (getD_mem_int fc.lcns j hj))
    fc.lcns.length 0 ⟨volumeBitmap, fc, []⟩ (by omega) (fun _ _ => rfl) rfl
    (by intro p h1 h2; omega) (by intro j hj; omega) (fun _ _ _ => rfl)
  refine ⟨⟨true, defragMoveLoop move runStart fc.lcns.length 0 ⟨volumeBitmap, fc, []⟩⟩,
    ?_, rfl, r0, r1, ?_, ?_, ?_⟩
  · unfold DefragmentFile
    simp [hget, hemp, hloop, hrun]
  · intro l hl
    obtain ⟨j, hj, rfl⟩ := mem_getD_int fc.lcns l hl
    exact r2 j hj
  · intro p hp hq
    exact r3 p hp (fun j hj => hq _ (getD_mem_int fc.lcns j hj))
  · intro l hl hin
    have ha := (hsrc l hl).2.2
    have hf := hfree _ hin.1 hin.2
    omega

/-- C25, the scenario of the specification: the file at LCN 10, 11, 12 and 50
moves into the free run at LCN 20-23 of `scenarioBitmap`; the bytes become
`[255, 227, 255, 0, 0, 0, 0, 0]`. -/
theorem C25_defrag_bitmap_frame_witness :
    ∃ res, DefragmentFile true scenarioFileQuery 32 (fun _ _ _ => true) scenarioBitmap 64 2 =
        some res ∧
      res.ret = true ∧ res.st.volumeBitmap.length = scenarioBitmap.length ∧
      (∀ p, 20 ≤ p → p < 20 + ([10, 11, 12, 50] : List Int).length →
        bitVal res.st.volumeBitmap p = 1) ∧
      (∀ l ∈ ([10, 11, 12, 50] : List Int), bitVal res.st.volumeBitmap l.toNat = 0) ∧
      (∀ p, ¬ (20 ≤ p ∧ p < 20 + ([10, 11, 12, 50] : List Int).length) →
        (∀ l ∈ ([10, 11, 12, 50] : List Int), l.toNat ≠ p) →
        bitVal res.st.volumeBitmap p = bitVal scenarioBitmap p) ∧
      (∀ l ∈ ([10, 11, 12, 50] : List Int),
        ¬ (20 ≤ l.toNat ∧ l.toNat < 20 + ([10, 11, 12, 50] : List Int).length)) :=
  C25_defrag_bitmap_frame scenarioFileQuery 32 (fun _ _ _ => true) scenarioBitmap 64 2
    ⟨[0, 1, 2, 3], [10, 11, 12, 50]⟩ [0, 4] 20 (by decide)
    ⟨3, by decide, by decide, by decide⟩ (by decide) (fun _ _ _ => rfl) (by decide)
    (by decide)

/-! ## The free count is preserved by relocations -/

theorem count_swap (f g : Nat → Bool) (s d : Nat) (hsd : s ≠ d)
    (hfs : f s = false) (hgs : g s = true) (hfd : f d = true) (hgd : g d = false)
    (hoth : ∀ p, p ≠ s → p ≠ d → g p = f p) :
    ∀ m, ((List.range m).filter g).length + (if d < m then 1 else 0) =
      ((List.range m).filter f).length + (if s < m then 1 else 0) := by
  intro m
  induction m with
  | zero => simp
  | succ m ih =>
    rw [List.range_succ, List.filter_append, List.filter_append, List.length_append,
      List.length_append]
    by_cases hms : m = s
    · subst hms
      have hmd : ¬ (d = m) := fun h => hsd h.symm
      simp only [List.filter_cons, List.filter_nil, hfs, hgs, if_true, Bool.false_eq_true,
        if_false, List.length_cons, List.length_nil]
      split_ifs at ih ⊢ <;> omega
    · by_cases hmd : m = d
      · subst hmd
        simp only [List.filter_cons, List.filter_nil, hfd, hgd, if_true, Bool.false_eq_true,
          if_false, List.length_cons, List.length_nil]
        split_ifs at ih ⊢ <;> omega
      · have hg := hoth m hms hmd
        simp only [List.filter_cons, List.filter_nil, hg]
        cases hf : f m
        · simp only [Bool.false_eq_true, if_false, List.length_nil]
          split_ifs at ih ⊢ <;> omega
        · simp only [if_true, List.length_cons, List.length_nil]
          split_ifs at ih ⊢ <;> omega

theorem relocateBits_length (bm : List Nat) (s d : Nat) :
    (relocateBits bm s d).length = bm.length := by
  unfold relocateBits
  rw [length_setBit, length_clearBit]

theorem relocateBits_count (bm : List Nat) (total s d : Nat) (hbytes : total ≤ 8 * bm.length)
    (hs : s < total) (hd : d < total) (hsd : s ≠ d)
    (hsa : bitVal bm s = 1) (hdf : bitVal bm d = 0) :
    CountFreeClusters (relocateBits bm s d) total = CountFreeClusters bm total := by
  rw [CountFreeClusters_eq, CountFreeClusters_eq]
  unfold freeClusters
  have h := count_swap (IsClusterFree bm) (IsClusterFree (relocateBits bm s d)) s d hsd
    (by simp [IsClusterFree, hsa])
    (by
      unfold relocateBits
      simp only [IsClusterFree, bitVal_setBit_other _ _ _ hsd,
        bitVal_clearBit_same _ _ (show s < 8 * bm.length by omega), beq_self_eq_true])
    (by simp [IsClusterFree, hdf])
    (by
      unfold relocateBits
      simp [IsClusterFree, bitVal_setBit_same _ _
        (show d < 8 * (clearBit bm s).length by rw [length_clearBit]; omega)])
    (by
      intro p hps hpd
      unfold relocateBits
      simp only [IsClusterFree, bitVal_setBit_other _ _ _ hpd, bitVal_clearBit_other _ _ _ hps])
    total
  rw [if_pos hd, if_pos hs] at h
  omega

theorem applyMoves_count (total : Nat) :
    ∀ (moves : List (Nat × Nat)) (bm : List Nat), total ≤ 8 * bm.length →
      SuchMoves total bm moves →
      CountFreeClusters (applyMoves bm moves) total = CountFreeClusters bm total := by
  intro moves
  induction moves with
  | nil => intro bm _ _; rfl
  | cons mv rest ih =>
    intro bm hbytes h
    obtain ⟨s, d⟩ := mv
    obtain ⟨h1, h2, h3, h4, h5, h6⟩ := h
    show CountFreeClusters (applyMoves (relocateBits bm s d) rest) total = _
    rw [ih _ (by rw [relocateBits_length]; exact hbytes) h6]
    exact relocateBits_count bm total s d hbytes h1 h2 h3 h4 h5

/-- C26. On a bitmap that covers `totalClusters`, the update of a successful
relocation whose source is marked allocated and whose destination is marked
free (both below `totalClusters`, source different from destination) leaves
`CountFreeClusters` unchanged; so does any sequence of such relocations; and so
does one iteration of the move loop of `DefragmentFile` and of
`FragmentFileRandomly` whose source cluster is in range and marked allocated
(for `DefragmentFile` with its target in range and marked free), whether the
move succeeds or not. -/
theorem C26_free_count_invariant (totalClusters : Nat) :
    (∀ (bm : List Nat) (s d : Nat), totalClusters ≤ 8 * bm.length →
      s < totalClusters → d < totalClusters → s ≠ d → bitVal bm s = 1 → bitVal bm d = 0 →
      CountFreeClusters (relocateBits bm s d) totalClusters =
        CountFreeClusters bm totalClusters) ∧
    (∀ (bm : List Nat) (moves : List (Nat × Nat)), totalClusters ≤ 8 * bm.length →
      SuchMoves totalClusters bm moves →
      CountFreeClusters (applyMoves bm moves) totalClusters =
        CountFreeClusters bm totalClusters) ∧
    (∀ (move : Nat → Int → Int → Bool) (blockStart i : Nat) (st : MoveState) (src : Nat),
      totalClusters ≤ 8 * st.volumeBitmap.length →
      st.fc.lcns.getD i 0 = (src : Int) → src < totalClusters →
      blockStart + i < totalClusters →
      bitVal st.volumeBitmap src = 1 → bitVal st.volumeBitmap (blockStart + i) = 0 →
      CountFreeClusters (defragMoveStep move blockStart i st).volumeBitmap totalClusters =
        CountFreeClusters st.volumeBitmap totalClusters) ∧
    (∀ (rand : Nat → Nat) (move : Nat → Int → Int → Bool) (randCalls : Nat) (st : MoveState)
      (src : Nat), 1 ≤ totalClusters → totalClusters ≤ 8 * st.volumeBitmap.length →
      st.fc.lcns.getD (rand randCalls % st.fc.vcns.length) 0 = (src : Int) →
      src < totalClusters → bitVal st.volumeBitmap src = 1 →
      CountFreeClusters (fragMoveStep rand move totalClusters randCalls st).2.1.volumeBitmap
          totalClusters =
        CountFreeClusters st.volumeBitmap totalClusters) := by
  refine ⟨fun bm s d hb hs hd hsd hsa hdf =>
      relocateBits_count bm totalClusters s d hb hs hd hsd hsa hdf,
    fun bm moves hb h => applyMoves_count totalClusters moves bm hb h, ?_, ?_⟩
  · intro move blockStart i st src hb hsrc hs hd hsa hdf
    have hsd : src ≠ blockStart + i := by
      intro h; rw [h] at hsa; omega
    have hne : ¬ ((src : Int) = (blockStart : Int) + (i : Int)) := by omega
    have ht : ((blockStart : Int) + (i : Int)).toNat = blockStart + i := by omega
    unfold defragMoveStep
    simp only [hsrc, hne, if_false, Int.toNat_ofNat, ht]
    split_ifs
    · rfl
    · exact relocateBits_count st.volumeBitmap totalClusters src (blockStart + i) hb hs hd
        hsd hsa hdf
  · intro rand move randCalls st src hpos hb hsrc hs hsa
    unfold fragMoveStep
    cases hfd : findFreeDestination rand st.volumeBitmap totalClusters (randCalls + 1) with
    | mk found k =>
      cases found with
      | none => rfl
      | some c =>
        have hc := findFreeDestination_some rand st.volumeBitmap totalClusters (randCalls + 1)
          hpos c (by rw [hfd])
        have hsd : src ≠ c := by
          intro h; rw [h] at hsa; omega
        simp only [hsrc, Int.toNat_ofNat]
        split_ifs
        · rfl
        · exact relocateBits_count st.volumeBitmap totalClusters src c hb hs hc.1 hsd hsa hc.2

/-- C26 on a volume of 8 clusters with only cluster 3 allocated (7 free clusters):
the relocation of cluster 3 to cluster 5, alone and followed by the relocation
of cluster 5 to cluster 0, and the corresponding iterations of both move loops
leave 7 free clusters. -/
theorem C26_free_count_invariant_witness :
    CountFreeClusters [8] 8 = 7 ∧
    CountFreeClusters (relocateBits [8] 3 5) 8 = CountFreeClusters [8] 8 ∧
    CountFreeClusters (applyMoves [8] [(3, 5), (5, 0)]) 8 = CountFreeClusters [8] 8 ∧
    CountFreeClusters (defragMoveStep (fun _ _ _ => true) 5 0
      ⟨[8], ⟨[0], [3]⟩, []⟩).volumeBitmap 8 = CountFreeClusters [8] 8 ∧
    CountFreeClusters (fragMoveStep (fun _ => 5) (fun _ _ _ => true) 8 0
      ⟨[8], ⟨[0], [3]⟩, []⟩).2.1.volumeBitmap 8 = CountFreeClusters [8] 8 :=
  have h := C26_free_count_invariant 8
  ⟨by decide,
    h.1 [8] 3 5 (by decide) (by decide) (by decide) (by decide) (by decide) (by decide),
    h.2.1 [8] [(3, 5), (5, 0)] (by decide) (by simp only [SuchMoves]; decide),
    h.2.2.1 (fun _ _ _ => true) 5 0 ⟨[8], ⟨[0], [3]⟩, []⟩ 3 (by decide) (by decide)
      (by decide) (by decide) (by decide) (by decide),
    h.2.2.2 (fun _ => 5) (fun _ _ _ => true) 0 ⟨[8], ⟨[0], [3]⟩, []⟩ 3 (by decide) (by decide)
      (by decide) (by decide) (by decide)⟩

/-! ## Termination of the bitmap assembly -/

theorem bitmapLoop_step_progress (query : Nat → Int → BitmapResponse) (hs total fuel k : Nat)
    (v : Int) (out : List Nat) (reqs : List Int) :
    (∃ out', bitmapLoop query hs total (fuel + 1) k v out reqs = some (out', reqs ++ [v])) ∨
    (∃ out', bitmapLoop query hs total (fuel + 1) k v out reqs =
        bitmapLoop query hs total fuel (k + 1)
          ((query k v).StartingLcn + clampChunkBits hs (query k v)) out' (reqs ++ [v]) ∧
      hs ≤ (query k v).bytesReturned ∧
      (query k v).StartingLcn + clampChunkBits hs (query k v) ≤ (total : Int) - 1 ∧
      (((query k v).success = false ∧ (query k v).moreData = true) ∨
        ((query k v).success = true ∧ clampChunkBits hs (query k v) ≠ 0))) := by
  conv => lhs; unfold bitmapLoop
  conv => rhs; arg 1; intro out'; lhs; lhs; unfold bitmapLoop
  by_cases hhdr : (query k v).bytesReturned < hs
  · left
    exact ⟨out, by simp only [hhdr, if_true]⟩
  · simp only [hhdr, if_false]
    cases hsucc : (query k v).success
    · cases hmore : (query k v).moreData
      · left
        exact ⟨(copyBitsLoop (query k v).Buffer (query k v).StartingLcn total
            (clampChunkBits hs (query k v)).toNat 0 out), by simp⟩
      · by_cases hend : (query k v).StartingLcn + clampChunkBits hs (query k v) >
            (total : Int) - 1
        · left
          exact ⟨(copyBitsLoop (query k v).Buffer (query k v).StartingLcn total
            (clampChunkBits hs (query k v)).toNat 0 out), by simp [hend]⟩
        · right
          exact ⟨(copyBitsLoop (query k v).Buffer (query k v).StartingLcn total
            (clampChunkBits hs (query k v)).toNat 0 out), by simp [hend], Nat.not_lt.1 hhdr, not_lt.1 hend, Or.inl ⟨rfl, rfl⟩⟩
    · by_cases hend : clampChunkBits hs (query k v) = 0 ∨
          (query k v).StartingLcn + clampChunkBits hs (query k v) > (total : Int) - 1
      · left
        exact ⟨(copyBitsLoop (query k v).Buffer (query k v).StartingLcn total
            (clampChunkBits hs (query k v)).toNat 0 out), by simp [hend]⟩
      · right
        refine ⟨(copyBitsLoop (query k v).Buffer (query k v).StartingLcn total
            (clampChunkBits hs (query k v)).toNat 0 out), by simp [hend], Nat.not_lt.1 hhdr, ?_, Or.inr ⟨rfl, ?_⟩⟩
        · exact not_lt.1 (fun h => hend (Or.inr h))
        · exact fun h => hend (Or.inl h)

theorem bitmapLoop_terminates (query : Nat → Int → BitmapResponse) (hs total : Nat)
    (hprog : ProgressingVolume total hs query) :
    ∀ (fuel k L : Nat) (out : List Nat) (reqs : List Int), L < total → total - L ≤ fuel →
      ∃ out' tail, bitmapLoop query hs total fuel k (L : Int) out reqs =
          some (out', reqs ++ tail) ∧
        tail.length ≤ total - L ∧ List.Pairwise (· < ·) tail ∧
        tail.head? = some (L : Int) ∧ ∀ x ∈ tail, (L : Int) ≤ x := by
  intro fuel
  induction fuel with
  | zero => intro k L out reqs h1 h2; omega
  | succ fuel ih =>
    intro k L out reqs hL hfuel
    obtain ⟨p1, p2, p3, p4⟩ := hprog k L hL
    have hclamp := clampChunkBits_eq hs _ p2 p3
    rcases bitmapLoop_step_progress query hs total fuel k (L : Int) out reqs with
      ⟨out', h⟩ | ⟨out', h, _, hle, hstat⟩
    · exact ⟨out', [(L : Int)], h, by simp; omega, List.pairwise_singleton _ _, rfl,
        by intro x hx; rw [List.mem_singleton.1 hx]⟩
    · rw [p1, hclamp] at hle h
      have hd : 1 ≤ deliveredBits hs (query k (L : Int)) := by
        rcases hstat with ⟨s1, s2⟩ | ⟨_, s2⟩
        · exact p4 s1 s2
        · rw [hclamp] at s2
          have : deliveredBits hs (query k (L : Int)) ≠ 0 := by
            intro h0; apply s2; rw [h0]; rfl
          omega
      generalize deliveredBits hs (query k (L : Int)) = d at hle h hd
      rw [← Int.natCast_add] at h
      obtain ⟨out2, tail, e1, e2, e3, e4, e5⟩ := ih (k + 1) (L + d) out' (reqs ++ [(L : Int)])
        (by omega) (by omega)
      refine ⟨out2, (L : Int) :: tail, ?_, ?_, ?_, rfl, ?_⟩
      · rw [h, e1]; simp
      · simp only [List.length_cons]; omega
      · rw [List.pairwise_cons]
        refine ⟨fun x hx => ?_, e3⟩
        have := e5 x hx
        push_cast at this
        omega
      · intro x hx
        rcases List.mem_cons.1 hx with hx | hx
        · rw [hx]
        · have := e5 x hx
          push_cast at this
          omega

theorem bitmapLoop_stall :
    ∀ (fuel k : Nat) (out : List Nat) (reqs : List Int),
      bitmapLoop stallQuery 24 8 fuel k 0 out reqs = none := by
  intro fuel
  induction fuel with
  | zero => intro k out reqs; rfl
  | succ fuel ih =>
    intro k out reqs
    have hq : stallQuery k 0 = ⟨false, true, 24, 0, 8, []⟩ := rfl
    have hc : clampChunkBits 24 ⟨false, true, 24, 0, 8, []⟩ = 0 := by decide
    unfold bitmapLoop
    simp only [hq, hc, Nat.lt_irrefl, if_false, Bool.not_false, if_true, Int.toNat_zero,
      copyBitsLoop, add_zero]
    rw [if_neg (by decide)]
    exact ih _ _ _

/-- C27. On a volume of `totalClusters ≥ 1` clusters and for every response
sequence that makes progress (each response reports the requested starting
LCN, declares a non-negative `BitmapSize`, and delivers at least one bit when
its status is partial success), `GetVolumeBitmapChunked` returns within
`totalClusters` queries: with fuel for `totalClusters` queries it gives a result,
its first request is LCN 0, it issues at most `totalClusters` requests, and the
requested starting LCNs are strictly increasing. -/
theorem C27_assembly_terminates (query : Nat → Int → BitmapResponse)
    (headerSize totalClusters : Nat) (hpos : 1 ≤ totalClusters)
    (hprog : ProgressingVolume totalClusters headerSize query)
    (fuel : Nat) (hfuel : totalClusters ≤ fuel) :
    ∃ res, GetVolumeBitmapChunked query headerSize totalClusters fuel = some res ∧
      res.requests.length ≤ totalClusters ∧ res.requests.head? = some 0 ∧
      List.Pairwise (· < ·) res.requests := by
  obtain ⟨out', tail, e1, e2, e3, e4, _⟩ :=
    bitmapLoop_terminates query headerSize totalClusters hprog fuel 0 0
      (List.replicate ((totalClusters + 7) / 8) 0) [] (by omega) (by omega)
  simp only [Nat.cast_zero, List.nil_append] at e1 e4
  refine ⟨⟨!out'.isEmpty, out', tail⟩, ?_, by simpa using e2, e4, e3⟩
  unfold GetVolumeBitmapChunked
  simp only [e1]

theorem sampleBitmapQuery_progressing : ProgressingVolume 12 24 sampleBitmapQuery := by
  intro k lcn h
  simp only [sampleBitmapQuery]
  interval_cases lcn <;> decide

/-- C27 on the sample volume of 12 clusters: two queries, at LCN 0 and 8.  The
hypothesis on partial-success responses is needed: the oracle that delivers no
bit with partial success is asked for LCN 0 again and again, and the run does
not return for any amount of fuel. -/
theorem C27_assembly_terminates_witness :
    (∃ res, GetVolumeBitmapChunked sampleBitmapQuery 24 12 12 = some res ∧
      res.requests.length ≤ 12 ∧ res.requests.head? = some 0 ∧
      List.Pairwise (· < ·) res.requests) ∧
    (GetVolumeBitmapChunked sampleBitmapQuery 24 12 12).map (fun r => r.requests) =
      some [0, 8] ∧
    ∀ fuel, GetVolumeBitmapChunked stallQuery 24 8 fuel = none :=
  ⟨C27_assembly_terminates sampleBitmapQuery 24 12 (by decide) sampleBitmapQuery_progressing
      12 (by decide),
    by decide,
    fun fuel => by
      unfold GetVolumeBitmapChunked
      simp only [bitmapLoop_stall]⟩

/-! ## Every bitmap access is in bounds -/

theorem bitValChecked_eq (bitmap : List Nat) (c : Nat) (h : c / 8 < bitmap.length) :
    bitValChecked bitmap c = some (bitVal bitmap c) := by
  unfold bitValChecked bitVal
  simp only [List.getElem?_eq_getElem h, List.getD_eq_getElem _ _ h]

theorem IsClusterFreeChecked_eq (bitmap : List Nat) (c : Nat) (h : c / 8 < bitmap.length) :
    IsClusterFreeChecked bitmap c = some (IsClusterFree bitmap c) := by
  unfold IsClusterFreeChecked IsClusterFree
  rw [bitValChecked_eq bitmap c h]

theorem findBlockLoopChecked_eq (bitmap : List Nat) (N total : Nat)
    (hlen : total ≤ 8 * bitmap.length) :
    ∀ (n c runStart runLen : Nat), c + n ≤ total →
      findBlockLoopChecked bitmap N n c runStart runLen =
        some (findBlockLoop bitmap N n c runStart runLen) := by
  intro n
  induction n with
  | zero => intro c runStart runLen _; rfl
  | succ n ih =>
    intro c runStart runLen hc
    unfold findBlockLoopChecked findBlockLoop
    rw [IsClusterFreeChecked_eq bitmap c (by omega)]
    cases hf : IsClusterFree bitmap c
    · simp only [Bool.false_eq_true, if_false]
      exact ih _ _ _ (by omega)
    · simp only [if_true]
      by_cases hN : runLen + 1 = N
      · simp only [hN, if_true]
      · simp only [hN, if_false]
        exact ih (c + 1) _ _ (by omega)

theorem countFreeLoopChecked_eq (bitmap : List Nat) (total : Nat)
    (hlen : total ≤ 8 * bitmap.length) :
    ∀ (n c freeCount : Nat), c + n ≤ total →
      countFreeLoopChecked bitmap n c freeCount = some (countFreeLoop bitmap n c freeCount) := by
  intro n
  induction n with
  | zero => intro c freeCount _; rfl
  | succ n ih =>
    intro c freeCount hc
    unfold countFreeLoopChecked countFreeLoop
    rw [bitValChecked_eq bitmap c (by omega)]
    exact ih (c + 1) _ (by omega)

theorem linearFindLoopChecked_eq (bitmap : List Nat) (howMany : Int) (total : Nat)
    (hlen : total ≤ 8 * bitmap.length) :
    ∀ (n c : Nat) (out : List Nat), c + n ≤ total →
      linearFindLoopChecked bitmap howMany n c out =
        some (linearFindLoop bitmap howMany n c out) := by
  intro n
  induction n with
  | zero => intro c out _; rfl
  | succ n ih =>
    intro c out hc
    unfold linearFindLoopChecked linearFindLoop
    by_cases hlt : (out.length : Int) < howMany
    · simp only [hlt, if_true]
      rw [bitValChecked_eq bitmap c (by omega)]
      exact ih (c + 1) _ (by omega)
    · simp only [hlt, if_false]

theorem randomFindLoopChecked_eq (rand : Nat → Nat) (bitmap : List Nat) (howMany : Int)
    (total : Nat) (hpos : 1 ≤ total) (hlen : total ≤ 8 * bitmap.length) :
    ∀ (n attempts : Nat) (found : List Nat),
      randomFindLoopChecked rand bitmap total howMany n attempts found =
        some (randomFindLoop rand bitmap total howMany n attempts found) := by
  intro n
  induction n with
  | zero => intro attempts found; rfl
  | succ n ih =>
    intro attempts found
    unfold randomFindLoopChecked randomFindLoop
    have hcand : rand attempts % total < total := Nat.mod_lt _ (by omega)
    by_cases hlt : (found.length : Int) < howMany
    · simp only [hlt, if_true]
      rw [bitValChecked_eq bitmap _ (by omega)]
      exact ih _ _
    · simp only [hlt, if_false]

theorem defragMoveStep_inRange (move : Nat → Int → Int → Bool) (blockStart i total : Nat)
    (st : MoveState) (hdst : blockStart + i < total)
    (hall : ∀ l ∈ st.fc.lcns, 0 ≤ l ∧ l < (total : Int)) :
    (defragMoveStep move blockStart i st).volumeBitmap.length = st.volumeBitmap.length ∧
    (∀ l ∈ (defragMoveStep move blockStart i st).fc.lcns, 0 ≤ l ∧ l < (total : Int)) := by
  unfold defragMoveStep
  simp only []
  split_ifs
  · exact ⟨rfl, hall⟩
  · exact ⟨rfl, hall⟩
  · refine ⟨by rw [length_setBit, length_clearBit], ?_⟩
    intro l hl
    rcases List.mem_or_eq_of_mem_set hl with h | h
    · exact hall l h
    · rw [h]; omega

theorem fragMoveStep_inRange (rand : Nat → Nat) (move : Nat → Int → Int → Bool)
    (total randCalls : Nat) (st : MoveState) (hpos : 1 ≤ total)
    (hall : ∀ l ∈ st.fc.lcns, 0 ≤ l ∧ l < (total : Int)) :
    (fragMoveStep rand move total randCalls st).2.1.volumeBitmap.length =
      st.volumeBitmap.length ∧
    (∀ l ∈ (fragMoveStep rand move total randCalls st).2.1.fc.lcns, 0 ≤ l ∧ l < (total : Int)) ∧
    (fragMoveStep rand move total randCalls st).2.1.fc.vcns = st.fc.vcns ∧
    (fragMoveStep rand move total randCalls st).2.1.fc.lcns.length = st.fc.lcns.length := by
  unfold fragMoveStep
  cases hfd : findFreeDestination rand st.volumeBitmap total (randCalls + 1) with
  | mk found k =>
    cases found with
    | none => exact ⟨rfl, hall, rfl, rfl⟩
    | some c =>
      have hc := findFreeDestination_some rand st.volumeBitmap total (randCalls + 1) hpos c
        (by rw [hfd])
      simp only []
      split_ifs
      · exact ⟨rfl, hall, rfl, rfl⟩
      · refine ⟨by rw [length_setBit, length_clearBit], ?_, rfl, List.length_set _ _ _⟩
        intro l hl
        rcases List.mem_or_eq_of_mem_set hl with h | h
        · exact hall l h
        · rw [h]; omega

/-- C28. Let the bitmap have `ceil(totalClusters / 8)` bytes.  Then `c / 8` is a valid
index for every cluster `c < totalClusters`; `IsClusterFree` on such a cluster,
`FindContiguousFreeBlock`, `CountFreeClusters`, `LinearFindFreeClusters` and (for
`totalClusters ≥ 1`) `FindRandomFreeClusters` make no access outside the bitmap:
their bounds-checked variants give the same results.  In an iteration of the
move loop of `DefragmentFile` (target run inside the volume) and of
`FragmentFileRandomly` (`totalClusters ≥ 1`, non-empty map with as many LCNs as
VCNs), if every LCN of the map is in `[0, totalClusters)`, the clear and the set
are in bounds, the bitmap keeps its length and every LCN of the map stays in
`[0, totalClusters)`. -/
theorem C28_in_bounds (bitmap : List Nat) (totalClusters : Nat)
    (hlen : bitmap.length = (totalClusters + 7) / 8) :
    (∀ c, c < totalClusters →
      c / 8 < bitmap.length ∧ IsClusterFreeChecked bitmap c = some (IsClusterFree bitmap c)) ∧
    (∀ N, FindContiguousFreeBlockChecked bitmap totalClusters N =
      some (FindContiguousFreeBlock bitmap totalClusters N)) ∧
    CountFreeClustersChecked bitmap totalClusters =
      some (CountFreeClusters bitmap totalClusters) ∧
    (∀ howMany, LinearFindFreeClustersChecked bitmap totalClusters howMany =
      some (LinearFindFreeClusters bitmap totalClusters howMany)) ∧
    (1 ≤ totalClusters → ∀ rand howMany,
      FindRandomFreeClustersChecked rand bitmap totalClusters howMany =
        some (FindRandomFreeClusters rand bitmap totalClusters howMany)) ∧
    (∀ (move : Nat → Int → Int → Bool) (blockStart i : Nat) (st : MoveState),
      st.volumeBitmap.length = bitmap.length → i < st.fc.lcns.length →
      blockStart + st.fc.lcns.length ≤ totalClusters →
      (∀ l ∈ st.fc.lcns, 0 ≤ l ∧ l < (totalClusters : Int)) →
      clearBitChecked st.volumeBitmap (st.fc.lcns.getD i 0).toNat =
        some (clearBit st.volumeBitmap (st.fc.lcns.getD i 0).toNat) ∧
      setBitChecked (clearBit st.volumeBitmap (st.fc.lcns.getD i 0).toNat) (blockStart + i) =
        some (setBit (clearBit st.volumeBitmap (st.fc.lcns.getD i 0).toNat) (blockStart + i)) ∧
      (defragMoveStep move blockStart i st).volumeBitmap.length = bitmap.length ∧
      (∀ l ∈ (defragMoveStep move blockStart i st).fc.lcns,
        0 ≤ l ∧ l < (totalClusters : Int))) ∧
    (∀ (rand : Nat → Nat) (move : Nat → Int → Int → Bool) (randCalls : Nat) (st : MoveState),
      1 ≤ totalClusters → st.volumeBitmap.length = bitmap.length →
      st.fc.vcns ≠ [] → st.fc.vcns.length = st.fc.lcns.length →
      (∀ l ∈ st.fc.lcns, 0 ≤ l ∧ l < (totalClusters : Int)) →
      rand randCalls % st.fc.vcns.length < st.fc.lcns.length ∧
      clearBitChecked st.volumeBitmap
          (st.fc.lcns.getD (rand randCalls % st.fc.vcns.length) 0).toNat =
        some (clearBit st.volumeBitmap
          (st.fc.lcns.getD (rand randCalls % st.fc.vcns.length) 0).toNat) ∧
      (∀ c k, findFreeDestination rand st.volumeBitmap totalClusters (randCalls + 1) =
          (some c, k) →
        setBitChecked (clearBit st.volumeBitmap
            (st.fc.lcns.getD (rand randCalls % st.fc.vcns.length) 0).toNat) c =
          some (setBit (clearBit st.volumeBitmap
            (st.fc.lcns.getD (rand randCalls % st.fc.vcns.length) 0).toNat) c)) ∧
      (fragMoveStep rand move totalClusters randCalls st).2.1.volumeBitmap.length =
        bitmap.length ∧
      (∀ l ∈ (fragMoveStep rand move totalClusters randCalls st).2.1.fc.lcns,
        0 ≤ l ∧ l < (totalClusters : Int)) ∧
      (fragMoveStep rand move totalClusters randCalls st).2.1.fc.vcns.length =
        (fragMoveStep rand move totalClusters randCalls st).2.1.fc.lcns.length) := by
  have hbytes : totalClusters ≤ 8 * bitmap.length := by omega
  refine ⟨?_, ?_, ?_, ?_, ?_, ?_, ?_⟩
  · intro c hc
    exact ⟨by omega, IsClusterFreeChecked_eq bitmap c (by omega)⟩
  · intro N
    exact findBlockLoopChecked_eq bitmap N totalClusters hbytes totalClusters 0 0 0 (by omega)
  · exact countFreeLoopChecked_eq bitmap totalClusters hbytes totalClusters 0 0 (by omega)
  · intro howMany
    exact linearFindLoopChecked_eq bitmap howMany totalClusters hbytes totalClusters 0 []
      (by omega)
  · intro hpos rand howMany
    exact randomFindLoopChecked_eq rand bitmap howMany totalClusters hpos hbytes _ 0 []
  · intro move blockStart i st hl hi hfit hall
    have hsrc := hall _ (getD_mem_int st.fc.lcns i hi)
    obtain ⟨r1, r2⟩ := defragMoveStep_inRange move blockStart i totalClusters st (by omega) hall
    refine ⟨?_, ?_, by rw [r1, hl], r2⟩
    · unfold clearBitChecked
      rw [if_pos (by omega)]
    · unfold setBitChecked
      rw [if_pos (by rw [length_clearBit]; omega)]
  · intro rand move randCalls st hpos hl hne hvl hall
    have hvpos : 0 < st.fc.vcns.length := List.length_pos.2 hne
    have hidx : rand randCalls % st.fc.vcns.length < st.fc.lcns.length := by
      rw [← hvl]; exact Nat.mod_lt _ hvpos
    have hsrc := hall _ (getD_mem_int st.fc.lcns _ hidx)
    obtain ⟨r1, r2, r3, r4⟩ := fragMoveStep_inRange rand move totalClusters randCalls st hpos hall
    refine ⟨hidx, ?_, ?_, by rw [r1, hl], r2, by rw [r3, r4, hvl]⟩
    · unfold clearBitChecked
      rw [if_pos (by omega)]
    · intro c k hfd
      have hc := findFreeDestination_some rand st.volumeBitmap totalClusters (randCalls + 1)
        hpos c (by rw [hfd])
      unfold setBitChecked
      rw [if_pos (by rw [length_clearBit]; omega)]

/-- C28 on the bitmap `[1,1,0,0,0,1,0]` of 7 clusters in one byte: the checked
searches give the results of the plain ones, while a read of cluster 8 would be
outside the vector. -/
theorem C28_in_bounds_witness :
    FindContiguousFreeBlockChecked [35] 7 3 = some (some 2) ∧
    CountFreeClustersChecked [35] 7 = some 4 ∧
    LinearFindFreeClustersChecked [35] 7 3 = some [2, 3, 4] ∧
    bitValChecked [35] 8 = none ∧
    (∀ N, FindContiguousFreeBlockChecked [35] 7 N = some (FindContiguousFreeBlock [35] 7 N)) ∧
    (∀ rand howMany, FindRandomFreeClustersChecked rand [35] 7 howMany =
      some (FindRandomFreeClusters rand [35] 7 howMany)) :=
  have h := C28_in_bounds [35] 7 (by decide)
  ⟨by decide, by decide, by decide, by decide, h.2.1, h.2.2.2.2.1 (by decide)⟩
end Defrag
